import Mathlib

/-!
# fern-go SDK generator: embedding of `internal/generator/sdk.go`

The definitions below embed the generator of client code: the reformatting of an IR
endpoint (`endpointFromIR`: signature, request, response, base URL, path), the formatting
of values for transport, the ordering of environment URLs, and the writers `WriteClient`,
`WriteRequestType`, `WriteError`, `WriteClientOptionsDefinition`, `WriteClientOptions` and
`WriteEnvironments` with the blocks they are made of.  Go pointers that may
be nil are `Option`s, Go maps are lists of entries (one enumeration of the map), a Go
failure is an `Except` whose error is a returned `error` or a nil dereference, and what a
writer writes is the list of its lines.
-/

namespace FernGo

/-! ## The IR types used by the generator (package `ir`)

The declarations of package `ir` are not in sdk.go: every type below has the fields that
sdk.go reads, under the names it reads them by.  Unions that the generator reads through
their pointer fields (`x.Container != nil`) are inductive types with one accessor per
field; unions that it switches on by their `Type` string are structures holding that string
(the field `Type_`) and the optional payloads. -/

/-- Modelled from the spec: the declaration of `ir.PrimitiveType` is not in sdk.go, which
names only the date-time, date, base64 and string constants; section 4.3 lists the string,
bool and numeric families, a date, a date-time and a byte buffer for base64.  The Go type
is a string whose zero value `""` the generator reads as "no primitive": that value is
`none` of `Option PrimitiveType`. -/
inductive PrimitiveType where
  | PrimitiveTypeInteger
  | PrimitiveTypeDouble
  | PrimitiveTypeString
  | PrimitiveTypeBoolean
  | PrimitiveTypeLong
  | PrimitiveTypeDateTime
  | PrimitiveTypeDate
  | PrimitiveTypeUuid
  | PrimitiveTypeBase64
  deriving DecidableEq, Repr

/-- Modelled from the spec: the declaration of `ir.Literal` is not in sdk.go; section 3
gives a literal as a fixed scalar (string, boolean, number). -/
inductive Literal where
  | string (value : String)
  | boolean (value : Bool)
  | number (value : Int)
  deriving DecidableEq, Repr

abbrev TypeId := String

mutual
/-- The IR union `TypeReference`: exactly one of `Container`, `Named`, `Primitive` is
populated (`Unknown` populates none of them). -/
inductive TypeReference where
  | container (c : ContainerType)
  | named (id : TypeId)
  | primitive (p : PrimitiveType)
  | unknown
/-- The IR union `ContainerType`. -/
inductive ContainerType where
  | list (t : TypeReference)
  | map (k : TypeReference) (v : TypeReference)
  | optional (t : TypeReference)
  | set (t : TypeReference)
  | literal (l : Literal)
end

/-- The field `Primitive` of a type reference (`""` unless the reference is a primitive). -/
def TypeReference.Primitive : TypeReference → Option PrimitiveType
  | .primitive p => some p
  | _ => none

/-- The field `Named` of a type reference, read for its `TypeId` (nil unless the reference
is a named type). -/
def TypeReference.Named : TypeReference → Option TypeId
  | .named id => some id
  | _ => none

/-- The field `Container` of a type reference (nil unless the reference is a container). -/
def TypeReference.Container : TypeReference → Option ContainerType
  | .container c => some c
  | _ => none

/-- The field `Optional` of a container (nil unless the container is an optional). -/
def ContainerType.Optional : ContainerType → Option TypeReference
  | .optional t => some t
  | _ => none

/-- The field `Literal` of a container (nil unless the container is a literal). -/
def ContainerType.Literal : ContainerType → Option Literal
  | .literal l => some l
  | _ => none

/-- Go `ir.SafeAndUnsafeString`. -/
structure SafeAndUnsafeString where
  UnsafeName : String
  SafeName : String
  deriving DecidableEq, Repr

/-- Go `ir.Name` (the fields read by sdk.go). -/
structure Name where
  OriginalName : String
  CamelCase : SafeAndUnsafeString
  PascalCase : SafeAndUnsafeString
  deriving DecidableEq, Repr

/-- Go `ir.NameAndWireValue`. -/
structure NameAndWireValue where
  WireValue : String
  Name : Name
  deriving DecidableEq, Repr

/-- Go `ir.FernFilepath`; sdk.go reads none of its fields and only hands it to
`fernFilepathToImportPath`, so it is kept as the list of the names on the path. -/
structure FernFilepath where
  parts : List Name
  deriving DecidableEq, Repr

/-- Go `ir.PathParameter`. -/
structure PathParameter where
  Docs : Option String
  Name : Name
  ValueType : TypeReference

/-- Go `ir.QueryParameter`. -/
structure QueryParameter where
  Docs : Option String
  Name : NameAndWireValue
  ValueType : TypeReference
  AllowMultiple : Bool

/-- Go `ir.HttpHeader`. -/
structure HttpHeader where
  Docs : Option String
  Name : NameAndWireValue
  ValueType : TypeReference

/-- Go `ir.InlinedRequestBodyProperty`. -/
structure InlinedRequestBodyProperty where
  Docs : Option String
  Name : NameAndWireValue
  ValueType : TypeReference

/-- Go `ir.ObjectProperty`. -/
structure ObjectProperty where
  Docs : Option String
  Name : NameAndWireValue
  ValueType : TypeReference

/-- Go `ir.FileProperty`. -/
structure FileProperty where
  Key : NameAndWireValue
  IsOptional : Bool
  deriving DecidableEq, Repr

/-- Go `ir.FileUploadRequestProperty`: a file, a body property, or neither pointer set. -/
structure FileUploadRequestProperty where
  File : Option FileProperty
  BodyProperty : Option InlinedRequestBodyProperty

/-- Go `ir.FileUploadRequest`. -/
structure FileUploadRequest where
  Name : Name
  Properties : List FileUploadRequestProperty

/-- Go `ir.InlinedRequestBody`; `Extends` lists the ids of the extended types. -/
structure InlinedRequestBody where
  Name : Name
  Extends : List TypeId
  Properties : List InlinedRequestBodyProperty

/-- Go `ir.HttpRequestBodyReference`. -/
structure HttpRequestBodyReference where
  Docs : Option String
  RequestBodyType : TypeReference

/-- The IR union `HttpRequestBody`. -/
inductive HttpRequestBody where
  | inlinedRequestBody (b : InlinedRequestBody)
  | reference (r : HttpRequestBodyReference)
  | fileUpload (u : FileUploadRequest)
  | bytes

/-- The field `Reference` of a request body (nil unless it is a reference). -/
def HttpRequestBody.Reference : HttpRequestBody → Option HttpRequestBodyReference
  | .reference r => some r
  | _ => none

/-- The field `FileUpload` of a request body (nil unless it is a file upload). -/
def HttpRequestBody.FileUpload : HttpRequestBody → Option FileUploadRequest
  | .fileUpload u => some u
  | _ => none

/-- The IR union `SdkRequestBodyType`. -/
inductive SdkRequestBodyType where
  | typeReference (r : HttpRequestBodyReference)
  | bytes

/-- The field `TypeReference` of an SDK request body type. -/
def SdkRequestBodyType.TypeReference : SdkRequestBodyType → Option HttpRequestBodyReference
  | .typeReference r => some r
  | .bytes => none

/-- Go `ir.SdkRequestWrapper`. -/
structure SdkRequestWrapper where
  WrapperName : Name
  BodyKey : Name
  deriving DecidableEq, Repr

/-- The IR union `SdkRequestShape`. -/
inductive SdkRequestShape where
  | justRequestBody (b : SdkRequestBodyType)
  | wrapper (w : SdkRequestWrapper)

/-- The field `JustRequestBody` of an SDK request shape. -/
def SdkRequestShape.JustRequestBody : SdkRequestShape → Option SdkRequestBodyType
  | .justRequestBody b => some b
  | _ => none

/-- The field `Wrapper` of an SDK request shape. -/
def SdkRequestShape.Wrapper : SdkRequestShape → Option SdkRequestWrapper
  | .wrapper w => some w
  | _ => none

/-- Go `ir.SdkRequest`. -/
structure SdkRequest where
  RequestParameterName : Name
  Shape : SdkRequestShape

/-- Go `ir.JsonResponseBody`. -/
structure JsonResponseBody where
  Docs : Option String
  ResponseBodyType : Option TypeReference

/-- Go `ir.JsonResponseBodyWithProperty`. -/
structure JsonResponseBodyWithProperty where
  Docs : Option String
  ResponseBodyType : Option TypeReference
  ResponseProperty : Option ObjectProperty

/-- Go `ir.JsonResponse`, a union read by its `Type` string. -/
structure JsonResponse where
  Type_ : String
  Response : Option JsonResponseBody
  NestedPropertyAsResponse : Option JsonResponseBodyWithProperty

/-- Go `ir.StreamingResponseChunkType`, a union read by its `Type` string. -/
structure StreamingResponseChunkType where
  Type_ : String
  Json : Option TypeReference

/-- Go `ir.StreamingResponse`. -/
structure StreamingResponse where
  DataEventType : Option StreamingResponseChunkType
  Terminator : Option String

/-- Go `ir.HttpResponse`, a union read by its `Type` string; the file-download and text
payloads are never read by the generator. -/
structure HttpResponse where
  Type_ : String
  Json : Option JsonResponse
  Streaming : Option StreamingResponse

/-- Go `ir.HttpPathPart`. -/
structure HttpPathPart where
  PathParameter : String
  Tail : String
  deriving DecidableEq, Repr

/-- Go `ir.HttpPath`. -/
structure HttpPath where
  Head : String
  Parts : List HttpPathPart
  deriving DecidableEq, Repr

/-- Go `ir.DeclaredErrorName`. -/
structure DeclaredErrorName where
  ErrorId : String
  FernFilepath : FernFilepath
  Name : Name
  deriving DecidableEq, Repr

/-- Go `ir.ResponseError`. -/
structure ResponseError where
  Docs : Option String
  Error : DeclaredErrorName
  deriving DecidableEq, Repr

/-- Go `ir.ErrorDeclaration`; the Go field `Type` is the optional body type. -/
structure ErrorDeclaration where
  Docs : Option String
  Name : DeclaredErrorName
  DiscriminantValue : NameAndWireValue
  Type_ : Option TypeReference
  StatusCode : Int

/-- Go `ir.ErrorDiscriminationByPropertyStrategy`. -/
structure ErrorDiscriminationByPropertyStrategy where
  Discriminant : NameAndWireValue
  ContentProperty : NameAndWireValue
  deriving DecidableEq, Repr

/-- The IR union `ErrorDiscriminationStrategy`. -/
inductive ErrorDiscriminationStrategy where
  | statusCode
  | property (p : ErrorDiscriminationByPropertyStrategy)
  deriving DecidableEq, Repr

/-- The field `Property` of an error discrimination strategy. -/
def ErrorDiscriminationStrategy.Property :
    ErrorDiscriminationStrategy → Option ErrorDiscriminationByPropertyStrategy
  | .property p => some p
  | .statusCode => none

/-- Go `ir.Subpackage` (the fields read by sdk.go). -/
structure Subpackage where
  FernFilepath : FernFilepath
  Name : Name
  deriving DecidableEq, Repr

/-- Go `ir.ObjectTypeDeclaration`. -/
structure ObjectTypeDeclaration where
  Extends : List TypeId
  Properties : List ObjectProperty

/-- Go `literal` of the generator: a literal value and the name of the field it belongs
to. -/
structure literal where
  Name : Name
  Value : Literal
  deriving DecidableEq, Repr

/-- Go `ir.HttpMethod`: the five methods the generator names, or any other value. -/
inductive HttpMethod where
  | HttpMethodGet
  | HttpMethodPost
  | HttpMethodPut
  | HttpMethodPatch
  | HttpMethodDelete
  | other (value : String)
  deriving DecidableEq, Repr

abbrev EnvironmentId := String
abbrev EnvironmentBaseUrlId := String
abbrev EnvironmentUrl := String

/-- Go `ir.HttpEndpoint` (the fields read by sdk.go). -/
structure HttpEndpoint where
  Name : Name
  Docs : Option String
  Method : HttpMethod
  Headers : List HttpHeader
  BaseUrl : Option EnvironmentBaseUrlId
  FullPath : Option HttpPath
  AllPathParameters : List PathParameter
  QueryParameters : List QueryParameter
  RequestBody : Option HttpRequestBody
  SdkRequest : Option SdkRequest
  Response : Option HttpResponse
  Errors : List ResponseError

/-- Go `ir.SingleBaseUrlEnvironment`. -/
structure SingleBaseUrlEnvironment where
  Docs : Option String
  Id : EnvironmentId
  Name : Name
  Url : EnvironmentUrl
  deriving DecidableEq, Repr

/-- Go `ir.SingleBaseUrlEnvironments`. -/
structure SingleBaseUrlEnvironments where
  Environments : List SingleBaseUrlEnvironment
  deriving DecidableEq, Repr

/-- Go `ir.MultipleBaseUrlsEnvironment`; `Urls` is a Go map, given as the list of its
entries in the order in which a `range` over it enumerates them. -/
structure MultipleBaseUrlsEnvironment where
  Docs : Option String
  Id : EnvironmentId
  Name : Name
  Urls : List (EnvironmentBaseUrlId × EnvironmentUrl)
  deriving DecidableEq, Repr

/-- Go `ir.EnvironmentBaseUrlWithId`. -/
structure EnvironmentBaseUrlWithId where
  Id : EnvironmentBaseUrlId
  Name : Name
  deriving DecidableEq, Repr

/-- Go `ir.MultipleBaseUrlsEnvironments`. -/
structure MultipleBaseUrlsEnvironments where
  BaseUrls : List EnvironmentBaseUrlWithId
  Environments : List MultipleBaseUrlsEnvironment
  deriving DecidableEq, Repr

/-- The IR union `Environments`; its `Accept` calls the visitor method of the variant. -/
inductive Environments where
  | singleBaseUrl (url : SingleBaseUrlEnvironments)
  | multipleBaseUrls (url : MultipleBaseUrlsEnvironments)
  deriving DecidableEq, Repr

/-- Go `ir.EnvironmentsConfig`. -/
structure EnvironmentsConfig where
  DefaultEnvironment : Option EnvironmentId
  Environments : Environments
  deriving DecidableEq, Repr

/-! ## Value formatting -/

/-- Go `maybePrimitive`: the underlying primitive of a type reference, looking through
nested optional containers only. -/
def maybePrimitive : TypeReference → Option PrimitiveType
  | .primitive p => some p
  | .container (.optional t) => maybePrimitive t
  | _ => none

/-- Go `valueTypeFormat`. -/
structure valueTypeFormat where
  Prefix : String
  Suffix : String
  IsOptional : Bool
  IsPrimitive : Bool
  deriving DecidableEq, Repr

/-- Go `formatForValueType`.  The local `pre` is the Go variable holding the prefix: it
is `"*"` for an optional container, is assigned `"*"` again when the type is ultimately a
primitive and optional, is reset for dates and date-times and is kept inside the base64
call. -/
def formatForValueType (typeReference : TypeReference) : valueTypeFormat :=
  let isOptional := (typeReference.Container.bind ContainerType.Optional).isSome
  let pre := if isOptional then "*" else ""
  match maybePrimitive typeReference with
  | some primitive =>
    let pre := if isOptional then "*" else pre
    match primitive with
    | .PrimitiveTypeDateTime =>
      { Prefix := "", Suffix := ".Format(time.RFC3339)", IsOptional := isOptional,
        IsPrimitive := true }
    | .PrimitiveTypeDate =>
      { Prefix := "", Suffix := ".Format(\"2006-01-02\")", IsOptional := isOptional,
        IsPrimitive := true }
    | .PrimitiveTypeBase64 =>
      { Prefix := "base64.StdEncoding.EncodeToString(" ++ pre, Suffix := ")",
        IsOptional := isOptional, IsPrimitive := true }
    | _ => { Prefix := pre, Suffix := "", IsOptional := isOptional, IsPrimitive := true }
  | none => { Prefix := pre, Suffix := "", IsOptional := isOptional, IsPrimitive := false }

/-! ## Failures -/

/-- How a Go function fails: it returns an `error`, or it dereferences a nil pointer. -/
inductive Failure where
  | error (msg : String)
  | nilDereference
  deriving DecidableEq, Repr

/-! ## Environments -/

/-- Go `environmentURL`. -/
structure environmentURL where
  ID : EnvironmentBaseUrlId
  URL : EnvironmentUrl
  deriving DecidableEq, Repr

/-- Go `<` on strings: lexicographic on the bytes of the UTF-8 encoding, which orders two
strings as the lexicographic order on their characters does. -/
def stringLess (a b : String) : Bool := decide (a.toList < b.toList)

/-- Go `sort.Slice` (standard library): the slice reordered so that no element is `less`
than an element before it.  The order of elements neither of which is `less` than the
other is not fixed by the library; here it is the one of an insertion sort. -/
def sortSlice {α : Type} (less : α → α → Bool) (l : List α) : List α :=
  l.insertionSort (fun a b => less b a = false)

/-- Go `environmentURLMapToSortedSlice`; `urls` lists the map's entries in the order in
which the `range` enumerates them. -/
def environmentURLMapToSortedSlice
    (urls : List (EnvironmentBaseUrlId × EnvironmentUrl)) : List environmentURL :=
  sortSlice (fun a b => stringLess a.ID b.ID)
    (urls.map fun entry => { ID := entry.1, URL := entry.2 })

/-- Go `environmentsURLVisitor`. -/
structure environmentsURLVisitor where
  value : EnvironmentUrl
  id : EnvironmentBaseUrlId
  deriving DecidableEq, Repr

/-- The loop of `environmentsURLVisitor.VisitSingleBaseUrl`: the first environment whose
`Id` is the visitor's id sets the value and ends the visit. -/
def visitSingleBaseUrlLoop (e : environmentsURLVisitor) :
    List SingleBaseUrlEnvironment → environmentsURLVisitor
  | [] => e
  | environment :: rest =>
    if environment.Id = e.id then { e with value := environment.Url }
    else visitSingleBaseUrlLoop e rest

/-- Go `environmentsURLVisitor.VisitSingleBaseUrl`. -/
def environmentsURLVisitor.VisitSingleBaseUrl (url : SingleBaseUrlEnvironments)
    (e : environmentsURLVisitor) : Except Failure environmentsURLVisitor :=
  .ok (visitSingleBaseUrlLoop e url.Environments)

/-- The inner loop of `environmentsURLVisitor.VisitMultipleBaseUrls` over one environment's
URL map: the entry whose key is the visitor's id, if any. -/
def visitUrlsLoop (id : EnvironmentBaseUrlId) :
    List (EnvironmentBaseUrlId × EnvironmentUrl) → Option EnvironmentUrl
  | [] => none
  | entry :: rest => if entry.1 = id then some entry.2 else visitUrlsLoop id rest

/-- The outer loop of `environmentsURLVisitor.VisitMultipleBaseUrls`. -/
def visitMultipleBaseUrlsLoop (e : environmentsURLVisitor) :
    List MultipleBaseUrlsEnvironment → environmentsURLVisitor
  | [] => e
  | environment :: rest =>
    match visitUrlsLoop e.id environment.Urls with
    | some environmentURL => { e with value := environmentURL }
    | none => visitMultipleBaseUrlsLoop e rest

/-- Go `environmentsURLVisitor.VisitMultipleBaseUrls`. -/
def environmentsURLVisitor.VisitMultipleBaseUrls (url : MultipleBaseUrlsEnvironments)
    (e : environmentsURLVisitor) : Except Failure environmentsURLVisitor :=
  .ok (visitMultipleBaseUrlsLoop e url.Environments)

/-- Modelled from the spec: `(*ir.Environments).Accept` is defined in package `ir`, outside
sdk.go; by section 4.5 a visitor is a closed set of cases over the union, one per variant,
so `Accept` calls the visitor method of the populated variant. -/
def Environments.Accept {V : Type} (environments : Environments)
    (visitSingleBaseUrl : SingleBaseUrlEnvironments → V → Except Failure V)
    (visitMultipleBaseUrls : MultipleBaseUrlsEnvironments → V → Except Failure V)
    (visitor : V) : Except Failure V :=
  match environments with
  | .singleBaseUrl url => visitSingleBaseUrl url visitor
  | .multipleBaseUrls url => visitMultipleBaseUrls url visitor

/-- Go `environmentURLFromID`. -/
def environmentURLFromID (environmentsConfig : Option EnvironmentsConfig)
    (id : EnvironmentBaseUrlId) : Except Failure EnvironmentUrl :=
  match environmentsConfig with
  | none => .ok ""
  | some config =>
    match config.Environments.Accept environmentsURLVisitor.VisitSingleBaseUrl
        environmentsURLVisitor.VisitMultipleBaseUrls { value := "", id := id } with
    | .error err => .error err
    | .ok urlVisitor => .ok urlVisitor.value

/-! ## Request parameter -/

/-- Modelled from the spec: `fileUploadHasBodyProperties` is defined outside sdk.go; by
section 4.5 a file upload has "ordinary body fields" when one of its properties is not
file-typed, that is when some property's `BodyProperty` is set. -/
def fileUploadHasBodyProperties (fileUpload : FileUploadRequest) : Bool :=
  fileUpload.Properties.any fun property => property.BodyProperty.isSome

/-- Go `needsRequestParameter`. -/
def needsRequestParameter (endpoint : HttpEndpoint) : Bool :=
  match endpoint.SdkRequest with
  | none => false
  | some _ =>
    match endpoint.RequestBody with
    | some requestBody =>
      match requestBody.FileUpload with
      | none => true
      | some fileUpload => fileUploadHasBodyProperties fileUpload
    | none => true

/-! ## Endpoints -/

/-- Go `irMethodToMethodEnum`. -/
def irMethodToMethodEnum (method : HttpMethod) : String :=
  match method with
  | .HttpMethodGet => "http.MethodGet"
  | .HttpMethodPost => "http.MethodPost"
  | .HttpMethodPut => "http.MethodPut"
  | .HttpMethodPatch => "http.MethodPatch"
  | .HttpMethodDelete => "http.MethodDelete"
  | .other _ => ""

/-- Go `typeReferenceFromJsonResponse`; reading the body of a variant whose pointer is nil
is a nil dereference. -/
def typeReferenceFromJsonResponse (jsonResponse : Option JsonResponse) :
    Except Failure (Option TypeReference) :=
  match jsonResponse with
  | none => .ok none
  | some jsonResponse =>
    if jsonResponse.Type_ = "response" then
      match jsonResponse.Response with
      | none => .error .nilDereference
      | some body => .ok body.ResponseBodyType
    else if jsonResponse.Type_ = "nestedPropertyAsResponse" then
      match jsonResponse.NestedPropertyAsResponse with
      | none => .error .nilDereference
      | some body => .ok body.ResponseBodyType
    else .ok none

/-- Go `typeReferenceFromStreamingResponseChunkType`. -/
def typeReferenceFromStreamingResponseChunkType
    (chunkType : Option StreamingResponseChunkType) : Option TypeReference :=
  match chunkType with
  | none => none
  | some chunkType =>
    if chunkType.Type_ = "json" then chunkType.Json
    else if chunkType.Type_ = "text" then some (.primitive .PrimitiveTypeString)
    else none

/-- Go `endpoint`: the pre-formatted fields from which a client method is written. -/
structure endpoint where
  Name : Name
  Docs : Option String
  PathParameterDocs : List String
  ImportPath : String
  RequestParameterName : String
  RequestValueName : String
  ResponseType : String
  ResponseParameterName : String
  ResponseInitializerFormat : String
  ResponseIsOptionalParameter : Bool
  PathParameterNames : String
  SignatureParameters : String
  ReturnValues : String
  SuccessfulReturnValues : String
  ErrorReturnValues : String
  BaseURL : String
  PathSuffix : String
  Method : String
  IsStreaming : Bool
  StreamDelimiter : String
  ErrorDecoderParameterName : String
  Errors : List ResponseError
  QueryParameters : List QueryParameter
  Headers : List HttpHeader
  FileProperties : List FileProperty
  FileBodyProperties : List InlinedRequestBodyProperty

/-- The functions that sdk.go calls and that are defined in other files of the generator
(the scope of package `gospec`, the type mapper of model.go, the file writer), taken as
parameters.  `σ` is the state of all scopes and `Scope` the type of a pointer to one of
them; every function that may register a name or an import returns the new state.
`typeReferenceToGoType` takes the type reference, the scope, the base import path,
the import path and its boolean flag (the type registry is fixed); `isPointer` takes the id
whose declaration is looked up in the registry; `WriteDocs` gives the lines written for a
documentation string; `quote` is the verb `%q` of the standard package `fmt` (the string as
a quoted Go literal); `pathJoin` is `path.Join` of the standard library on two elements;
`visitObjectProperties` is the method of `typeVisitor`: it takes the
visitor's type name, base import path and import path, the object, `includeTags` and
`includeGenericOptionals`, and gives the lines written for the properties and the literals
found among them. -/
structure Externals (σ Scope : Type) where
  Child : Scope → σ → Scope × σ
  Add : Scope → String → σ → String × σ
  AddImport : Scope → String → σ → String × σ
  typeReferenceToGoType : TypeReference → Scope → String → String → Bool → σ → String × σ
  defaultValueForTypeReference : TypeReference → String
  fernFilepathToImportPath : String → FernFilepath → String
  literalToValue : Literal → String
  literalToGoType : Literal → String
  typeNameToReceiver : String → String
  isPointer : TypeId → Bool
  packagePathForClient : FernFilepath → List String
  packagePathToImportPath : String → List String → String
  WriteDocs : Option String → List String
  quote : String → String
  pathJoin : String → String → String
  visitObjectProperties :
    String → String → String → ObjectTypeDeclaration → Bool → Bool → σ →
      (List String × List literal) × σ

/-- Go `fileWriter` (the fields read by sdk.go); `buffer` holds the lines written so far and
`errors` is the error index, a Go map given by its entries. -/
structure fileWriter (Scope : Type) where
  baseImportPath : String
  scope : Scope
  buffer : List String
  errors : List (String × ErrorDeclaration)

/-- Go `strings.TrimPrefix`. -/
def trimPrefix (s pre : String) : String :=
  if pre.toList.isPrefixOf s.toList then String.mk (s.toList.drop pre.toList.length) else s

/-- Go `strings.TrimLeft(s, "/")`: `s` without its leading slashes. -/
def trimLeftSlash (s : String) : String :=
  String.mk (s.toList.dropWhile fun c => c = '/')

/-- The loop of `endpointFromIR` over the path parameters: each one is named through the
child scope, typed, appended to the signature and to the list of names. -/
def pathParametersLoop {σ Scope : Type} (x : Externals σ Scope) (f : fileWriter Scope)
    (scope : Scope) :
    List PathParameter → String × List String × σ → String × List String × σ
  | [], acc => acc
  | pathParameter :: rest, (signatureParameters, pathParameterNames, s) =>
    let (pathParameterName, s1) := x.Add scope pathParameter.Name.CamelCase.SafeName s
    let (parameterType, s2) :=
      x.typeReferenceToGoType pathParameter.ValueType scope f.baseImportPath "" false s1
    pathParametersLoop x f scope rest
      (signatureParameters ++ ", " ++ pathParameterName ++ " " ++ parameterType,
        pathParameterNames ++ [pathParameterName], s2)

/-- The loop of `endpointFromIR` over the properties of a file upload: a file becomes an
`io.Reader` parameter, a body property is collected. -/
def filePropertiesLoop :
    List FileUploadRequestProperty →
      String × List FileProperty × List InlinedRequestBodyProperty →
      String × List FileProperty × List InlinedRequestBodyProperty
  | [], acc => acc
  | fileUploadProperty :: rest, (signatureParameters, fileProperties, fileBodyProperties) =>
    let (signatureParameters, fileProperties) :=
      match fileUploadProperty.File with
      | some file =>
        (signatureParameters ++ ", " ++ file.Key.Name.CamelCase.SafeName ++ " " ++ "io.Reader",
          fileProperties ++ [file])
      | none => (signatureParameters, fileProperties)
    let fileBodyProperties :=
      match fileUploadProperty.BodyProperty with
      | some bodyProperty => fileBodyProperties ++ [bodyProperty]
      | none => fileBodyProperties
    filePropertiesLoop rest (signatureParameters, fileProperties, fileBodyProperties)

/-- The request block of `endpointFromIR`: the request type, the request parameter appended
to the signature, and the value sent as the request.  It returns the signature, the
request parameter name and the request value name. -/
def requestParameters {σ Scope : Type} (x : Externals σ Scope) (f : fileWriter Scope)
    (fernFilepath : FernFilepath) (scope : Scope) (irEndpoint : HttpEndpoint)
    (signatureParameters : String) (s : σ) :
    Except Failure ((String × String × String) × σ) :=
  match irEndpoint.SdkRequest with
  | none => .ok ((signatureParameters, "", ""), s)
  | some sdkRequest =>
    let fileUploadValueName (requestValueName : String) : String :=
      if (irEndpoint.RequestBody.bind HttpRequestBody.FileUpload).isSome
      then "requestBuffer" else requestValueName
    if needsRequestParameter irEndpoint then
      let justRequestBody : Except Failure (String × σ) :=
        match sdkRequest.Shape.JustRequestBody with
        | none => .ok ("", s)
        | some requestBody =>
          match requestBody.TypeReference with
          | none => .error .nilDereference
          | some reference =>
            .ok (x.typeReferenceToGoType reference.RequestBodyType scope f.baseImportPath ""
              false s)
      match justRequestBody with
      | .error err => .error err
      | .ok (requestType, s1) =>
        let (requestType, s2) :=
          match sdkRequest.Shape.Wrapper with
          | none => (requestType, s1)
          | some wrapper =>
            let requestImportPath := x.fernFilepathToImportPath f.baseImportPath fernFilepath
            let (importAlias, s2) := x.AddImport scope requestImportPath s1
            ("*" ++ importAlias ++ "." ++ wrapper.WrapperName.PascalCase.UnsafeName, s2)
        let requestParameterName := sdkRequest.RequestParameterName.CamelCase.SafeName
        let signatureParameters :=
          signatureParameters ++ ", " ++ requestParameterName ++ " " ++ requestType
        let requestValueName := if irEndpoint.RequestBody.isSome then requestParameterName else ""
        .ok ((signatureParameters, requestParameterName, fileUploadValueName requestValueName),
          s2)
    else .ok ((signatureParameters, "", fileUploadValueName ""), s)

/-- The response values formatted by `endpointFromIR`. -/
structure responseValues where
  responseType : String
  responseParameterName : String
  responseInitializerFormat : String
  signatureReturnValues : String
  successfulReturnValues : String
  errorReturnValues : String
  streamDelimiter : String
  isStreaming : Bool
  responseIsOptionalParameter : Bool
  deriving DecidableEq, Repr

/-- The `json` case of the response block of `endpointFromIR`. -/
def jsonResponseValues {σ Scope : Type} (x : Externals σ Scope) (f : fileWriter Scope)
    (scope : Scope) (response : HttpResponse) (s : σ) : Except Failure (responseValues × σ) :=
  match typeReferenceFromJsonResponse response.Json with
  | .error err => .error err
  | .ok none =>
    match response.Json with
    | none => .error .nilDereference
    | some json => .error (.error ("unsupported json response type: " ++ json.Type_))
  | .ok (some typeReference) =>
    let (responseType, s1) :=
      x.typeReferenceToGoType typeReference scope f.baseImportPath "" false s
    let values : responseValues :=
      { responseType := responseType
        responseParameterName := "&response"
        responseInitializerFormat := "var response %s"
        signatureReturnValues := "(" ++ responseType ++ ", error)"
        successfulReturnValues := "response, nil"
        errorReturnValues := x.defaultValueForTypeReference typeReference ++ ", err"
        streamDelimiter := ""
        isStreaming := false
        responseIsOptionalParameter :=
          (typeReference.Container.bind ContainerType.Optional).isSome }
    match (response.Json.bind JsonResponse.NestedPropertyAsResponse).bind
        JsonResponseBodyWithProperty.ResponseProperty with
    | none => .ok (values, s1)
    | some responseProperty =>
      let (responsePropertyType, s2) :=
        x.typeReferenceToGoType responseProperty.ValueType f.scope f.baseImportPath "" false s1
      .ok ({ values with
              signatureReturnValues := "(" ++ responsePropertyType ++ ", error)"
              successfulReturnValues :=
                "response." ++ responseProperty.Name.Name.PascalCase.UnsafeName ++ ", nil"
              errorReturnValues :=
                x.defaultValueForTypeReference responseProperty.ValueType ++ ", err" }, s2)

/-- The `streaming` case of the response block of `endpointFromIR`. -/
def streamingResponseValues {σ Scope : Type} (x : Externals σ Scope) (f : fileWriter Scope)
    (scope : Scope) (response : HttpResponse) (s : σ) : Except Failure (responseValues × σ) :=
  match response.Streaming with
  | none => .error .nilDereference
  | some streaming =>
    let streamDelimiter := streaming.Terminator.getD ""
    match typeReferenceFromStreamingResponseChunkType streaming.DataEventType with
    | none =>
      match streaming.DataEventType with
      | none => .error .nilDereference
      | some chunkType =>
        .error (.error ("unsupported streaming response type: " ++ chunkType.Type_))
    | some typeReference =>
      let (goType, s1) := x.typeReferenceToGoType typeReference scope f.baseImportPath "" false s
      let responseType := trimPrefix goType "*"
      .ok ({ responseType := responseType
             responseParameterName := "response"
             responseInitializerFormat := ""
             signatureReturnValues := "(*core.Stream[" ++ responseType ++ "], error)"
             successfulReturnValues := ""
             errorReturnValues := "nil, err"
             streamDelimiter := streamDelimiter
             isStreaming := true
             responseIsOptionalParameter := false }, s1)

/-- The response block of `endpointFromIR`: one case per supported response type, an error
for any other type, and the values of an endpoint without a response. -/
def formatResponse {σ Scope : Type} (x : Externals σ Scope) (f : fileWriter Scope)
    (scope : Scope) (irEndpoint : HttpEndpoint) (s : σ) : Except Failure (responseValues × σ) :=
  match irEndpoint.Response with
  | some response =>
    if response.Type_ = "json" then jsonResponseValues x f scope response s
    else if response.Type_ = "fileDownload" then
      .ok ({ responseType := "bytes.NewBuffer(nil)"
             responseParameterName := "response"
             responseInitializerFormat := "response := %s"
             signatureReturnValues := "(io.Reader, error)"
             successfulReturnValues := "response, nil"
             errorReturnValues := "nil, err"
             streamDelimiter := ""
             isStreaming := false
             responseIsOptionalParameter := false }, s)
    else if response.Type_ = "text" then
      .ok ({ responseType := "string"
             responseParameterName := "response"
             responseInitializerFormat := "var response %s"
             signatureReturnValues := "(string, error)"
             successfulReturnValues := "response, nil"
             errorReturnValues := "\"\", err"
             streamDelimiter := ""
             isStreaming := false
             responseIsOptionalParameter := false }, s)
    else if response.Type_ = "streaming" then streamingResponseValues x f scope response s
    else .error (.error (response.Type_ ++ " requests are not supported yet"))
  | none =>
    .ok ({ responseType := ""
           responseParameterName := ""
           responseInitializerFormat := ""
           signatureReturnValues := "error"
           successfulReturnValues := "nil"
           errorReturnValues := "err"
           streamDelimiter := ""
           isStreaming := false
           responseIsOptionalParameter := false }, s)

/-- The base-URL block of `endpointFromIR`: the id that is looked up, the declared default
environment unless the endpoint has its own base URL. -/
def endpointEnvironmentID (irEnvironmentsConfig : Option EnvironmentsConfig)
    (irEndpoint : HttpEndpoint) : String :=
  let environmentID :=
    match irEnvironmentsConfig.bind EnvironmentsConfig.DefaultEnvironment with
    | some defaultEnvironment => defaultEnvironment
    | none => ""
  match irEndpoint.BaseUrl with
  | some baseUrl => baseUrl
  | none => environmentID

/-- The loop of `endpointFromIR` over the parts of the full path. -/
def pathSuffixLoop : List HttpPathPart → String → String
  | [], pathSuffix => pathSuffix
  | part :: rest, pathSuffix =>
    let pathSuffix := if part.PathParameter ≠ "" then pathSuffix ++ "%v" else pathSuffix
    let pathSuffix := if part.Tail ≠ "" then pathSuffix ++ part.Tail else pathSuffix
    pathSuffixLoop rest pathSuffix

/-- The path block of `endpointFromIR`. -/
def endpointPathSuffix (fullPath : Option HttpPath) : String :=
  match fullPath with
  | none => ""
  | some fullPath =>
    trimLeftSlash (pathSuffixLoop fullPath.Parts (if fullPath.Head ≠ "/" then fullPath.Head else ""))

/-- Go `endpointFromIR`, from the state `s` of the scopes; it returns the endpoint and the
new state, or fails. -/
def endpointFromIR {σ Scope : Type} (x : Externals σ Scope) (f : fileWriter Scope)
    (fernFilepath : FernFilepath) (irEndpoint : HttpEndpoint)
    (irEnvironmentsConfig : Option EnvironmentsConfig) (_receiver : String) (s : σ) :
    Except Failure (endpoint × σ) :=
  let importPath := x.fernFilepathToImportPath f.baseImportPath fernFilepath
  let (scope, s0) := x.Child f.scope s
  let (signatureParameters, pathParameterNames, s1) :=
    pathParametersLoop x f scope irEndpoint.AllPathParameters ("ctx context.Context", [], s0)
  let (signatureParameters, fileProperties, fileBodyProperties) :=
    match irEndpoint.RequestBody.bind HttpRequestBody.FileUpload with
    | some fileUpload => filePropertiesLoop fileUpload.Properties (signatureParameters, [], [])
    | none => (signatureParameters, [], [])
  match requestParameters x f fernFilepath scope irEndpoint signatureParameters s1 with
  | .error err => .error err
  | .ok ((signatureParameters, requestParameterName, requestValueName), s2) =>
    match formatResponse x f scope irEndpoint s2 with
    | .error err => .error err
    | .ok (response, s3) =>
      match environmentURLFromID irEnvironmentsConfig
          (endpointEnvironmentID irEnvironmentsConfig irEndpoint) with
      | .error err => .error err
      | .ok baseURL =>
        .ok ({ Name := irEndpoint.Name
               Docs := irEndpoint.Docs
               PathParameterDocs :=
                 irEndpoint.AllPathParameters.filterMap fun pathParam =>
                   match pathParam.Docs with
                   | some docs => if docs.length > 0 then some docs else none
                   | none => none
               ImportPath := importPath
               RequestParameterName := requestParameterName
               RequestValueName := requestValueName
               ResponseType := response.responseType
               ResponseParameterName := response.responseParameterName
               ResponseInitializerFormat := response.responseInitializerFormat
               ResponseIsOptionalParameter := response.responseIsOptionalParameter
               PathParameterNames := ", ".intercalate pathParameterNames
               SignatureParameters := signatureParameters
               ReturnValues := response.signatureReturnValues
               SuccessfulReturnValues := response.successfulReturnValues
               ErrorReturnValues := response.errorReturnValues
               BaseURL := baseURL
               PathSuffix := endpointPathSuffix irEndpoint.FullPath
               Method := irMethodToMethodEnum irEndpoint.Method
               IsStreaming := response.isStreaming
               StreamDelimiter := response.streamDelimiter
               ErrorDecoderParameterName :=
                 if irEndpoint.Errors.length > 0 then "errorDecoder" else ""
               Errors := irEndpoint.Errors
               QueryParameters := irEndpoint.QueryParameters
               Headers := irEndpoint.Headers
               FileProperties := fileProperties
               FileBodyProperties := fileBodyProperties }, s3)

/-! ## The query parameters of a client method -/

/-- Modelled from the spec: `fileWriter.P` is defined outside sdk.go; the generator emits
source text (section 6), and one call of `P` writes its elements one after the other on a
line of their own. -/
def P (elements : List String) : String := String.join elements

/-- The body of the loop of `WriteClient` over the query parameters of an endpoint: the lines
written for one query parameter. -/
def queryParameterLines (literalToValue : Literal → String) (endpoint : endpoint)
    (queryParameter : QueryParameter) : List String :=
  let valueTypeFormat := formatForValueType queryParameter.ValueType
  if queryParameter.AllowMultiple then
    let requestField := valueTypeFormat.Prefix ++ "value" ++ valueTypeFormat.Suffix
    [ P ["for _, value := range ", endpoint.RequestParameterName, ".",
         queryParameter.Name.Name.PascalCase.UnsafeName, "\x7b"],
      P ["queryParams.Add(\"", queryParameter.Name.WireValue, "\", fmt.Sprintf(\"%v\", ",
         requestField, "))"],
      P ["\x7d"] ]
  else
    match queryParameter.ValueType.Container.bind ContainerType.Literal with
    | some literal =>
      [ P ["queryParams.Add(\"", queryParameter.Name.WireValue, "\", fmt.Sprintf(\"%v\", ",
           literalToValue literal, "))"] ]
    | none =>
      let requestField :=
        valueTypeFormat.Prefix ++ endpoint.RequestParameterName ++ "." ++
          queryParameter.Name.Name.PascalCase.UnsafeName ++ valueTypeFormat.Suffix
      if valueTypeFormat.IsOptional then
        [ P ["if ", endpoint.RequestParameterName, ".",
             queryParameter.Name.Name.PascalCase.UnsafeName, "!= nil \x7b"],
          P ["queryParams.Add(\"", queryParameter.Name.WireValue, "\", fmt.Sprintf(\"%v\", ",
             requestField, "))"],
          P ["\x7d"] ]
      else
        [ P ["queryParams.Add(\"", queryParameter.Name.WireValue, "\", fmt.Sprintf(\"%v\", ",
             requestField, "))"] ]

/-- The query-parameter block of `WriteClient` for one endpoint: nothing without query
parameters, else the declaration of `queryParams`, the lines of every query parameter in
order, and the lines that append the encoded parameters to the URL. -/
def queryParametersLines (literalToValue : Literal → String) (endpoint : endpoint) :
    List String :=
  if endpoint.QueryParameters.length > 0 then
    [P [], P ["queryParams := make(url.Values)"]] ++
      endpoint.QueryParameters.flatMap (queryParameterLines literalToValue endpoint) ++
      [ P ["if len(queryParams) > 0 \x7b"],
        P ["endpointURL += \"?\" + queryParams.Encode()"],
        P ["\x7d"] ]
  else []

/-! ## Writing functions

A function that writes to the file leaves the lines it has written, also when it fails
midway, next to what it returns. -/

/-- The outcome of a writing function: the lines written, and the returned value with the
new state of the scopes, or the failure. -/
structure Written (σ α : Type) where
  lines : List String
  result : Except Failure (α × σ)

/-! ## Structured errors -/

/-- Go `WriteError`. -/
def WriteError {σ Scope : Type} (x : Externals σ Scope) (f : fileWriter Scope)
    (errorDeclaration : ErrorDeclaration) (s : σ) : Written σ Unit :=
  let typeName := errorDeclaration.Name.Name.PascalCase.UnsafeName
  let receiver := x.typeNameToReceiver typeName
  let declaration :=
    x.WriteDocs errorDeclaration.Docs ++
      [P ["type ", typeName, " struct \x7b"], P ["*core.APIError"]]
  match errorDeclaration.Type_ with
  | none =>
    { lines := declaration ++
        [ P ["\x7d"],
          P [],
          P ["func (", receiver, "*", typeName, ") UnmarshalJSON(data []byte) error \x7b"],
          P [receiver, ".StatusCode = ", toString errorDeclaration.StatusCode],
          P ["return nil"],
          P ["\x7d"],
          P [],
          P ["func (", receiver, "*", typeName, ") MarshalJSON() ([]byte, error) \x7b"],
          P ["return nil, nil"],
          P ["\x7d"],
          P [] ]
      result := .ok ((), s) }
  | some bodyType =>
    let importPath := x.fernFilepathToImportPath f.baseImportPath errorDeclaration.Name.FernFilepath
    let (value, s1) :=
      x.typeReferenceToGoType bodyType f.scope f.baseImportPath importPath false s
    let literal :=
      match bodyType.Container.bind ContainerType.Literal with
      | some l => x.literalToValue l
      | none => ""
    let isOptional := (bodyType.Container.bind ContainerType.Optional).isSome
    { lines := declaration ++
        [ P ["Body ", value],
          P ["\x7d"],
          P [],
          P ["func (", receiver, "*", typeName, ") UnmarshalJSON(data []byte) error \x7b"] ] ++
        (if isOptional then
          [ P ["if len(data) == 0 \x7b"],
            P [receiver, ".StatusCode = ", toString errorDeclaration.StatusCode],
            P ["return nil"],
            P ["\x7d"] ]
        else []) ++
        [ P ["var body " ++ value],
          P ["if err := json.Unmarshal(data, &body); err != nil \x7b"],
          P ["return err"],
          P ["\x7d"] ] ++
        (if literal ≠ "" then
          [ P ["if body != ", literal, " \x7b"],
            P ["return fmt.Errorf(\"expected literal %q, but found %q\", ", literal, ", body)"],
            P ["\x7d"] ]
        else []) ++
        [ P [receiver, ".StatusCode = ", toString errorDeclaration.StatusCode],
          P [receiver, ".Body = body"],
          P ["return nil"],
          P ["\x7d"],
          P [],
          P ["func (", receiver, "*", typeName, ") MarshalJSON() ([]byte, error) \x7b"] ] ++
        (if literal ≠ "" then [P ["return json.Marshal(", literal, ")"]]
        else if isOptional then
          [ P ["if ", receiver, ".Body == nil \x7b"],
            P ["return nil, nil"],
            P ["\x7d"],
            P ["return json.Marshal(", receiver, ".Body)"] ]
        else [P ["return json.Marshal(", receiver, ".Body)"]]) ++
        [ P ["\x7d"],
          P [],
          P ["func (", receiver, "*", typeName, ") Unwrap() error \x7b"],
          P ["return ", receiver, ".APIError"],
          P ["\x7d"],
          P [] ]
      result := .ok ((), s1) }

/-! ## Request types -/

/-- Go `inlinedRequestBodyToObjectTypeDeclaration`. -/
def inlinedRequestBodyToObjectTypeDeclaration (inlinedRequestBody : InlinedRequestBody) :
    ObjectTypeDeclaration :=
  { Extends := inlinedRequestBody.Extends
    Properties := inlinedRequestBody.Properties.map fun property =>
      { Docs := property.Docs, Name := property.Name, ValueType := property.ValueType } }

/-- Go `inlinedRequestBodyPropertiesToObjectTypeDeclaration`. -/
def inlinedRequestBodyPropertiesToObjectTypeDeclaration
    (bodyProperties : List InlinedRequestBodyProperty) : ObjectTypeDeclaration :=
  { Extends := []
    Properties := bodyProperties.map fun property =>
      { Docs := property.Docs, Name := property.Name, ValueType := property.ValueType } }

/-- Go `requestBodyVisitor` (the writer is the `Written` outcome of the visit methods, the
type registry is fixed). -/
structure requestBodyVisitor (Scope : Type) where
  literals : List literal
  bodyField : String
  baseImportPath : String
  importPath : String
  scope : Scope
  includeGenericOptionals : Bool

/-- Go `requestBodyVisitor.VisitInlinedRequestBody`. -/
def requestBodyVisitor.VisitInlinedRequestBody {σ Scope : Type} (x : Externals σ Scope)
    (inlinedRequestBody : InlinedRequestBody) (r : requestBodyVisitor Scope) (s : σ) :
    Written σ (requestBodyVisitor Scope) :=
  let objectTypeDeclaration := inlinedRequestBodyToObjectTypeDeclaration inlinedRequestBody
  let ((lines, literals), s1) :=
    x.visitObjectProperties inlinedRequestBody.Name.PascalCase.UnsafeName r.baseImportPath
      r.importPath objectTypeDeclaration true r.includeGenericOptionals s
  { lines := lines, result := .ok ({ r with literals := literals }, s1) }

/-- Go `requestBodyVisitor.VisitReference`. -/
def requestBodyVisitor.VisitReference {σ Scope : Type} (x : Externals σ Scope)
    (reference : HttpRequestBodyReference) (r : requestBodyVisitor Scope) (s : σ) :
    Written σ (requestBodyVisitor Scope) :=
  let (goType, s1) :=
    x.typeReferenceToGoType reference.RequestBodyType r.scope r.baseImportPath r.importPath
      false s
  { lines := [P [r.bodyField, " ", goType, " `json:\"-\"`"]], result := .ok (r, s1) }

/-- Go `requestBodyVisitor.VisitFileUpload`. -/
def requestBodyVisitor.VisitFileUpload {σ Scope : Type} (x : Externals σ Scope)
    (fileUpload : FileUploadRequest) (r : requestBodyVisitor Scope) (s : σ) :
    Written σ (requestBodyVisitor Scope) :=
  let bodyProperties := fileUpload.Properties.filterMap fun property => property.BodyProperty
  if bodyProperties.length = 0 then { lines := [], result := .ok (r, s) }
  else
    let objectTypeDeclaration :=
      inlinedRequestBodyPropertiesToObjectTypeDeclaration bodyProperties
    let ((lines, literals), s1) :=
      x.visitObjectProperties fileUpload.Name.PascalCase.UnsafeName r.baseImportPath
        r.importPath objectTypeDeclaration true r.includeGenericOptionals s
    { lines := lines, result := .ok ({ r with literals := literals }, s1) }

/-- Go `requestBodyVisitor.VisitBytes`. -/
def requestBodyVisitor.VisitBytes {σ Scope : Type} (_r : requestBodyVisitor Scope) (_s : σ) :
    Written σ (requestBodyVisitor Scope) :=
  { lines := [], result := .error (.error "bytes requests are not supported yet") }

/-- Modelled from the spec: `(*ir.HttpRequestBody).Accept` is defined in package `ir`,
outside sdk.go; by section 4.5 the request-body visitor has one case per variant (inlined,
reference, file upload, bytes), so `Accept` calls the visitor method of the populated
variant. -/
def HttpRequestBody.Accept {σ Scope : Type} (x : Externals σ Scope)
    (requestBody : HttpRequestBody) (visitor : requestBodyVisitor Scope) (s : σ) :
    Written σ (requestBodyVisitor Scope) :=
  match requestBody with
  | .inlinedRequestBody b => visitor.VisitInlinedRequestBody x b s
  | .reference r => visitor.VisitReference x r s
  | .fileUpload u => visitor.VisitFileUpload x u s
  | .bytes => visitor.VisitBytes s

/-- Go `requestBodyToFieldDeclaration`: the literals of the body's fields, or nil and the
error of the visit. -/
def requestBodyToFieldDeclaration {σ Scope : Type} (x : Externals σ Scope)
    (requestBody : HttpRequestBody) (writer : fileWriter Scope) (importPath : String)
    (bodyField : String) (includeGenericOptionals : Bool) (s : σ) :
    Written σ (List literal) :=
  let visitor : requestBodyVisitor Scope :=
    { literals := []
      bodyField := bodyField
      baseImportPath := writer.baseImportPath
      importPath := importPath
      scope := writer.scope
      includeGenericOptionals := includeGenericOptionals }
  let visited := requestBody.Accept x visitor s
  match visited.result with
  | .error err => { lines := visited.lines, result := .error err }
  | .ok (visitor, s1) => { lines := visited.lines, result := .ok (visitor.literals, s1) }

/-- The loop of `WriteRequestType` over the headers: a literal-valued header is collected as
a literal, every other header becomes a field that is left out of the JSON body. -/
def requestHeaderFields {σ Scope : Type} (x : Externals σ Scope) (f : fileWriter Scope)
    (importPath : String) :
    List HttpHeader → List String × List literal × σ → List String × List literal × σ
  | [], acc => acc
  | header :: rest, (lines, literals, s) =>
    let lines := lines ++ x.WriteDocs header.Docs
    match header.ValueType.Container.bind ContainerType.Literal with
    | some l =>
      requestHeaderFields x f importPath rest
        (lines, literals ++ [{ Name := header.Name.Name, Value := l }], s)
    | none =>
      let (goType, s1) :=
        x.typeReferenceToGoType header.ValueType f.scope f.baseImportPath importPath false s
      requestHeaderFields x f importPath rest
        (lines ++ [P [header.Name.Name.PascalCase.UnsafeName, " ", goType, " `json:\"-\"`"]],
          literals, s1)

/-- The loop of `WriteRequestType` over the query parameters: a literal-valued parameter is
collected as a literal, every other parameter becomes a field (a slice when it allows
multiple values) that is left out of the JSON body. -/
def requestQueryFields {σ Scope : Type} (x : Externals σ Scope) (f : fileWriter Scope)
    (importPath : String) :
    List QueryParameter → List String × List literal × σ → List String × List literal × σ
  | [], acc => acc
  | queryParam :: rest, (lines, literals, s) =>
    let (value, s1) :=
      x.typeReferenceToGoType queryParam.ValueType f.scope f.baseImportPath importPath false s
    let value := if queryParam.AllowMultiple then "[]" ++ value else value
    let lines := lines ++ x.WriteDocs queryParam.Docs
    match queryParam.ValueType.Container.bind ContainerType.Literal with
    | some l =>
      requestQueryFields x f importPath rest
        (lines, literals ++ [{ Name := queryParam.Name.Name, Value := l }], s1)
    | none =>
      requestQueryFields x f importPath rest
        (lines ++ [P [queryParam.Name.Name.PascalCase.UnsafeName, " ", value, " `json:\"-\"`"]],
          literals, s1)

/-- The private fields that `WriteRequestType` declares for the literals. -/
def literalFields {σ Scope : Type} (x : Externals σ Scope) (literals : List literal) :
    List String :=
  literals.map fun literal =>
    P [literal.Name.CamelCase.SafeName, " ", x.literalToGoType literal.Value]

/-- The getter methods that `WriteRequestType` writes for the literals. -/
def literalGetters {σ Scope : Type} (x : Externals σ Scope) (receiver typeName : String)
    (literals : List literal) : List String :=
  literals.flatMap fun literal =>
    [ P ["func (", receiver, " *", typeName, ") ", literal.Name.PascalCase.UnsafeName, "()",
         x.literalToGoType literal.Value, "\x7b"],
      P ["return ", receiver, ".", literal.Name.CamelCase.SafeName],
      P ["\x7d"],
      P [] ]

/-- The `UnmarshalJSON` method written by `WriteRequestType`. -/
def requestUnmarshalJSON {σ Scope : Type} (x : Externals σ Scope)
    (receiver typeName bodyField referenceType : String) (referenceIsPointer : Bool)
    (referenceLiteral : String) (literals : List literal) : List String :=
  [P ["func (", receiver, " *", typeName, ") UnmarshalJSON(data []byte) error \x7b"]] ++
    (if referenceType.length > 0 then
      (if referenceIsPointer then [P ["body := new(", referenceType, ")"]]
       else [P ["var body ", referenceType]])
    else [P ["type unmarshaler ", typeName], P ["var body unmarshaler"]]) ++
    [ P ["if err := json.Unmarshal(data, &body); err != nil \x7b"],
      P ["return err"],
      P ["\x7d"] ] ++
    (if referenceType.length > 0 then
      (if referenceLiteral.length > 0 then
        [ P ["if body != ", referenceLiteral, "\x7b"],
          P ["return fmt.Errorf(\"expected literal %q, but found %q\", ", referenceLiteral,
             ", body)"],
          P ["\x7d"] ]
       else []) ++
      [P [receiver, ".", bodyField, " = body"]]
    else [P ["*", receiver, " = ", typeName, "(body)"]]) ++
    (literals.map fun literal =>
      P [receiver, ".", literal.Name.CamelCase.SafeName, " = ",
         x.literalToValue literal.Value]) ++
    [ P ["return nil"],
      P ["\x7d"],
      P [] ]

/-- The `MarshalJSON` method written by `WriteRequestType`. -/
def requestMarshalJSON {σ Scope : Type} (x : Externals σ Scope)
    (receiver typeName bodyField referenceType referenceLiteral : String)
    (literals : List literal) : List String :=
  [P ["func (", receiver, " *", typeName, ") MarshalJSON() ([]byte, error) \x7b"]] ++
    (if referenceType.length > 0 then
      let value :=
        if referenceLiteral.length > 0 then referenceLiteral else receiver ++ "." ++ bodyField
      [P ["return json.Marshal(", value, ")"]]
    else
      [ P ["type embed ", typeName],
        P ["var marshaler = struct\x7b"],
        P ["embed"] ] ++
      (literals.map fun literal =>
        P [literal.Name.PascalCase.UnsafeName, " ", x.literalToGoType literal.Value,
           " `json:\"", literal.Name.OriginalName, "\"`"]) ++
      [ P ["\x7d\x7b"],
        P ["embed: embed(*", receiver, "),"] ] ++
      (literals.map fun literal =>
        P [literal.Name.PascalCase.UnsafeName, ": ", x.literalToValue literal.Value, ","]) ++
      [ P ["\x7d"],
        P ["return json.Marshal(marshaler)"] ]) ++
    [ P ["\x7d"],
      P [] ]

/-- The serialization methods of `WriteRequestType` for a request with a body: nothing
when there is neither a literal nor a reference type, else `UnmarshalJSON` followed by
`MarshalJSON`. -/
def requestSerialization {σ Scope : Type} (x : Externals σ Scope)
    (receiver typeName bodyField referenceType : String) (referenceIsPointer : Bool)
    (referenceLiteral : String) (literals : List literal) : List String :=
  if literals.length = 0 ∧ referenceType.length = 0 then []
  else
    requestUnmarshalJSON x receiver typeName bodyField referenceType referenceIsPointer
        referenceLiteral literals ++
      requestMarshalJSON x receiver typeName bodyField referenceType referenceLiteral literals

/-- What `WriteRequestType` writes, part by part: the declaration of the struct with the
getters of its literals, the literals collected, the serialization methods, and what the
function returns. -/
structure requestTypeParts (σ : Type) where
  declaration : List String
  literals : List literal
  serialization : List String
  result : Except Failure (Unit × σ)

/-- The body of `WriteRequestType`, with what it writes kept part by part.  The wrapper of
the SDK request is read without a nil check. -/
def writeRequestTypeParts {σ Scope : Type} (x : Externals σ Scope) (f : fileWriter Scope)
    (fernFilepath : FernFilepath) (endpoint : HttpEndpoint) (includeGenericOptionals : Bool)
    (s : σ) : requestTypeParts σ :=
  match endpoint.SdkRequest.bind fun sdkRequest => sdkRequest.Shape.Wrapper with
  | none =>
    { declaration := [], literals := [], serialization := [], result := .error .nilDereference }
  | some wrapper =>
    let bodyField := wrapper.BodyKey.PascalCase.UnsafeName
    let typeName := wrapper.WrapperName.PascalCase.UnsafeName
    let receiver := x.typeNameToReceiver typeName
    let importPath := x.fernFilepathToImportPath f.baseImportPath fernFilepath
    let (lines, literals, s1) :=
      requestHeaderFields x f importPath endpoint.Headers
        ([P ["type ", typeName, " struct \x7b"]], [], s)
    let (lines, literals, s2) :=
      requestQueryFields x f importPath endpoint.QueryParameters (lines, literals, s1)
    match endpoint.RequestBody with
    | none =>
      { declaration := lines ++ literalFields x literals ++ [P ["\x7d"], P []] ++
          literalGetters x receiver typeName literals
        literals := literals
        serialization := []
        result := .ok ((), s2) }
    | some requestBody =>
      let declared :=
        requestBodyToFieldDeclaration x requestBody f importPath bodyField
          includeGenericOptionals s2
      match declared.result with
      | .error err =>
        { declaration := lines ++ declared.lines, literals := literals, serialization := [],
          result := .error err }
      | .ok (fieldLiterals, s3) =>
        let literals := literals ++ fieldLiterals
        let lines :=
          lines ++ declared.lines ++ literalFields x literals ++ [P ["\x7d"], P []] ++
            literalGetters x receiver typeName literals
        let (referenceType, referenceIsPointer, referenceLiteral, s4) :=
          match requestBody.Reference with
          | some reference =>
            let (goType, s4) :=
              x.typeReferenceToGoType reference.RequestBodyType f.scope f.baseImportPath
                importPath false s3
            (trimPrefix goType "*",
              (match reference.RequestBodyType.Named with
               | some typeId => x.isPointer typeId
               | none => false),
              (match reference.RequestBodyType.Container.bind ContainerType.Literal with
               | some l => x.literalToValue l
               | none => ""),
              s4)
          | none => ("", false, "", s3)
        { declaration := lines
          literals := literals
          serialization :=
            requestSerialization x receiver typeName bodyField referenceType
              referenceIsPointer referenceLiteral literals
          result := .ok ((), s4) }

/-- Go `WriteRequestType`: the declaration, then the serialization methods. -/
def WriteRequestType {σ Scope : Type} (x : Externals σ Scope) (f : fileWriter Scope)
    (fernFilepath : FernFilepath) (endpoint : HttpEndpoint) (includeGenericOptionals : Bool)
    (s : σ) : Written σ Unit :=
  let parts := writeRequestTypeParts x f fernFilepath endpoint includeGenericOptionals s
  { lines := parts.declaration ++ parts.serialization, result := parts.result }

/-! ## Clients -/

/-- Go `ast.Expr`, as sdk.go builds it: `ast.NewLocalObject`, `ast.NewImportedObject` and
`ast.NewCallExpr`. -/
inductive Expr where
  | LocalObject (name : String)
  | ImportedObject (name : String) (importPath : String)
  | CallExpr (function : Expr) (parameters : List Expr)

/-- Go `ast.AssignStmt`. -/
structure AssignStmt where
  Left : List Expr
  Right : List Expr

/-- Go `GeneratedAuth`. -/
structure GeneratedAuth where
  Option : Expr

/-- Go `GeneratedEnvironment`. -/
structure GeneratedEnvironment where
  Example : Expr

/-- Go `GeneratedClient`. -/
structure GeneratedClient where
  Instantiation : AssignStmt

/-- The loop of `WriteClient` that reformats the endpoints: it stops at the first endpoint
for which `endpointFromIR` fails. -/
def endpointsFromIR {σ Scope : Type} (x : Externals σ Scope) (f : fileWriter Scope)
    (fernFilepath : FernFilepath) (irEnvironmentsConfig : Option EnvironmentsConfig)
    (receiver : String) : List HttpEndpoint → σ → Except Failure (List endpoint × σ)
  | [], s => .ok ([], s)
  | irEndpoint :: rest, s =>
    match endpointFromIR x f fernFilepath irEndpoint irEnvironmentsConfig receiver s with
    | .error err => .error err
    | .ok (endpoint, s1) =>
      match endpointsFromIR x f fernFilepath irEnvironmentsConfig receiver rest s1 with
      | .error err => .error err
      | .ok (endpoints, s2) => .ok (endpoint :: endpoints, s2)

/-- The loop of `WriteClient` over the subpackages inside the client struct: one field per
subpackage. -/
def subpackageFields {σ Scope : Type} (x : Externals σ Scope) (f : fileWriter Scope)
    (clientName : String) : List Subpackage → σ → List String × σ
  | [], s => ([], s)
  | subpackage :: rest, s =>
    let importPath :=
      x.packagePathToImportPath f.baseImportPath (x.packagePathForClient subpackage.FernFilepath)
    let (importAlias, s1) := x.AddImport f.scope importPath s
    let clientTypeName := importAlias ++ "." ++ clientName
    let (lines, s2) := subpackageFields x f clientName rest s1
    (P [subpackage.Name.PascalCase.UnsafeName, " *", clientTypeName] :: lines, s2)

/-- The loop of `WriteClient` over the subpackages inside the constructor: one initializer
per subpackage. -/
def subpackageInitializers {σ Scope : Type} (x : Externals σ Scope) (f : fileWriter Scope) :
    List Subpackage → σ → List String × σ
  | [], s => ([], s)
  | subpackage :: rest, s =>
    let importPath :=
      x.packagePathToImportPath f.baseImportPath (x.packagePathForClient subpackage.FernFilepath)
    let (importAlias, s1) := x.AddImport f.scope importPath s
    let clientConstructor := importAlias ++ ".NewClient(opts...),"
    let (lines, s2) := subpackageInitializers x f rest s1
    (P [subpackage.Name.PascalCase.UnsafeName, ": ", clientConstructor] :: lines, s2)

/-- The declaration of the client struct and of its constructor written by `WriteClient`. -/
def clientDeclaration {σ Scope : Type} (x : Externals σ Scope) (f : fileWriter Scope)
    (clientName : String) (subpackages : List Subpackage) (s : σ) : List String × σ :=
  let (fields, s1) := subpackageFields x f clientName subpackages s
  let (initializers, s2) := subpackageInitializers x f subpackages s1
  ([ P ["type ", clientName, " struct \x7b"],
     P ["baseURL string"],
     P ["caller *core.Caller"],
     P ["header http.Header"],
     P [] ] ++ fields ++
   [ P ["\x7d"],
     P [],
     P ["func New", clientName, "(opts ...core.ClientOption) *", clientName, " \x7b"],
     P ["options := core.NewClientOptions()"],
     P ["for _, opt := range opts \x7b"],
     P ["opt(options)"],
     P ["\x7d"],
     P ["return &", clientName, "\x7b"],
     P ["baseURL: options.BaseURL,"],
     P ["caller: core.NewCaller(options.HTTPClient),"],
     P ["header: options.ToHeader(),"] ] ++ initializers ++
   [ P ["\x7d"],
     P ["\x7d"],
     P [] ], s2)

/-- The documentation and the signature of a client method written by `WriteClient`. -/
def methodSignature {σ Scope : Type} (x : Externals σ Scope) (receiver clientName : String)
    (endpoint : endpoint) : List String :=
  x.WriteDocs endpoint.Docs ++
    (match endpoint.Docs with
     | some docs => if docs.length > 0 then [P ["//"]] else []
     | none => []) ++
    (endpoint.PathParameterDocs.flatMap fun pathParameterDoc =>
      x.WriteDocs (some pathParameterDoc)) ++
    [P ["func (", receiver, " *", clientName, ") ", endpoint.Name.PascalCase.UnsafeName, "(",
        endpoint.SignatureParameters, ") ", endpoint.ReturnValues, " \x7b"]]

/-- The lines of a client method that compose the URL, before the query parameters. -/
def endpointURLLines {σ Scope : Type} (x : Externals σ Scope) (receiver : String)
    (endpoint : endpoint) : List String :=
  let baseURLVariable :=
    if endpoint.PathSuffix.length > 0 then
      "baseURL + \"/\" + " ++ x.quote endpoint.PathSuffix
    else "baseURL"
  let urlStatement :=
    if endpoint.PathParameterNames.length > 0 then
      "endpointURL := fmt.Sprintf(" ++ baseURLVariable ++ ", " ++ endpoint.PathParameterNames ++
        ")"
    else "endpointURL := " ++ baseURLVariable
  [ P ["baseURL := " ++ x.quote endpoint.BaseURL],
    P ["if ", receiver ++ ".baseURL", " != \"\" \x7b"],
    P ["baseURL = ", receiver ++ ".baseURL"],
    P ["\x7d"],
    P [urlStatement] ]

/-- The name of the header set passed to the caller: the local clone when the endpoint has
headers of its own, the header field of the receiver otherwise. -/
def headersParameter (receiver : String) (endpoint : endpoint) : String :=
  if endpoint.Headers.length > 0 then "headers" else receiver ++ ".header"

/-- The body of the loop of `WriteClient` over the headers of an endpoint. -/
def headerLines (literalToValue : Literal → String) (endpoint : endpoint)
    (header : HttpHeader) : List String :=
  let valueTypeFormat := formatForValueType header.ValueType
  let requestField :=
    valueTypeFormat.Prefix ++ endpoint.RequestParameterName ++ "." ++
      header.Name.Name.PascalCase.UnsafeName ++ valueTypeFormat.Suffix
  if valueTypeFormat.IsOptional then
    [ P ["if ", endpoint.RequestParameterName, ".", header.Name.Name.PascalCase.UnsafeName,
         "!= nil \x7b"],
      P ["headers.Add(\"", header.Name.WireValue, "\", fmt.Sprintf(\"%v\", ", requestField,
         "))"],
      P ["\x7d"] ]
  else
    match header.ValueType.Container.bind ContainerType.Literal with
    | some literal =>
      [ P ["headers.Add(\"", header.Name.WireValue, "\", fmt.Sprintf(\"%v\", ",
           literalToValue literal, "))"] ]
    | none =>
      [ P ["headers.Add(\"", header.Name.WireValue, "\", fmt.Sprintf(\"%v\", ", requestField,
           "))"] ]

/-- The header block of a client method: with endpoint headers, the clone of the receiver's
header set and the lines of every header; then an empty line. -/
def headersLines (literalToValue : Literal → String) (receiver : String)
    (endpoint : endpoint) : List String :=
  (if endpoint.Headers.length > 0 then
    [P [], P ["headers := ", receiver, ".header.Clone()"]] ++
      endpoint.Headers.flatMap (headerLines literalToValue endpoint)
  else []) ++ [P []]

/-- The loop of `WriteClient` over the errors of an endpoint: one case of the switch per
declared error, in order.  The declaration is looked up in the error index of the writer;
reading the declaration of an error that the index lacks is a nil dereference. -/
def errorDecoderCases {σ Scope : Type} (x : Externals σ Scope) (f : fileWriter Scope)
    (errorDiscriminationByPropertyStrategy : Option ErrorDiscriminationByPropertyStrategy)
    (discriminantContentField : String) : List ResponseError → σ → Written σ Unit
  | [], s => { lines := [], result := .ok ((), s) }
  | responseError :: rest, s =>
    match f.errors.lookup responseError.Error.ErrorId with
    | none => { lines := [], result := .error .nilDereference }
    | some errorDeclaration =>
      let errorImportPath :=
        x.fernFilepathToImportPath f.baseImportPath errorDeclaration.Name.FernFilepath
      let (importAlias, s1) := x.AddImport f.scope errorImportPath s
      let errorType := importAlias ++ "." ++ errorDeclaration.Name.Name.PascalCase.UnsafeName
      let lines :=
        [ (if errorDiscriminationByPropertyStrategy.isSome then
            P ["case \"", errorDeclaration.DiscriminantValue.WireValue, "\":"]
          else P ["case ", toString errorDeclaration.StatusCode, ":"]),
          P ["value := new(", errorType, ")"],
          P ["value.APIError = apiError"],
          (if discriminantContentField ≠ "" then
            P ["if err := json.Unmarshal(", discriminantContentField, ", value); err != nil \x7b"]
          else P ["if err := decoder.Decode(value); err != nil \x7b"]),
          P ["return apiError"],
          P ["\x7d"],
          P ["return value"] ]
      let others :=
        errorDecoderCases x f errorDiscriminationByPropertyStrategy discriminantContentField
          rest s1
      { lines := lines ++ others.lines, result := others.result }

/-- The error decoder block of a client method: nothing without declared errors, else the
definition of `errorDecoder`. -/
def errorDecoderLines {σ Scope : Type} (x : Externals σ Scope) (f : fileWriter Scope)
    (errorDiscriminationByPropertyStrategy : Option ErrorDiscriminationByPropertyStrategy)
    (endpoint : endpoint) (s : σ) : Written σ Unit :=
  if endpoint.Errors.length > 0 then
    let switchValue :=
      match errorDiscriminationByPropertyStrategy with
      | some strategy => "discriminant." ++ strategy.Discriminant.Name.PascalCase.UnsafeName
      | none => "statusCode"
    let discriminantContentField :=
      match errorDiscriminationByPropertyStrategy with
      | some strategy => "discriminant." ++ strategy.ContentProperty.Name.PascalCase.UnsafeName
      | none => ""
    let opening :=
      [ P ["errorDecoder := func(statusCode int, body io.Reader) error \x7b"],
        P ["raw, err := io.ReadAll(body)"],
        P ["if err != nil \x7b"],
        P ["return err"],
        P ["\x7d"],
        P ["apiError := core.NewAPIError(statusCode, errors.New(string(raw)))"],
        P ["decoder := json.NewDecoder(bytes.NewReader(raw))"] ] ++
      (match errorDiscriminationByPropertyStrategy with
       | some strategy =>
         [ P ["var discriminant struct \x7b"],
           P [strategy.Discriminant.Name.PascalCase.UnsafeName, " string `json:\"",
              strategy.Discriminant.WireValue, "\"`"],
           P [strategy.ContentProperty.Name.PascalCase.UnsafeName, " json.RawMessage `json:\"",
              strategy.ContentProperty.WireValue, "\"`"],
           P ["\x7d"],
           P ["if err := decoder.Decode(&discriminant); err != nil \x7b"],
           P ["return err"],
           P ["\x7d"] ]
       | none => []) ++
      [P ["switch ", switchValue, " \x7b"]]
    let cases :=
      errorDecoderCases x f errorDiscriminationByPropertyStrategy discriminantContentField
        endpoint.Errors s
    match cases.result with
    | .error err => { lines := opening ++ cases.lines, result := .error err }
    | .ok ((), s1) =>
      { lines := opening ++ cases.lines ++
          [ P ["\x7d"],
            P ["return apiError"],
            P ["\x7d"],
            P [] ]
        result := .ok ((), s1) }
  else { lines := [], result := .ok ((), s) }

/-- Go `fmt.Sprintf` for a format with one verb `%s`: the format with the verb replaced by
the argument. -/
def sprintfString : List Char → String → List Char
  | [], _ => []
  | '%' :: 's' :: rest, argument => argument.toList ++ rest
  | c :: rest, argument => c :: sprintfString rest argument

/-- The declaration of the response variable of a client method. -/
def responseVariableLines (endpoint : endpoint) : List String :=
  if endpoint.ResponseType ≠ "" ∧ endpoint.IsStreaming = false then
    [P [String.mk (sprintfString endpoint.ResponseInitializerFormat.toList endpoint.ResponseType)]]
  else []

/-- The body of the loop of `WriteClient` over the file properties of a multipart request. -/
def filePropertyLines (endpoint : endpoint) (quote : String → String)
    (fileProperty : FileProperty) : List String :=
  let fileVariable := fileProperty.Key.Name.CamelCase.SafeName
  let filenameVariable := fileProperty.Key.Name.CamelCase.UnsafeName ++ "Filename"
  let filenameValue := fileProperty.Key.Name.CamelCase.UnsafeName ++ "_filename"
  let partVariable := fileProperty.Key.Name.CamelCase.UnsafeName ++ "Part"
  (if fileProperty.IsOptional then [P ["if ", fileVariable, " != nil \x7b"]] else []) ++
    [ P [filenameVariable ++ " := " ++ quote filenameValue],
      P ["if named, ok := ", fileVariable, ".(interface\x7b Name() string \x7d); ok \x7b"],
      P [filenameVariable ++ " = named.Name()"],
      P ["\x7d"],
      P [partVariable, ", err := writer.CreateFormFile(\"", fileProperty.Key.WireValue, "\", ",
         filenameVariable, ")"],
      P ["if err != nil \x7b"],
      P ["return ", endpoint.ErrorReturnValues],
      P ["\x7d"],
      P ["if _, err := io.Copy(", partVariable, ", ", fileVariable, "); err != nil \x7b"],
      P ["return ", endpoint.ErrorReturnValues],
      P ["\x7d"] ] ++
    (if fileProperty.IsOptional then [P ["\x7d"]] else [])

/-- The body of the loop of `WriteClient` over the body properties of a multipart request. -/
def fileBodyPropertyLines (literalToValue : Literal → String) (endpoint : endpoint)
    (fileBodyProperty : InlinedRequestBodyProperty) : List String :=
  match fileBodyProperty.ValueType.Container.bind ContainerType.Literal with
  | some literal =>
    [ P ["if err := writer.WriteField(\"", fileBodyProperty.Name.WireValue,
         "\", fmt.Sprintf(\"%v\", ", literalToValue literal, ")); err != nil \x7b"],
      P ["return ", endpoint.ErrorReturnValues],
      P ["\x7d"] ]
  | none =>
    let valueTypeFormat := formatForValueType fileBodyProperty.ValueType
    let requestField :=
      valueTypeFormat.Prefix ++ endpoint.RequestParameterName ++ "." ++
        fileBodyProperty.Name.Name.PascalCase.UnsafeName ++ valueTypeFormat.Suffix
    let writeField :=
      [ (if valueTypeFormat.IsPrimitive = false then
          P ["if err := core.WriteMultipartJSON(writer, \"", fileBodyProperty.Name.WireValue,
             "\", ", requestField, "); err != nil \x7b"]
        else
          P ["if err := writer.WriteField(\"", fileBodyProperty.Name.WireValue,
             "\", fmt.Sprintf(\"%v\", ", requestField, ")); err != nil \x7b"]),
        P ["return ", endpoint.ErrorReturnValues],
        P ["\x7d"] ]
    if valueTypeFormat.IsOptional then
      [P ["if ", endpoint.RequestParameterName, ".",
          fileBodyProperty.Name.Name.PascalCase.UnsafeName, "!= nil \x7b"]] ++
        writeField ++ [P ["\x7d"]]
    else writeField

/-- The multipart block of a client method, written when the endpoint has file properties or
file body properties; its last statement sets the content type on the header set that is
passed to the caller. -/
def multipartLines (literalToValue : Literal → String) (quote : String → String)
    (receiver : String) (endpoint : endpoint) : List String :=
  if endpoint.FileProperties.length > 0 ∨ endpoint.FileBodyProperties.length > 0 then
    [ P ["requestBuffer := bytes.NewBuffer(nil)"],
      P ["writer := multipart.NewWriter(requestBuffer)"] ] ++
      endpoint.FileProperties.flatMap (filePropertyLines endpoint quote) ++
      endpoint.FileBodyProperties.flatMap (fileBodyPropertyLines literalToValue endpoint) ++
      [ P ["if err := writer.Close(); err != nil \x7b"],
        P ["return ", endpoint.ErrorReturnValues],
        P ["\x7d"],
        P [headersParameter receiver endpoint,
           ".Set(\"Content-Type\", writer.FormDataContentType())"],
        P [] ]
  else []

/-- The `ErrorDecoder` parameter of the call of a client method, passed when the endpoint
names an error decoder. -/
def errorDecoderParameter (endpoint : endpoint) : List String :=
  if endpoint.ErrorDecoderParameterName ≠ "" then
    [P ["ErrorDecoder:", endpoint.ErrorDecoderParameterName, ","]]
  else []

/-- The lines of a client method that issue the request, through the streamer or through the
caller. -/
def callLines (receiver : String) (endpoint : endpoint) : List String :=
  if endpoint.IsStreaming then
    [ P ["streamer := core.NewStreamer[", endpoint.ResponseType, "](", receiver, ".caller)"],
      P ["return streamer.Stream("],
      P ["ctx,"],
      P ["&core.StreamParams\x7b"],
      P ["URL: endpointURL, "],
      P ["Method:", endpoint.Method, ","],
      P ["Headers:", headersParameter receiver endpoint, ","] ] ++
    (if endpoint.RequestValueName ≠ "" then [P ["Request: ", endpoint.RequestValueName, ","]]
     else []) ++
    errorDecoderParameter endpoint ++
    (if endpoint.StreamDelimiter ≠ "" then [P ["Delimiter: ", endpoint.StreamDelimiter, ","]]
     else []) ++
    [ P ["\x7d,"],
      P [")"],
      P ["\x7d"],
      P [] ]
  else
    [ P ["if err := ", receiver, ".caller.Call("],
      P ["ctx,"],
      P ["&core.CallParams\x7b"],
      P ["URL: endpointURL, "],
      P ["Method:", endpoint.Method, ","],
      P ["Headers:", headersParameter receiver endpoint, ","] ] ++
    (if endpoint.RequestValueName ≠ "" then [P ["Request: ", endpoint.RequestValueName, ","]]
     else []) ++
    (if endpoint.ResponseParameterName ≠ "" then
      [P ["Response: ", endpoint.ResponseParameterName, ","]]
     else []) ++
    (if endpoint.ResponseIsOptionalParameter then [P ["ResponseIsOptional: true,"]] else []) ++
    errorDecoderParameter endpoint ++
    [ P ["\x7d,"],
      P ["); err != nil \x7b"],
      P ["return ", endpoint.ErrorReturnValues],
      P ["\x7d"],
      P ["return ", endpoint.SuccessfulReturnValues],
      P ["\x7d"],
      P [] ]

/-- The body of the loop of `WriteClient` over the endpoints: the method of one endpoint. -/
def clientMethod {σ Scope : Type} (x : Externals σ Scope) (f : fileWriter Scope)
    (receiver clientName : String)
    (errorDiscriminationByPropertyStrategy : Option ErrorDiscriminationByPropertyStrategy)
    (endpoint : endpoint) (s : σ) : Written σ Unit :=
  let opening :=
    methodSignature x receiver clientName endpoint ++ endpointURLLines x receiver endpoint ++
      queryParametersLines x.literalToValue endpoint ++
      headersLines x.literalToValue receiver endpoint
  let decoder := errorDecoderLines x f errorDiscriminationByPropertyStrategy endpoint s
  match decoder.result with
  | .error err => { lines := opening ++ decoder.lines, result := .error err }
  | .ok ((), s1) =>
    { lines := opening ++ decoder.lines ++ responseVariableLines endpoint ++
        multipartLines x.literalToValue x.quote receiver endpoint ++ callLines receiver endpoint
      result := .ok ((), s1) }

/-- The loop of `WriteClient` over the endpoints. -/
def clientMethods {σ Scope : Type} (x : Externals σ Scope) (f : fileWriter Scope)
    (receiver clientName : String)
    (errorDiscriminationByPropertyStrategy : Option ErrorDiscriminationByPropertyStrategy) :
    List endpoint → σ → Written σ Unit
  | [], s => { lines := [], result := .ok ((), s) }
  | endpoint :: rest, s =>
    let method :=
      clientMethod x f receiver clientName errorDiscriminationByPropertyStrategy endpoint s
    match method.result with
    | .error err => { lines := method.lines, result := .error err }
    | .ok ((), s1) =>
      let others :=
        clientMethods x f receiver clientName errorDiscriminationByPropertyStrategy rest s1
      { lines := method.lines ++ others.lines, result := others.result }

/-- Go `WriteClient`. -/
def WriteClient {σ Scope : Type} (x : Externals σ Scope) (f : fileWriter Scope)
    (irEndpoints : List HttpEndpoint) (subpackages : List Subpackage)
    (environmentsConfig : Option EnvironmentsConfig)
    (errorDiscriminationStrategy : Option ErrorDiscriminationStrategy)
    (fernFilepath : FernFilepath) (generatedAuth : Option GeneratedAuth)
    (generatedEnvironment : Option GeneratedEnvironment) (s : σ) : Written σ GeneratedClient :=
  let clientName := "Client"
  let receiver := "c"
  let errorDiscriminationByPropertyStrategy :=
    errorDiscriminationStrategy.bind ErrorDiscriminationStrategy.Property
  match endpointsFromIR x f fernFilepath environmentsConfig receiver irEndpoints s with
  | .error err => { lines := [], result := .error err }
  | .ok (endpoints, s1) =>
    let (declaration, s2) := clientDeclaration x f clientName subpackages s1
    let methods :=
      clientMethods x f receiver clientName errorDiscriminationByPropertyStrategy endpoints s2
    match methods.result with
    | .error err => { lines := declaration ++ methods.lines, result := .error err }
    | .ok ((), s3) =>
      let parameters :=
        (match generatedAuth with
         | some auth => [auth.Option]
         | none => []) ++
        (match generatedEnvironment with
         | some environment => [environment.Example]
         | none => [])
      { lines := declaration ++ methods.lines
        result :=
          .ok ({ Instantiation :=
                  { Left := [.LocalObject "client"]
                    Right :=
                      [.CallExpr
                        (.ImportedObject "NewClient"
                          (x.packagePathToImportPath f.baseImportPath
                            (x.packagePathForClient fernFilepath)))
                        parameters] } }, s3) }

/-! ## Client options -/

/-- Go `ir.BearerAuthScheme` (the field read by sdk.go). -/
structure BearerAuthScheme where
  Token : Name
  deriving DecidableEq, Repr

/-- Go `ir.HeaderAuthScheme`; `Prefix` is the optional static prefix of the value. -/
structure HeaderAuthScheme where
  Name : NameAndWireValue
  ValueType : TypeReference
  Prefix : Option String

/-- The IR union `AuthScheme`, read through its pointer fields `Bearer`, `Basic` and
`Header`, of which one is set; sdk.go reads no field of the basic scheme. -/
inductive AuthScheme where
  | bearer (b : BearerAuthScheme)
  | basic
  | header (h : HeaderAuthScheme)

/-- Go `ir.ApiAuth`. -/
structure ApiAuth where
  Docs : Option String
  Schemes : List AuthScheme

/-- Go `ir.PlatformHeaders`: the names of the platform headers. -/
structure PlatformHeaders where
  Language : String
  SdkName : String
  SdkVersion : String
  deriving DecidableEq, Repr

/-- Go `ir.SdkConfig` (the field read by sdk.go). -/
structure SdkConfig where
  PlatformHeaders : Option PlatformHeaders
  deriving DecidableEq, Repr

/-- Go `ModuleConfig` (the field read by sdk.go). -/
structure ModuleConfig where
  Path : String
  deriving DecidableEq, Repr

/-- Go `goLanguageHeader`. -/
def goLanguageHeader : String := "Go"

/-- A loop that writes lines for every element of a list, in order, from one state of the
scopes to the next. -/
def writeEach {σ α : Type} (body : α → σ → List String × σ) : List α → σ → List String × σ
  | [], s => ([], s)
  | a :: rest, s =>
    let (lines, s1) := body a s
    let (others, s2) := writeEach body rest s1
    (lines ++ others, s2)

/-- The body of the loop of `WriteClientOptionsDefinition` over the auth schemes inside the
struct `ClientOptions`: the fields of one scheme. -/
def authSchemeFields {σ Scope : Type} (x : Externals σ Scope) (f : fileWriter Scope)
    (importPath : String) (authScheme : AuthScheme) (s : σ) : List String × σ :=
  match authScheme with
  | .bearer bearer => ([P [bearer.Token.PascalCase.UnsafeName, " string"]], s)
  | .basic => ([P ["Username string"], P ["Password string"]], s)
  | .header header =>
    match header.ValueType.Container.bind ContainerType.Literal with
    | some _ => ([], s)
    | none =>
      let (goType, s1) :=
        x.typeReferenceToGoType header.ValueType f.scope f.baseImportPath importPath false s
      ([P [header.Name.Name.PascalCase.UnsafeName, " ", goType]], s1)

/-- The body of the loop of `WriteClientOptionsDefinition` over the custom headers inside
the struct `ClientOptions`: the field of one header. -/
def headerFields {σ Scope : Type} (x : Externals σ Scope) (f : fileWriter Scope)
    (importPath : String) (header : HttpHeader) (s : σ) : List String × σ :=
  match header.ValueType.Container.bind ContainerType.Literal with
  | some _ => ([], s)
  | none =>
    let (goType, s1) :=
      x.typeReferenceToGoType header.ValueType f.scope f.baseImportPath importPath false s
    ([P [header.Name.Name.PascalCase.UnsafeName, " ", goType]], s1)

/-- The body of the loop of `WriteClientOptionsDefinition` over the auth schemes inside
`ToHeader`: the statements of one scheme. -/
def authSchemeToHeader (literalToValue : Literal → String) (authScheme : AuthScheme) :
    List String :=
  match authScheme with
  | .bearer bearer =>
    [ P ["if c.", bearer.Token.PascalCase.UnsafeName, " != \"\" \x7b "],
      P ["header.Set(\"Authorization\", ", "\"Bearer \" + c.",
         bearer.Token.PascalCase.UnsafeName, ")"],
      P ["\x7d"] ]
  | .basic =>
    [ P ["if c.Username != \"\" && c.Password != \"\" \x7b"],
      P ["header.Set(\"Authorization\", ",
         "\"Basic \" + base64.StdEncoding.EncodeToString([]byte(c.Username + \": \" + c.Password)))"],
      P ["\x7d"] ]
  | .header header =>
    let pre :=
      match header.Prefix with
      | some p => p ++ " "
      | none => ""
    match header.ValueType.Container.bind ContainerType.Literal with
    | some literal =>
      [ P ["header.Set(\"", header.Name.WireValue, "\", fmt.Sprintf(\"", pre, "%v\",",
           literalToValue literal, "))"] ]
    | none =>
      let valueTypeFormat := formatForValueType header.ValueType
      let value :=
        valueTypeFormat.Prefix ++ "c." ++ header.Name.Name.PascalCase.UnsafeName ++
          valueTypeFormat.Suffix
      if valueTypeFormat.IsOptional then
        [ P ["if c.", header.Name.Name.PascalCase.UnsafeName, " != nil \x7b"],
          P ["header.Set(\"", header.Name.WireValue, "\", fmt.Sprintf(\"", pre, "%v\",", value,
             "))"],
          P ["\x7d"] ]
      else
        [ P ["header.Set(\"", header.Name.WireValue, "\", fmt.Sprintf(\"", pre, "%v\",", value,
             "))"] ]

/-- The body of the loop of `WriteClientOptionsDefinition` over the custom headers inside
`ToHeader`: the statements of one header. -/
def headerToHeader (literalToValue : Literal → String) (header : HttpHeader) : List String :=
  match header.ValueType.Container.bind ContainerType.Literal with
  | some literal =>
    [ P ["header.Set(\"", header.Name.WireValue, "\", fmt.Sprintf(\"%v\",",
         literalToValue literal, "))"] ]
  | none =>
    let valueTypeFormat := formatForValueType header.ValueType
    let value :=
      valueTypeFormat.Prefix ++ "c." ++ header.Name.Name.PascalCase.UnsafeName ++
        valueTypeFormat.Suffix
    if valueTypeFormat.IsOptional then
      [ P ["if c.", header.Name.Name.PascalCase.UnsafeName, " != nil \x7b"],
        P ["header.Set(\"", header.Name.WireValue, "\", fmt.Sprintf(\"%v\", ", value, "))"],
        P ["\x7d"] ]
    else
      [ P ["header.Set(\"", header.Name.WireValue, "\", fmt.Sprintf(\"%v\", ", value, "))"] ]

/-- Go `writePlatformHeaders`; reading the platform headers of a nil SDK configuration or
the path of a nil module configuration is a nil dereference. -/
def writePlatformHeaders {σ : Type} (quote : String → String) (sdkConfig : Option SdkConfig)
    (moduleConfig : Option ModuleConfig) (sdkVersion : String) (s : σ) : Written σ Unit :=
  if sdkVersion = "" then
    { lines :=
        [ P ["func (c *ClientOptions) cloneHeader() http.Header \x7b"],
          P ["return c.HTTPHeader.Clone()"],
          P ["\x7d"] ]
      result := .ok ((), s) }
  else
    match sdkConfig with
    | none => { lines := [], result := .error .nilDereference }
    | some sdkConfig =>
      match sdkConfig.PlatformHeaders with
      | none => { lines := [], result := .ok ((), s) }
      | some platformHeaders =>
        let opening :=
          [ P ["func (c *ClientOptions) cloneHeader() http.Header \x7b"],
            P ["headers := c.HTTPHeader.Clone()"],
            P ["headers.Set(" ++ quote platformHeaders.Language ++ ", " ++
                quote goLanguageHeader ++ ")"] ]
        match moduleConfig with
        | none => { lines := opening, result := .error .nilDereference }
        | some moduleConfig =>
          { lines := opening ++
              [ P ["headers.Set(" ++ quote platformHeaders.SdkName ++ ", " ++
                  quote moduleConfig.Path ++ ")"],
                P ["headers.Set(" ++ quote platformHeaders.SdkVersion ++ ", " ++
                  quote sdkVersion ++ ")"],
                P ["return headers"],
                P ["\x7d"] ]
            result := .ok ((), s) }

/-- The fields that `WriteClientOptionsDefinition` writes inside the struct `ClientOptions`
after the three fixed fields: those of the auth schemes, then those of the custom headers. -/
def clientOptionsFields {σ Scope : Type} (x : Externals σ Scope) (f : fileWriter Scope)
    (importPath : String) (schemes : List AuthScheme) (headers : List HttpHeader) (s : σ) :
    List String × σ :=
  let (authFields, s1) := writeEach (authSchemeFields x f importPath) schemes s
  let (customFields, s2) := writeEach (headerFields x f importPath) headers s1
  (authFields ++ customFields, s2)

/-- The statements that `WriteClientOptionsDefinition` writes inside `ToHeader` between the
clone of the header set and its return: those of the auth schemes, then those of the custom
headers. -/
def toHeaderStatements (literalToValue : Literal → String) (schemes : List AuthScheme)
    (headers : List HttpHeader) : List String :=
  schemes.flatMap (authSchemeToHeader literalToValue) ++
    headers.flatMap (headerToHeader literalToValue)

/-- Go `WriteClientOptionsDefinition`; ranging over the schemes of a nil `auth` is a nil
dereference. -/
def WriteClientOptionsDefinition {σ Scope : Type} (x : Externals σ Scope)
    (f : fileWriter Scope) (auth : Option ApiAuth) (headers : List HttpHeader)
    (sdkConfig : Option SdkConfig) (moduleConfig : Option ModuleConfig) (sdkVersion : String)
    (s : σ) : Written σ Unit :=
  let importPath := x.pathJoin f.baseImportPath "core"
  let opening :=
    [ P ["// ClientOption adapts the behavior of the generated client."],
      P ["type ClientOption func(*ClientOptions)"],
      P [],
      P ["// ClientOptions defines all of the possible client options."],
      P ["// This type is primarily used by the generated code and is"],
      P ["// not meant to be used directly; use ClientOption instead."],
      P ["type ClientOptions struct \x7b"],
      P ["BaseURL string"],
      P ["HTTPClient HTTPClient"],
      P ["HTTPHeader http.Header"] ]
  match auth with
  | none => { lines := opening, result := .error .nilDereference }
  | some auth =>
    let (fields, s1) := clientOptionsFields x f importPath auth.Schemes headers s
    let constructor :=
      [ P ["\x7d"],
        P [],
        P ["// NewClientOptions returns a new *ClientOptions value."],
        P ["// This function is primarily used by the generated code and is"],
        P ["// not meant to be used directly; use ClientOption instead."],
        P ["func NewClientOptions() *ClientOptions \x7b"],
        P ["return &ClientOptions\x7b"],
        P ["HTTPClient: http.DefaultClient,"],
        P ["HTTPHeader: make(http.Header),"],
        P ["\x7d"],
        P ["\x7d"],
        P [] ]
    let toHeader :=
      if auth.Schemes.length = 0 ∧ headers.length = 0 then
        [ P ["// ToHeader maps the configured client options into a http.Header issued"],
          P ["// on every request."],
          P ["func (c *ClientOptions) ToHeader() http.Header \x7b return c.cloneHeader() \x7d"],
          P [] ]
      else
        [ P ["// ToHeader maps the configured client options into a http.Header issued"],
          P ["// on every request."],
          P ["func (c *ClientOptions) ToHeader() http.Header \x7b"],
          P ["header := c.cloneHeader()"] ] ++
        toHeaderStatements x.literalToValue auth.Schemes headers ++
        [ P ["return header"],
          P ["\x7d"],
          P [] ]
    let platform := writePlatformHeaders x.quote sdkConfig moduleConfig sdkVersion s1
    { lines := opening ++ fields ++ constructor ++ toHeader ++ platform.lines
      result := platform.result }

/-- An option function as `WriteClientOptions` writes it: the comment above it, its
signature, and the assignments inside its closure. -/
structure optionFunction where
  comment : List String
  signature : String
  assignments : List String
  deriving DecidableEq, Repr

/-- The lines of an option function: the comment, the signature, the opening of the closure
over the options, its assignments, and the closing of the closure and of the function
followed by an empty line. -/
def optionFunction.lines (clientOptionsType : String) (option : optionFunction) :
    List String :=
  option.comment ++
    [option.signature, P ["return func(opts ", clientOptionsType, ") \x7b"]] ++
    option.assignments ++
    [P ["\x7d"], P ["\x7d"], P []]

/-- The example invocation that the loop of `WriteClientOptions` over the auth schemes
builds for a scheme under `if i == 0`; a literal-valued header scheme leaves the loop body
before that and builds none. -/
def authSchemeExample (importPath : String) (authScheme : AuthScheme) : Option Expr :=
  match authScheme with
  | .bearer bearer =>
    some (.CallExpr (.ImportedObject ("With" ++ bearer.Token.PascalCase.UnsafeName) importPath)
      [.LocalObject "\"<YOUR_AUTH_TOKEN>\""])
  | .basic =>
    some (.CallExpr (.ImportedObject "WithBasicAuth" importPath)
      [.LocalObject "\"<YOUR_USERNAME>\"", .LocalObject "\"<YOUR_PASSWORD>\""])
  | .header header =>
    match header.ValueType.Container.bind ContainerType.Literal with
    | some _ => none
    | none =>
      some (.CallExpr
        (.ImportedObject ("With" ++ header.Name.Name.PascalCase.UnsafeName) importPath)
        [.LocalObject ("\"<YOUR_" ++ header.Name.Name.PascalCase.UnsafeName ++ ">\"")])

/-- The option function that the loop of `WriteClientOptions` over the auth schemes writes
for a scheme, none for a literal-valued header scheme; `authDocs` is the documentation of the
auth configuration, `auth.Docs`. -/
def authSchemeOption {σ Scope : Type} (x : Externals σ Scope) (f : fileWriter Scope)
    (importPath clientOptionType : String) (authDocs : Option String)
    (authScheme : AuthScheme) (s : σ) : Option optionFunction × σ :=
  let includeCustomAuthDocs :=
    match authDocs with
    | some docs => decide (docs.length > 0)
    | none => false
  let customAuthDocs := if includeCustomAuthDocs then P ["//"] :: x.WriteDocs authDocs else []
  match authScheme with
  | .bearer bearer =>
    let pascalCase := bearer.Token.PascalCase.UnsafeName
    let camelCase := bearer.Token.CamelCase.SafeName
    (some
      { comment :=
          P ["// With", pascalCase, " sets the 'Authorization: Bearer <", camelCase,
             ">' header on every request."] :: customAuthDocs
        signature := P ["func With", pascalCase, "(", camelCase, " string) ", clientOptionType,
          " \x7b"]
        assignments := [P ["opts.", pascalCase, " = ", camelCase]] }, s)
  | .basic =>
    (some
      { comment :=
          P ["// WithBasicAuth sets the 'Authorization: Basic <base64>' header on every request."]
            :: customAuthDocs
        signature := P ["func WithBasicAuth(username, password string) ", clientOptionType,
          " \x7b"]
        assignments := [P ["opts.Username = username"], P ["opts.Password = password"]] }, s)
  | .header header =>
    match header.ValueType.Container.bind ContainerType.Literal with
    | some _ => (none, s)
    | none =>
      let pascalCase := header.Name.Name.PascalCase.UnsafeName
      let optionName := "With" ++ pascalCase
      let field := header.Name.Name.PascalCase.UnsafeName
      let param := header.Name.Name.CamelCase.SafeName
      let (value, s1) :=
        x.typeReferenceToGoType header.ValueType f.scope f.baseImportPath importPath false s
      (some
        { comment :=
            P ["// ", optionName, " sets the ", param, " auth header on every request."] ::
              customAuthDocs
          signature := P ["func ", optionName, "(", param, " ", value, ") ", clientOptionType,
            " \x7b"]
          assignments := [P ["opts.", field, " = ", param]] }, s1)

/-- The option function that the loop of `WriteClientOptions` over the custom headers writes
for a header, none for a literal-valued header. -/
def headerOption {σ Scope : Type} (x : Externals σ Scope) (f : fileWriter Scope)
    (importPath clientOptionType : String) (header : HttpHeader) (s : σ) :
    Option optionFunction × σ :=
  match header.ValueType.Container.bind ContainerType.Literal with
  | some _ => (none, s)
  | none =>
    let optionName := "With" ++ header.Name.Name.PascalCase.UnsafeName
    let field := header.Name.Name.PascalCase.UnsafeName
    let param := header.Name.Name.CamelCase.SafeName
    let (value, s1) :=
      x.typeReferenceToGoType header.ValueType f.scope f.baseImportPath importPath false s
    (some
      { comment :=
          P ["// ", optionName, " sets the ", param, " header on every request."] ::
            (match header.Docs with
             | some docs =>
               if docs.length > 0 then P ["//"] :: x.WriteDocs header.Docs else []
             | none => [])
        signature := P ["func ", optionName, "(", param, " ", value, ") ", clientOptionType,
          " \x7b"]
        assignments := [P ["opts.", field, " = ", param]] }, s1)

/-- The lines written for an option function, if there is one. -/
def optionLines (clientOptionsType : String) (option : Option optionFunction) : List String :=
  match option with
  | some option => option.lines clientOptionsType
  | none => []

/-- The loop of `WriteClientOptions` over the auth schemes, from the index `i` on: it writes
the option function of every scheme and keeps, as `option`, the example invocation of the
scheme at index 0. -/
def authOptionsLoop {σ Scope : Type} (x : Externals σ Scope) (f : fileWriter Scope)
    (importPath clientOptionType clientOptionsType : String) (authDocs : Option String) :
    Nat → List AuthScheme → Option Expr → σ → (List String × Option Expr) × σ
  | _, [], option, s => (([], option), s)
  | i, authScheme :: rest, option, s =>
    let (written, s1) := authSchemeOption x f importPath clientOptionType authDocs authScheme s
    let option :=
      if i = 0 then
        match authSchemeExample importPath authScheme with
        | some invocation => some invocation
        | none => option
      else option
    let ((others, option), s2) :=
      authOptionsLoop x f importPath clientOptionType clientOptionsType authDocs (i + 1) rest
        option s1
    ((optionLines clientOptionsType written ++ others, option), s2)

/-- Go `WriteClientOptions`; reading the documentation of a nil `auth` is a nil
dereference. -/
def WriteClientOptions {σ Scope : Type} (x : Externals σ Scope) (f : fileWriter Scope)
    (auth : Option ApiAuth) (headers : List HttpHeader) (s : σ) :
    Written σ (Option GeneratedAuth) :=
  let importPath := x.pathJoin f.baseImportPath "client"
  let httpClientType := "core.HTTPClient"
  let clientOptionType := "core.ClientOption"
  let clientOptionsType := "*core.ClientOptions"
  let opening :=
    [ P ["// WithBaseURL sets the client's base URL, overriding the"],
      P ["// default environment, if any."],
      P ["func WithBaseURL(baseURL string) ", clientOptionType, " \x7b"],
      P ["return func(opts ", clientOptionsType, ") \x7b"],
      P ["opts.BaseURL = baseURL"],
      P ["\x7d"],
      P ["\x7d"],
      P [],
      P ["// WithHTTPClient uses the given HTTPClient to issue all HTTP requests."],
      P ["func WithHTTPClient(httpClient ", httpClientType, ") ", clientOptionType, " \x7b"],
      P ["return func(opts ", clientOptionsType, ") \x7b"],
      P ["opts.HTTPClient = httpClient"],
      P ["\x7d"],
      P ["\x7d"],
      P [],
      P ["// WithHTTPHeader adds the given http.Header to all requests"],
      P ["// issued by the client."],
      P ["func WithHTTPHeader(httpHeader http.Header) ", clientOptionType, " \x7b"],
      P ["return func(opts ", clientOptionsType, ") \x7b"],
      P ["// Clone the headers so they can't be modified after the option call."],
      P ["opts.HTTPHeader = httpHeader.Clone()"],
      P ["\x7d"],
      P ["\x7d"],
      P [] ]
  match auth with
  | none => { lines := opening, result := .error .nilDereference }
  | some auth =>
    let ((authOptions, option), s1) :=
      authOptionsLoop x f importPath clientOptionType clientOptionsType auth.Docs 0
        auth.Schemes none s
    let (headerOptions, s2) :=
      writeEach (fun header s =>
        let (written, s1) := headerOption x f importPath clientOptionType header s
        (optionLines clientOptionsType written, s1)) headers s1
    { lines := opening ++ authOptions ++ headerOptions
      result :=
        match option with
        | none => .ok (none, s2)
        | some option => .ok (some { Option := option }, s2) }

/-! ## The environments variable -/

/-- The map `baseURLs` that the environment visitors build from the base URLs, read at an
id: every base URL sets the entry of its id to its name, a later one replacing an earlier
one, and an id without entry reads as the empty string. -/
def baseURLNames :
    List EnvironmentBaseUrlWithId → (EnvironmentBaseUrlId → String) →
      EnvironmentBaseUrlId → String
  | [], baseURLs => baseURLs
  | baseURL :: rest, baseURLs =>
    baseURLNames rest fun id =>
      if id = baseURL.Id then baseURL.Name.PascalCase.UnsafeName else baseURLs id

/-- Go `environmentsDeclarationVisitor`; `written` holds the lines written through the
visitor's writer. -/
structure environmentsDeclarationVisitor where
  value : Option Expr
  importPath : String
  written : List String

/-- The loop of `environmentsDeclarationVisitor.VisitSingleBaseUrl`, from the index `i`
on. -/
def declareSingleBaseUrlLoop (WriteDocs : Option String → List String) :
    Nat → List SingleBaseUrlEnvironment → environmentsDeclarationVisitor →
      environmentsDeclarationVisitor
  | _, [], e => e
  | i, environment :: rest, e =>
    let e :=
      if i = 0 then
        { e with value := some (.ImportedObject
            ("Environments." ++ environment.Name.PascalCase.UnsafeName) e.importPath) }
      else e
    declareSingleBaseUrlLoop WriteDocs (i + 1) rest
      { e with written := e.written ++ WriteDocs environment.Docs ++
          [P [environment.Name.PascalCase.UnsafeName, " string"]] }

/-- Go `environmentsDeclarationVisitor.VisitSingleBaseUrl`. -/
def environmentsDeclarationVisitor.VisitSingleBaseUrl (WriteDocs : Option String → List String)
    (url : SingleBaseUrlEnvironments) (e : environmentsDeclarationVisitor) :
    Except Failure environmentsDeclarationVisitor :=
  .ok (declareSingleBaseUrlLoop WriteDocs 0 url.Environments e)

/-- The lines that `environmentsDeclarationVisitor.VisitMultipleBaseUrls` writes for one
environment: its documentation and a struct with one string field per URL of the
environment, in the order of the sorted slice. -/
def declareEnvironment (WriteDocs : Option String → List String)
    (baseURLs : EnvironmentBaseUrlId → String) (environment : MultipleBaseUrlsEnvironment) :
    List String :=
  WriteDocs environment.Docs ++
    [P [environment.Name.PascalCase.UnsafeName, " struct \x7b"]] ++
    (environmentURLMapToSortedSlice environment.Urls).map (fun environmentURL =>
      P [baseURLs environmentURL.ID, " string"]) ++
    [P ["\x7d"]]

/-- The loop of `environmentsDeclarationVisitor.VisitMultipleBaseUrls` over the
environments, from the index `i` on. -/
def declareMultipleBaseUrlsLoop (WriteDocs : Option String → List String)
    (baseURLs : EnvironmentBaseUrlId → String) :
    Nat → List MultipleBaseUrlsEnvironment → environmentsDeclarationVisitor →
      environmentsDeclarationVisitor
  | _, [], e => e
  | i, environment :: rest, e =>
    let e :=
      if i = 0 then
        { e with value := some (.ImportedObject
            ("Environments." ++ environment.Name.PascalCase.UnsafeName) e.importPath) }
      else e
    declareMultipleBaseUrlsLoop WriteDocs baseURLs (i + 1) rest
      { e with written := e.written ++ declareEnvironment WriteDocs baseURLs environment }

/-- Go `environmentsDeclarationVisitor.VisitMultipleBaseUrls`. -/
def environmentsDeclarationVisitor.VisitMultipleBaseUrls
    (WriteDocs : Option String → List String) (url : MultipleBaseUrlsEnvironments)
    (e : environmentsDeclarationVisitor) : Except Failure environmentsDeclarationVisitor :=
  .ok (declareMultipleBaseUrlsLoop WriteDocs (baseURLNames url.BaseUrls fun _ => "") 0
    url.Environments e)

/-- Go `environmentsValueVisitor`; `written` holds the lines written through the visitor's
writer. -/
structure environmentsValueVisitor where
  written : List String

/-- Go `environmentsValueVisitor.VisitSingleBaseUrl`. -/
def environmentsValueVisitor.VisitSingleBaseUrl (quote : String → String)
    (url : SingleBaseUrlEnvironments) (e : environmentsValueVisitor) :
    Except Failure environmentsValueVisitor :=
  .ok
    { written := e.written ++ url.Environments.map (fun environment =>
        P [environment.Name.PascalCase.UnsafeName, ": " ++ quote environment.Url ++ ","]) }

/-- The lines that `environmentsValueVisitor.VisitMultipleBaseUrls` writes for one
environment: the struct type with one string field per URL of the environment, and its value
with one initialised field per URL, both in the order of one sorted slice. -/
def valueOfEnvironment (quote : String → String) (baseURLs : EnvironmentBaseUrlId → String)
    (environment : MultipleBaseUrlsEnvironment) : List String :=
  let environmentURLs := environmentURLMapToSortedSlice environment.Urls
  [P [environment.Name.PascalCase.UnsafeName, ": struct \x7b"]] ++
    environmentURLs.map (fun environmentURL => P [baseURLs environmentURL.ID, " string"]) ++
    [P ["\x7d\x7b"]] ++
    environmentURLs.map (fun environmentURL =>
      P [baseURLs environmentURL.ID, ": " ++ quote environmentURL.URL ++ ","]) ++
    [P ["\x7d,"]]

/-- Go `environmentsValueVisitor.VisitMultipleBaseUrls`. -/
def environmentsValueVisitor.VisitMultipleBaseUrls (quote : String → String)
    (url : MultipleBaseUrlsEnvironments) (e : environmentsValueVisitor) :
    Except Failure environmentsValueVisitor :=
  .ok
    { written := e.written ++
        url.Environments.flatMap
          (valueOfEnvironment quote (baseURLNames url.BaseUrls fun _ => "")) }

/-- Go `environmentsToEnvironmentsVariable` (called by `WriteEnvironments`); reading the
environments of a nil configuration is a nil dereference. -/
def environmentsToEnvironmentsVariable {σ Scope : Type} (x : Externals σ Scope)
    (environmentsConfig : Option EnvironmentsConfig) (writer : fileWriter Scope)
    (useCore : Bool) (s : σ) : Written σ (Option GeneratedEnvironment) :=
  let opening :=
    [ P ["// Environments defines all of the API environments."],
      P ["// These values can be used with the WithBaseURL"],
      P ["// ClientOption to override the client's default environment,"],
      P ["// if any."],
      P ["var Environments = struct \x7b"] ]
  let importPath :=
    if useCore then x.pathJoin writer.baseImportPath "core" else writer.baseImportPath
  match environmentsConfig with
  | none => { lines := opening, result := .error .nilDereference }
  | some environmentsConfig =>
    match environmentsConfig.Environments.Accept
        (environmentsDeclarationVisitor.VisitSingleBaseUrl x.WriteDocs)
        (environmentsDeclarationVisitor.VisitMultipleBaseUrls x.WriteDocs)
        { value := none, importPath := importPath, written := [] } with
    | .error err => { lines := opening, result := .error err }
    | .ok declarationVisitor =>
      match environmentsConfig.Environments.Accept
          (environmentsValueVisitor.VisitSingleBaseUrl x.quote)
          (environmentsValueVisitor.VisitMultipleBaseUrls x.quote) { written := [] } with
      | .error err =>
        { lines := opening ++ declarationVisitor.written ++ [P ["\x7d\x7b"]]
          result := .error err }
      | .ok valueVisitor =>
        { lines := opening ++ declarationVisitor.written ++ [P ["\x7d\x7b"]] ++
            valueVisitor.written ++ [P ["\x7d"]]
          result :=
            if environmentsConfig.DefaultEnvironment.isSome then .ok (none, s)
            else
              match declarationVisitor.value with
              | none => .ok (none, s)
              | some value => .ok (some { Example := value }, s) }

/-- Go `WriteEnvironments`. -/
def WriteEnvironments {σ Scope : Type} (x : Externals σ Scope) (f : fileWriter Scope)
    (environmentsConfig : Option EnvironmentsConfig) (useCore : Bool) (s : σ) :
    Written σ (Option GeneratedEnvironment) :=
  environmentsToEnvironmentsVariable x environmentsConfig f useCore s

/-! ## Definitions used to state the properties -/

/-- The type reference made of `k` nested optional containers around `t`. -/
def nestOptional : Nat → TypeReference → TypeReference
  | 0, t => t
  | k + 1, t => .container (.optional (nestOptional k t))

/-- The condition of section 4.6 for an aggregated request parameter, in the spec's words:
the body is present and is not a file upload without extra fields, or the body is absent
and the endpoint has query parameters or headers. -/
def specNeedsRequestParameter (endpoint : HttpEndpoint) : Bool :=
  match endpoint.RequestBody with
  | some requestBody =>
    match requestBody.FileUpload with
    | some fileUpload => fileUploadHasBodyProperties fileUpload
    | none => true
  | none => !endpoint.QueryParameters.isEmpty || !endpoint.Headers.isEmpty

/-- External functions that register nothing: the scope state is trivial, a name or an import
path is returned unchanged and every type is written `any`. -/
def plainExternals : Externals Unit Unit where
  Child := fun scope s => (scope, s)
  Add := fun _ name s => (name, s)
  AddImport := fun _ path s => (path, s)
  typeReferenceToGoType := fun _ _ _ _ _ s => ("any", s)
  defaultValueForTypeReference := fun _ => "nil"
  fernFilepathToImportPath := fun baseImportPath _ => baseImportPath
  literalToValue := fun l =>
    match l with
    | .string value => "\"" ++ value ++ "\""
    | .boolean value => if value then "true" else "false"
    | .number value => toString value
  literalToGoType := fun l =>
    match l with
    | .string _ => "string"
    | .boolean _ => "bool"
    | .number _ => "int"
  typeNameToReceiver := fun _ => "r"
  isPointer := fun _ => false
  packagePathForClient := fun _ => []
  packagePathToImportPath := fun baseImportPath _ => baseImportPath
  WriteDocs := fun docs =>
    match docs with
    | some d => if d.length > 0 then ["// " ++ d] else []
    | none => []
  quote := fun str => "\"" ++ str ++ "\""
  pathJoin := fun dir name => dir ++ "/" ++ name
  visitObjectProperties := fun _ _ _ object _ _ s =>
    ((object.Properties.filterMap fun property =>
        match property.ValueType.Container.bind ContainerType.Literal with
        | some _ => none
        | none => some (property.Name.Name.PascalCase.UnsafeName ++ " any"),
      object.Properties.filterMap fun property =>
        match property.ValueType.Container.bind ContainerType.Literal with
        | some l => some { Name := property.Name.Name, Value := l }
        | none => none), s)

/-- A file writer with an empty buffer. -/
def emptyWriter : fileWriter Unit :=
  { baseImportPath := "sdk", scope := (), buffer := [], errors := [] }

/-- The file path of the root package. -/
def rootFilepath : FernFilepath := { parts := [] }

/-- The IR name whose every casing is the given string. -/
def plainName (s : String) : Name :=
  { OriginalName := s, CamelCase := ⟨s, s⟩, PascalCase := ⟨s, s⟩ }

/-- An endpoint `GET` without parameters, request, response or base-URL override. -/
def bareEndpoint : HttpEndpoint :=
  { Name := plainName "getUser", Docs := none, Method := .HttpMethodGet, Headers := [],
    BaseUrl := none, FullPath := none, AllPathParameters := [], QueryParameters := [],
    RequestBody := none, SdkRequest := none, Response := none, Errors := [] }

/-- The multiple-base-URL configuration of section 8: environment `Production` with the URL
map `{api: "https://api.example.com"}`, declared as the default environment. -/
def productionConfig : EnvironmentsConfig :=
  { DefaultEnvironment := some "Production"
    Environments := .multipleBaseUrls
      { BaseUrls := [{ Id := "api", Name := plainName "Api" }]
        Environments :=
          [{ Docs := none, Id := "Production", Name := plainName "Production",
             Urls := [("api", "https://api.example.com")] }] } }

/-- A single-base-URL configuration without default environment whose only environment has
the empty string as id. -/
def emptyIdConfig : EnvironmentsConfig :=
  { DefaultEnvironment := none
    Environments := .singleBaseUrl
      { Environments :=
          [{ Docs := none, Id := "", Name := plainName "Production",
             Url := "https://api.example.com" }] } }

/-- A single-base-URL configuration with the environments `Production` (the default) and
`Staging`. -/
def stagingConfig : EnvironmentsConfig :=
  { DefaultEnvironment := some "Production"
    Environments := .singleBaseUrl
      { Environments :=
          [{ Docs := none, Id := "Production", Name := plainName "Production",
             Url := "https://api.example.com" },
           { Docs := none, Id := "Staging", Name := plainName "Staging",
             Url := "https://staging.example.com" }] } }

/-- An endpoint with an inlined request body and no SDK request. -/
def bodyWithoutSdkRequest : HttpEndpoint :=
  { bareEndpoint with
    RequestBody :=
      some (.inlinedRequestBody { Name := plainName "Body", Extends := [], Properties := [] }) }

/-- The optional boolean query parameter `shallow` of section 8. -/
def shallowParameter : QueryParameter :=
  { Docs := none, Name := { WireValue := "shallow", Name := plainName "Shallow" },
    ValueType := .container (.optional (.primitive .PrimitiveTypeBoolean)),
    AllowMultiple := false }

/-- Whether every environment id (single base URL) or base-URL id (multiple base URLs) of
the configuration differs from `id`. -/
def idAbsent (id : String) (config : EnvironmentsConfig) : Prop :=
  match config.Environments with
  | .singleBaseUrl url => ∀ environment ∈ url.Environments, environment.Id ≠ id
  | .multipleBaseUrls url =>
    ∀ environment ∈ url.Environments, ∀ entry ∈ environment.Urls, entry.1 ≠ id

/-- A URL map with the base-URL ids `web` and `api`, enumerated in that order. -/
def exampleUrls : List (EnvironmentBaseUrlId × EnvironmentUrl) :=
  [("web", "https://web.example.com"), ("api", "https://api.example.com")]

/-- The `queryParams.Add` statement that `WriteClient` writes for a query parameter whose
value is read from the request parameter. -/
def queryParamsAdd (endpoint : endpoint) (queryParameter : QueryParameter) : String :=
  P ["queryParams.Add(\"", queryParameter.Name.WireValue, "\", fmt.Sprintf(\"%v\", ",
     (formatForValueType queryParameter.ValueType).Prefix ++ endpoint.RequestParameterName ++
       "." ++ queryParameter.Name.Name.PascalCase.UnsafeName ++
       (formatForValueType queryParameter.ValueType).Suffix, "))"]

/-- The presence guard `if <request>.<Field>!= nil` that opens a block. -/
def presenceGuard (endpoint : endpoint) (queryParameter : QueryParameter) : String :=
  P ["if ", endpoint.RequestParameterName, ".", queryParameter.Name.Name.PascalCase.UnsafeName,
     "!= nil \x7b"]

/-- An endpoint `GetUser` whose request parameter is named `request` and whose only query
parameter is `shallow`. -/
def getUserEndpoint : endpoint :=
  { Name := plainName "GetUser", Docs := none, PathParameterDocs := [], ImportPath := "sdk",
    RequestParameterName := "request", RequestValueName := "", ResponseType := "string",
    ResponseParameterName := "response", ResponseInitializerFormat := "var response %s",
    ResponseIsOptionalParameter := false, PathParameterNames := "userId",
    SignatureParameters := "ctx context.Context, userId string, request *GetUserRequest",
    ReturnValues := "(string, error)", SuccessfulReturnValues := "response, nil",
    ErrorReturnValues := "\"\", err", BaseURL := "", PathSuffix := "users/%v",
    Method := "http.MethodGet", IsStreaming := false, StreamDelimiter := "",
    ErrorDecoderParameterName := "", Errors := [], QueryParameters := [shallowParameter],
    Headers := [], FileProperties := [], FileBodyProperties := [] }

/-- The bare endpoint with the base-URL override `Staging`. -/
def stagingEndpoint : HttpEndpoint := { bareEndpoint with BaseUrl := some "Staging" }

/-- The configuration `stagingConfig` without a default environment. -/
def noDefaultConfig : EnvironmentsConfig := { stagingConfig with DefaultEnvironment := none }

/-- The IR name with the given original name, camel case and pascal case. -/
def casedName (original camel pascal : String) : Name :=
  { OriginalName := original, CamelCase := ⟨camel, camel⟩, PascalCase := ⟨pascal, pascal⟩ }

/-- The SDK request whose shape is the wrapper type of the given name, with the parameter
name `request` and the body key `Body`. -/
def wrapperRequest (name : String) : SdkRequest :=
  { RequestParameterName := casedName "request" "request" "Request",
    Shape := .wrapper { WrapperName := plainName name, BodyKey := plainName "Body" } }

/-- A query parameter `version` whose value is the literal `"v1"` and that allows multiple
values. -/
def versionParameter : QueryParameter :=
  { Docs := none,
    Name := { WireValue := "version", Name := casedName "version" "version" "Version" },
    ValueType := .container (.literal (.string "v1")), AllowMultiple := true }

/-- An endpoint `ListVersions` whose only input is the query parameter `version`. -/
def listVersionsEndpoint : HttpEndpoint :=
  { bareEndpoint with
    Name := plainName "ListVersions"
    QueryParameters := [versionParameter]
    SdkRequest := some (wrapperRequest "ListVersionsRequest") }

/-- The required file property `file`. -/
def fileProperty : FileProperty :=
  { Key := { WireValue := "file", Name := plainName "file" }, IsOptional := false }

/-- The file-upload endpoint `JustFile`: one required file, no body property, no header. -/
def justFileEndpoint : HttpEndpoint :=
  { bareEndpoint with
    Name := plainName "JustFile"
    Method := .HttpMethodPost
    RequestBody := some (.fileUpload
      { Name := plainName "JustFileRequest",
        Properties := [{ File := some fileProperty, BodyProperty := none }] })
    SdkRequest := some (wrapperRequest "JustFileRequest") }

/-- An endpoint without response whose request body is the bytes variant, the SDK request
being just that body. -/
def bytesEndpoint : HttpEndpoint :=
  { bareEndpoint with
    Name := plainName "Upload"
    Method := .HttpMethodPost
    RequestBody := some .bytes
    SdkRequest := some
      { RequestParameterName := casedName "request" "request" "Request",
        Shape := .justRequestBody .bytes } }

/-- An endpoint whose request body is the bytes variant and whose SDK request is a
wrapper. -/
def bytesWrapperEndpoint : HttpEndpoint :=
  { bareEndpoint with
    Name := plainName "Upload"
    Method := .HttpMethodPost
    RequestBody := some .bytes
    SdkRequest := some (wrapperRequest "UploadRequest") }

/-- The header `X-API-Version` whose value is the literal `"v1"`. -/
def versionHeader : HttpHeader :=
  { Docs := none,
    Name := { WireValue := "X-API-Version",
              Name := casedName "X-API-Version" "apiVersion" "APIVersion" },
    ValueType := .container (.literal (.string "v1")) }

/-- An endpoint `CreateUser` with the literal header `X-API-Version` and an inlined body
with the string property `name`. -/
def createUserEndpoint : HttpEndpoint :=
  { bareEndpoint with
    Name := plainName "CreateUser"
    Method := .HttpMethodPost
    Headers := [versionHeader]
    RequestBody := some (.inlinedRequestBody
      { Name := plainName "CreateUserRequest", Extends := [],
        Properties :=
          [{ Docs := none,
             Name := { WireValue := "name", Name := casedName "name" "name" "Name" },
             ValueType := .primitive .PrimitiveTypeString }] })
    SdkRequest := some (wrapperRequest "CreateUserRequest") }

/-- An endpoint with a response of the unsupported type `bytes`. -/
def unsupportedEndpoint : HttpEndpoint :=
  { bareEndpoint with
    Name := plainName "Download"
    Response := some { Type_ := "bytes", Json := none, Streaming := none } }

/-- An error declaration `NotFoundError` without body, with status code 404. -/
def notFoundError : ErrorDeclaration :=
  { Docs := none,
    Name := { ErrorId := "error_NotFoundError", FernFilepath := rootFilepath,
              Name := plainName "NotFoundError" },
    DiscriminantValue :=
      { WireValue := "notFound", Name := casedName "notFound" "notFound" "NotFound" },
    Type_ := none, StatusCode := 404 }

/-- An error declaration `ConflictError` with a string body, with status code 409. -/
def conflictError : ErrorDeclaration :=
  { Docs := none,
    Name := { ErrorId := "error_ConflictError", FernFilepath := rootFilepath,
              Name := plainName "ConflictError" },
    DiscriminantValue :=
      { WireValue := "conflict", Name := casedName "conflict" "conflict" "Conflict" },
    Type_ := some (.primitive .PrimitiveTypeString), StatusCode := 409 }

/-- A file writer whose error index holds `ConflictError` and `NotFoundError`. -/
def errorsWriter : fileWriter Unit :=
  { emptyWriter with
    errors := [("error_ConflictError", conflictError), ("error_NotFoundError", notFoundError)] }

/-- The discrimination-by-property strategy of section 8: discriminant `errorType`, content
property `content`. -/
def errorTypeStrategy : ErrorDiscriminationByPropertyStrategy :=
  { Discriminant :=
      { WireValue := "errorType", Name := casedName "errorType" "errorType" "ErrorType" },
    ContentProperty :=
      { WireValue := "content", Name := casedName "content" "content" "Content" } }

/-- An endpoint that declares the errors `ConflictError` and `NotFoundError`, in that
order. -/
def failingEndpoint : HttpEndpoint :=
  { bareEndpoint with
    Errors :=
      [{ Docs := none, Error := conflictError.Name },
       { Docs := none, Error := notFoundError.Name }] }

/-- Whether the characters of `part` occur consecutively in `line`. -/
def containsText (part line : String) : Bool :=
  line.toList.tails.any fun rest => part.toList.isPrefixOf rest

/-- The lines that open an error decoder, up to the `switch`: on the status code without
strategy, on the discriminant field decoded from the body with a discrimination-by-property
strategy. -/
def decoderOpening (strategy : Option ErrorDiscriminationByPropertyStrategy) : List String :=
  [ "errorDecoder := func(statusCode int, body io.Reader) error \x7b",
    "raw, err := io.ReadAll(body)",
    "if err != nil \x7b",
    "return err",
    "\x7d",
    "apiError := core.NewAPIError(statusCode, errors.New(string(raw)))",
    "decoder := json.NewDecoder(bytes.NewReader(raw))" ] ++
  match strategy with
  | none => ["switch statusCode \x7b"]
  | some strategy =>
    [ "var discriminant struct \x7b",
      strategy.Discriminant.Name.PascalCase.UnsafeName ++ " string `json:\"" ++
        strategy.Discriminant.WireValue ++ "\"`",
      strategy.ContentProperty.Name.PascalCase.UnsafeName ++ " json.RawMessage `json:\"" ++
        strategy.ContentProperty.WireValue ++ "\"`",
      "\x7d",
      "if err := decoder.Decode(&discriminant); err != nil \x7b",
      "return err",
      "\x7d",
      "switch discriminant." ++ strategy.Discriminant.Name.PascalCase.UnsafeName ++ " \x7b" ]

/-- The case of an error decoder for one declared error, decoded into the Go type
`errorType`: labelled with the status code and decoding the whole body without strategy,
labelled with the quoted discriminant value and decoding the content field with a
discrimination-by-property strategy. -/
def decoderCase (strategy : Option ErrorDiscriminationByPropertyStrategy)
    (errorDeclaration : ErrorDeclaration) (errorType : String) : List String :=
  [ (match strategy with
     | none => "case " ++ toString errorDeclaration.StatusCode ++ ":"
     | some _ => "case \"" ++ errorDeclaration.DiscriminantValue.WireValue ++ "\":"),
    "value := new(" ++ errorType ++ ")",
    "value.APIError = apiError",
    (match strategy with
     | none => "if err := decoder.Decode(value); err != nil \x7b"
     | some strategy =>
       "if err := json.Unmarshal(discriminant." ++
         strategy.ContentProperty.Name.PascalCase.UnsafeName ++ ", value); err != nil \x7b"),
    "return apiError",
    "\x7d",
    "return value" ]

/-- The field that holds the content of a discriminated error, empty without strategy. -/
def contentField (strategy : Option ErrorDiscriminationByPropertyStrategy) : String :=
  match strategy with
  | some strategy => "discriminant." ++ strategy.ContentProperty.Name.PascalCase.UnsafeName
  | none => ""

/-- The declarations of the given errors in the error index, in order. -/
def declarationsOf {Scope : Type} (f : fileWriter Scope) (errors : List ResponseError) :
    List ErrorDeclaration :=
  errors.filterMap fun responseError => f.errors.lookup responseError.Error.ErrorId

/-- The endpoint `GetUser` without query parameter and with the errors `ConflictError` and
`NotFoundError`. -/
def failingClientEndpoint : endpoint :=
  { getUserEndpoint with
    QueryParameters := []
    ErrorDecoderParameterName := "errorDecoder"
    Errors := failingEndpoint.Errors }

/-- The responses for which the generator has no strategy, in the words of the claim: a
response whose type is not one of json, fileDownload, text and streaming, a json response
whose body kind is neither response nor nestedPropertyAsResponse, or a streaming response
whose chunk kind is neither json nor text. -/
def unsupportedResponse (endpoint : HttpEndpoint) : Bool :=
  match endpoint.Response with
  | none => false
  | some response =>
    (response.Type_ ≠ "json" && response.Type_ ≠ "fileDownload" && response.Type_ ≠ "text" &&
        response.Type_ ≠ "streaming") ||
      (response.Type_ = "json" &&
        match response.Json with
        | some json => json.Type_ ≠ "response" && json.Type_ ≠ "nestedPropertyAsResponse"
        | none => false) ||
      (response.Type_ = "streaming" &&
        match response.Streaming.bind StreamingResponse.DataEventType with
        | some chunkType => chunkType.Type_ ≠ "json" && chunkType.Type_ ≠ "text"
        | none => false)

/-- Whether the SDK request of the endpoint, when it is just a request body, is a type
reference (not bytes). -/
def requestPayloadPresent (endpoint : HttpEndpoint) : Bool :=
  match endpoint.SdkRequest with
  | none => true
  | some sdkRequest =>
    match sdkRequest.Shape.JustRequestBody with
    | none => true
    | some requestBody => requestBody.TypeReference.isSome

/-- Whether a json response has the payload that its kind names, with its body type. -/
def jsonPayloadPresent (json : JsonResponse) : Bool :=
  (json.Type_ ≠ "response" ||
      match json.Response with
      | some body => body.ResponseBodyType.isSome
      | none => false) &&
    (json.Type_ ≠ "nestedPropertyAsResponse" ||
      match json.NestedPropertyAsResponse with
      | some body => body.ResponseBodyType.isSome
      | none => false)

/-- Whether a streaming response has its chunk type and, for a json chunk, its type. -/
def streamingPayloadPresent (streaming : StreamingResponse) : Bool :=
  match streaming.DataEventType with
  | none => false
  | some chunkType => chunkType.Type_ ≠ "json" || chunkType.Json.isSome

/-- Whether every payload that `endpointFromIR` reads is present: the type reference of a
just-request-body SDK request, the payload of a json response with the body of its kind and
that body's type, the payload of a streaming response with its chunk type and, for a json
chunk, its type. -/
def payloadsPresent (endpoint : HttpEndpoint) : Bool :=
  requestPayloadPresent endpoint &&
    match endpoint.Response with
    | none => true
    | some response =>
      (response.Type_ ≠ "json" ||
          match response.Json with
          | some json => jsonPayloadPresent json
          | none => false) &&
        (response.Type_ ≠ "streaming" ||
          match response.Streaming with
          | some streaming => streamingPayloadPresent streaming
          | none => false)

/-- The literals of the literal-valued headers, in order. -/
def headerLiterals (headers : List HttpHeader) : List literal :=
  headers.filterMap fun header =>
    (header.ValueType.Container.bind ContainerType.Literal).map fun l =>
      { Name := header.Name.Name, Value := l }

/-- The literals of the literal-valued query parameters, in order. -/
def queryLiterals (queryParameters : List QueryParameter) : List literal :=
  queryParameters.filterMap fun queryParam =>
    (queryParam.ValueType.Container.bind ContainerType.Literal).map fun l =>
      { Name := queryParam.Name.Name, Value := l }

/-- The first line of the `UnmarshalJSON` method of a request type. -/
def unmarshalHeader (receiver typeName : String) : String :=
  "func (" ++ receiver ++ " *" ++ typeName ++ ") UnmarshalJSON(data []byte) error \x7b"

/-- The first line of the `MarshalJSON` method of a request type. -/
def marshalHeader (receiver typeName : String) : String :=
  "func (" ++ receiver ++ " *" ++ typeName ++ ") MarshalJSON() ([]byte, error) \x7b"

/-- The statement of `UnmarshalJSON` that assigns its fixed value to the field of a
literal. -/
def literalAssignment {σ Scope : Type} (x : Externals σ Scope) (receiver : String)
    (l : literal) : String :=
  receiver ++ "." ++ l.Name.CamelCase.SafeName ++ " = " ++ x.literalToValue l.Value

/-- An endpoint `GetVersion` with the literal header `X-API-Version` and no request body. -/
def getVersionEndpoint : HttpEndpoint :=
  { bareEndpoint with
    Name := plainName "GetVersion"
    Headers := [versionHeader]
    SdkRequest := some (wrapperRequest "GetVersionRequest") }

/-- An endpoint with a json response of kind `response` whose body has no type. -/
def untypedJsonEndpoint : HttpEndpoint :=
  { bareEndpoint with
    Name := plainName "GetUser"
    Response := some
      { Type_ := "json",
        Json := some
          { Type_ := "response",
            Response := some { Docs := none, ResponseBodyType := none },
            NestedPropertyAsResponse := none },
        Streaming := none } }

/-- An optional list of strings, the body property `optionalListOfStrings`. -/
def optionalListProperty : InlinedRequestBodyProperty :=
  { Docs := none,
    Name := { WireValue := "optionalListOfStrings",
              Name := casedName "optionalListOfStrings" "optionalListOfStrings"
                "OptionalListOfStrings" },
    ValueType := .container (.optional (.container (.list (.primitive .PrimitiveTypeString)))) }

/-- An optional string, the body property `maybeString`. -/
def maybeStringProperty : InlinedRequestBodyProperty :=
  { Docs := none,
    Name := { WireValue := "maybeString",
              Name := casedName "maybeString" "maybeString" "MaybeString" },
    ValueType := .container (.optional (.primitive .PrimitiveTypeString)) }

/-- The optional file property `maybeFile`. -/
def maybeFileProperty : FileProperty :=
  { Key := { WireValue := "maybeFile", Name := plainName "maybeFile" }, IsOptional := true }

/-- The file-upload endpoint `Post`: the files `file` and `maybeFile` and the body
properties `maybeString` and `optionalListOfStrings`, sent through the wrapper request
`MyRequest`. -/
def postEndpoint : HttpEndpoint :=
  { bareEndpoint with
    Name := plainName "Post"
    Method := .HttpMethodPost
    RequestBody := some (.fileUpload
      { Name := plainName "MyRequest",
        Properties :=
          [ { File := some fileProperty, BodyProperty := none },
            { File := some maybeFileProperty, BodyProperty := none },
            { File := none, BodyProperty := some maybeStringProperty },
            { File := none, BodyProperty := some optionalListProperty } ] })
    SdkRequest := some (wrapperRequest "MyRequest") }

/-- The optional string query parameter `maybeString`. -/
def maybeStringParameter : QueryParameter :=
  { Docs := none,
    Name := { WireValue := "maybeString",
              Name := casedName "maybeString" "maybeString" "MaybeString" },
    ValueType := .container (.optional (.primitive .PrimitiveTypeString)),
    AllowMultiple := false }

/-- The file-upload endpoint `JustFileWithQueryParams`: one required file, no body property,
and the query parameter `maybeString`. -/
def justFileWithQueryParamsEndpoint : HttpEndpoint :=
  { justFileEndpoint with
    Name := plainName "JustFileWithQueryParams"
    QueryParameters := [maybeStringParameter]
    SdkRequest := some (wrapperRequest "JustFileWithQueryParamsRequet") }

/-- The file-upload endpoint `JustFile` without an SDK request. -/
def justFileWithoutSdkRequest : HttpEndpoint :=
  { justFileEndpoint with SdkRequest := none }

/-- The endpoint that `endpointFromIR` returns for `justFileEndpoint`. -/
def justFileClientEndpoint : endpoint :=
  { Name := plainName "JustFile", Docs := none, PathParameterDocs := [], ImportPath := "sdk",
    RequestParameterName := "", RequestValueName := "requestBuffer", ResponseType := "",
    ResponseParameterName := "", ResponseInitializerFormat := "",
    ResponseIsOptionalParameter := false, PathParameterNames := "",
    SignatureParameters := "ctx context.Context, file io.Reader",
    ReturnValues := "error", SuccessfulReturnValues := "nil", ErrorReturnValues := "err",
    BaseURL := "", PathSuffix := "", Method := "http.MethodPost", IsStreaming := false,
    StreamDelimiter := "", ErrorDecoderParameterName := "", Errors := [],
    QueryParameters := [], Headers := [], FileProperties := [fileProperty],
    FileBodyProperties := [] }

/-- The parameters that the signature has for the files of a file-upload body, in order:
one `io.Reader` per file property. -/
def fileParameters (endpoint : HttpEndpoint) : List String :=
  match endpoint.RequestBody.bind HttpRequestBody.FileUpload with
  | some fileUpload =>
    (fileUpload.Properties.filterMap FileUploadRequestProperty.File).map fun file =>
      ", " ++ file.Key.Name.CamelCase.SafeName ++ " io.Reader"
  | none => []

/-- The path parameter of the given name, of type string. -/
def stringPathParameter (name : String) : PathParameter :=
  { Docs := none, Name := plainName name, ValueType := .primitive .PrimitiveTypeString }

/-- The endpoint `Post` with the path parameter `userId`. -/
def uploadEndpoint : HttpEndpoint :=
  { postEndpoint with
    Name := plainName "Upload"
    AllPathParameters := [stringPathParameter "userId"] }

/-- The endpoint that `endpointFromIR` returns for `uploadEndpoint`. -/
def uploadClientEndpoint : endpoint :=
  { justFileClientEndpoint with
    Name := plainName "Upload"
    RequestParameterName := "request"
    PathParameterNames := "userId"
    SignatureParameters :=
      "ctx context.Context, userId any, file io.Reader, maybeFile io.Reader, request *sdk.MyRequest"
    FileProperties := [fileProperty, maybeFileProperty]
    FileBodyProperties := [maybeStringProperty, optionalListProperty] }

/-- The value that the multipart block writes for a body property: the field of the request
parameter, between the prefix and the suffix of its format. -/
def multipartField (endpoint : endpoint) (property : InlinedRequestBodyProperty) : String :=
  (formatForValueType property.ValueType).Prefix ++ endpoint.RequestParameterName ++ "." ++
    property.Name.Name.PascalCase.UnsafeName ++ (formatForValueType property.ValueType).Suffix

/-- The write of a body property into the multipart stream, in the words of the claim:
through `core.WriteMultipartJSON` when the type is not ultimately a primitive, through
`writer.WriteField` otherwise, followed by the return of the error. -/
def multipartWrite (endpoint : endpoint) (property : InlinedRequestBodyProperty) : List String :=
  [ (if maybePrimitive property.ValueType = none then
      "if err := core.WriteMultipartJSON(writer, \"" ++ property.Name.WireValue ++ "\", " ++
        multipartField endpoint property ++ "); err != nil \x7b"
    else
      "if err := writer.WriteField(\"" ++ property.Name.WireValue ++
        "\", fmt.Sprintf(\"%v\", " ++ multipartField endpoint property ++ ")); err != nil \x7b"),
    "return " ++ endpoint.ErrorReturnValues,
    "\x7d" ]

/-- The first name not in `taken` among the candidate followed by zero, one, ... underscores,
trying at most `fuel` of them. -/
def freshName (taken : List String) (candidate : String) : Nat → String
  | 0 => candidate
  | fuel + 1 =>
    if candidate ∈ taken then freshName taken (candidate ++ "_") fuel else candidate

/-- External functions with a scope that allocates local names: the state is the list of
the names taken in the child scope, `Child` opens a child scope without local names, and
`Add` returns the candidate unchanged when it is free in the child scope and a fresh name
(the candidate followed by underscores) otherwise, and takes the returned name.  The other
functions are those of `plainExternals`. -/
def scopedExternals : Externals (List String) Unit where
  Child := fun scope _ => (scope, [])
  Add := fun _ name taken =>
    (freshName taken name (taken.length + 1), freshName taken name (taken.length + 1) :: taken)
  AddImport := fun _ path s => (path, s)
  typeReferenceToGoType := fun _ _ _ _ _ s => ("any", s)
  defaultValueForTypeReference := plainExternals.defaultValueForTypeReference
  fernFilepathToImportPath := plainExternals.fernFilepathToImportPath
  literalToValue := plainExternals.literalToValue
  literalToGoType := plainExternals.literalToGoType
  typeNameToReceiver := plainExternals.typeNameToReceiver
  isPointer := plainExternals.isPointer
  packagePathForClient := plainExternals.packagePathForClient
  packagePathToImportPath := plainExternals.packagePathToImportPath
  WriteDocs := plainExternals.WriteDocs
  quote := plainExternals.quote
  pathJoin := plainExternals.pathJoin
  visitObjectProperties := fun a b c object d e s =>
    ((plainExternals.visitObjectProperties a b c object d e ()).1, s)

/-- An endpoint `UpdateUser` with the path parameter `request` and an inlined body sent
through the request parameter `request`. -/
def updateUserEndpoint : HttpEndpoint :=
  { bareEndpoint with
    Name := plainName "UpdateUser"
    Method := .HttpMethodPost
    AllPathParameters := [stringPathParameter "request"]
    RequestBody := some (.inlinedRequestBody
      { Name := plainName "UpdateUserRequest", Extends := [], Properties := [] })
    SdkRequest := some (wrapperRequest "UpdateUserRequest") }

/-- An endpoint with two path parameters of the same name `request` and no request. -/
def repeatedPathEndpoint : HttpEndpoint :=
  { bareEndpoint with
    AllPathParameters := [stringPathParameter "request", stringPathParameter "request"] }

/-- The parameters of a signature, split at every `", "`; `current` holds the characters of
the parameter being read, last first. -/
def splitParameters : List Char → List Char → List (List Char)
  | [], current => [current.reverse]
  | ',' :: ' ' :: rest, current => current.reverse :: splitParameters rest []
  | c :: rest, current => splitParameters rest (c :: current)

/-- The names of the parameters of a signature: the first word of every parameter. -/
def parameterNames (signature : String) : List String :=
  (splitParameters signature.toList []).map fun parameter =>
    String.mk (parameter.takeWhile fun c => c ≠ ' ')

/-- Whether the value of a custom header is a literal. -/
def isLiteralHeader (header : HttpHeader) : Bool :=
  (header.ValueType.Container.bind ContainerType.Literal).isSome

/-- Whether an auth scheme is a header scheme whose value is a literal. -/
def isLiteralScheme (authScheme : AuthScheme) : Bool :=
  match authScheme with
  | .header header => (header.ValueType.Container.bind ContainerType.Literal).isSome
  | _ => false

/-- The auth configuration without its literal-valued header schemes. -/
def withoutLiteralSchemes (auth : ApiAuth) : ApiAuth :=
  { auth with Schemes := auth.Schemes.filter fun authScheme => !isLiteralScheme authScheme }

/-- The custom headers that are not literal-valued. -/
def withoutLiteralHeaders (headers : List HttpHeader) : List HttpHeader :=
  headers.filter fun header => !isLiteralHeader header

/-- The bearer scheme with the token `token`. -/
def tokenScheme : AuthScheme :=
  .bearer { Token := casedName "token" "token" "Token" }

/-- The header scheme `X-API-Version` whose value is the literal `"v1"`. -/
def literalHeaderScheme : AuthScheme :=
  .header { Name := versionHeader.Name, ValueType := versionHeader.ValueType, Prefix := none }

/-- The header scheme `X-API-Key` with a string value and the static prefix `Key`. -/
def apiKeyScheme : AuthScheme :=
  .header
    { Name := { WireValue := "X-API-Key", Name := casedName "X-API-Key" "apiKey" "APIKey" },
      ValueType := .primitive .PrimitiveTypeString, Prefix := some "Key" }

/-- The custom header `X-Tenant` with an optional string value. -/
def tenantHeader : HttpHeader :=
  { Docs := some "The tenant.",
    Name := { WireValue := "X-Tenant", Name := casedName "X-Tenant" "tenant" "Tenant" },
    ValueType := .container (.optional (.primitive .PrimitiveTypeString)) }

/-- An auth configuration whose first scheme is a literal-valued header scheme, followed by
a bearer scheme. -/
def literalFirstAuth : ApiAuth :=
  { Docs := none, Schemes := [literalHeaderScheme, tokenScheme] }

/-- The statement of `ToHeader` that sets the header of the given wire name to a fixed value,
formatted after the static prefix `pre`. -/
def literalHeaderStatement (wireValue pre value : String) : String :=
  "header.Set(\"" ++ wireValue ++ "\", fmt.Sprintf(\"" ++ pre ++ "%v\"," ++ value ++ "))"

/-- The static prefix of a header scheme as `ToHeader` formats it: the prefix followed by a
blank, or nothing. -/
def schemePrefix (header : HeaderAuthScheme) : String :=
  match header.Prefix with
  | some p => p ++ " "
  | none => ""

/-- An auth configuration with a literal-valued header scheme, a bearer scheme, the basic
scheme and a header scheme with a string value. -/
def exampleAuth : ApiAuth :=
  { Docs := none, Schemes := [literalHeaderScheme, tokenScheme, .basic, apiKeyScheme] }

/-- The number of placeholders `%v` in a list of characters. -/
def countPlaceholders : List Char → Nat
  | [] => 0
  | c :: rest =>
    (if c = '%' ∧ rest.head? = some 'v' then 1 else 0) + countPlaceholders rest

/-- The path template of a full path, in the words of the claim: the head, dropped when it
is exactly `/`, followed for each part in order by the placeholder `%v` if the part has a
path parameter and then by the part's tail. -/
def pathTemplate (fullPath : HttpPath) : List Char :=
  (if fullPath.Head = "/" then [] else fullPath.Head.toList) ++
    fullPath.Parts.flatMap fun part =>
      (if part.PathParameter ≠ "" then ['%', 'v'] else []) ++ part.Tail.toList

/-- The full path `/users/{userId}` of section 8. -/
def usersPath : HttpPath :=
  { Head := "/users/", Parts := [{ PathParameter := "userId", Tail := "" }] }

/-- The endpoint `getUser` with the full path `/users/{userId}` and the path parameter
`userId`. -/
def usersEndpoint : HttpEndpoint :=
  { bareEndpoint with
    FullPath := some usersPath
    AllPathParameters := [stringPathParameter "userId"] }

/-- The endpoint that `endpointFromIR` returns for `usersEndpoint`. -/
def usersClientEndpoint : endpoint :=
  { justFileClientEndpoint with
    Name := plainName "getUser"
    RequestValueName := ""
    PathParameterNames := "userId"
    SignatureParameters := "ctx context.Context, userId any"
    PathSuffix := "users/%v"
    Method := "http.MethodGet"
    FileProperties := [] }

/-- The body properties of a file upload, in order. -/
def bodyPropertiesOf (fileUpload : FileUploadRequest) : List InlinedRequestBodyProperty :=
  fileUpload.Properties.filterMap FileUploadRequestProperty.BodyProperty

/-- The file upload of the endpoint `Post`. -/
def postUpload : FileUploadRequest :=
  { Name := plainName "MyRequest",
    Properties :=
      [ { File := some fileProperty, BodyProperty := none },
        { File := some maybeFileProperty, BodyProperty := none },
        { File := none, BodyProperty := some maybeStringProperty },
        { File := none, BodyProperty := some optionalListProperty } ] }

/-- A request-body visitor without literals. -/
def plainVisitor : requestBodyVisitor Unit :=
  { literals := [], bodyField := "Body", baseImportPath := "sdk", importPath := "sdk",
    scope := (), includeGenericOptionals := false }

/-- The subpackage of the given name at the root. -/
def subpackageNamed (name : String) : Subpackage :=
  { FernFilepath := rootFilepath, Name := plainName name }

/-- The five HTTP methods that the generator names. -/
def namedMethods : List HttpMethod :=
  [.HttpMethodGet, .HttpMethodPost, .HttpMethodPut, .HttpMethodPatch, .HttpMethodDelete]

/-- An endpoint with a response of type `json` whose `Json` payload is absent. -/
def missingJsonEndpoint : HttpEndpoint :=
  { bareEndpoint with
    Name := plainName "GetUser"
    Response := some { Type_ := "json", Json := none, Streaming := none } }

/-- An auth configuration with the basic scheme only. -/
def basicAuth : ApiAuth := { Docs := none, Schemes := [.basic] }

/-- An auth configuration without schemes. -/
def noSchemes : ApiAuth := { Docs := none, Schemes := [] }

/-- The names of the fields of an environment with several base URLs: the name of the base
URL of every entry of the sorted slice of its URLs, in order. -/
def environmentFieldNames (baseUrls : List EnvironmentBaseUrlWithId)
    (urls : List (EnvironmentBaseUrlId × EnvironmentUrl)) : List String :=
  (environmentURLMapToSortedSlice urls).map fun environmentURL =>
    baseURLNames baseUrls (fun _ => "") environmentURL.ID

/-- The base URLs `web` and `api`, and the environment `Production` with the URL map
`exampleUrls`. -/
def twoUrlsEnvironments : MultipleBaseUrlsEnvironments :=
  { BaseUrls := [{ Id := "web", Name := plainName "Web" }, { Id := "api", Name := plainName "Api" }]
    Environments :=
      [{ Docs := none, Id := "Production", Name := plainName "Production",
         Urls := exampleUrls }] }

/-- The environment `Production` of `twoUrlsEnvironments`. -/
def productionEnvironment : MultipleBaseUrlsEnvironment :=
  { Docs := none, Id := "Production", Name := plainName "Production", Urls := exampleUrls }

/-- The IR endpoint `GetUser` whose only input is the optional query parameter `shallow`. -/
def getUserQueryEndpoint : HttpEndpoint :=
  { bareEndpoint with
    Name := plainName "GetUser"
    QueryParameters := [shallowParameter]
    SdkRequest := some (wrapperRequest "GetUserRequest") }

/-- The lines that open the definition of the client options, up to the three fixed fields
of the struct `ClientOptions`. -/
def clientOptionsOpening : List String :=
  [ "// ClientOption adapts the behavior of the generated client.",
    "type ClientOption func(*ClientOptions)",
    "",
    "// ClientOptions defines all of the possible client options.",
    "// This type is primarily used by the generated code and is",
    "// not meant to be used directly; use ClientOption instead.",
    "type ClientOptions struct \x7b",
    "BaseURL string",
    "HTTPClient HTTPClient",
    "HTTPHeader http.Header" ]

/-- The lines that close the struct `ClientOptions` and define `NewClientOptions`. -/
def newClientOptionsLines : List String :=
  [ "\x7d",
    "",
    "// NewClientOptions returns a new *ClientOptions value.",
    "// This function is primarily used by the generated code and is",
    "// not meant to be used directly; use ClientOption instead.",
    "func NewClientOptions() *ClientOptions \x7b",
    "return &ClientOptions\x7b",
    "HTTPClient: http.DefaultClient,",
    "HTTPHeader: make(http.Header),",
    "\x7d",
    "\x7d",
    "" ]

/-- The lines that open `ToHeader` when there is an auth scheme or a custom header, up to
the clone of the header set. -/
def toHeaderOpening : List String :=
  [ "// ToHeader maps the configured client options into a http.Header issued",
    "// on every request.",
    "func (c *ClientOptions) ToHeader() http.Header \x7b",
    "header := c.cloneHeader()" ]

/-- The three option functions that `WriteClientOptions` always writes: `WithBaseURL`,
`WithHTTPClient` and `WithHTTPHeader`. -/
def fixedOptions : List String :=
  [ "// WithBaseURL sets the client's base URL, overriding the",
    "// default environment, if any.",
    "func WithBaseURL(baseURL string) core.ClientOption \x7b",
    "return func(opts *core.ClientOptions) \x7b",
    "opts.BaseURL = baseURL",
    "\x7d",
    "\x7d",
    "",
    "// WithHTTPClient uses the given HTTPClient to issue all HTTP requests.",
    "func WithHTTPClient(httpClient core.HTTPClient) core.ClientOption \x7b",
    "return func(opts *core.ClientOptions) \x7b",
    "opts.HTTPClient = httpClient",
    "\x7d",
    "\x7d",
    "",
    "// WithHTTPHeader adds the given http.Header to all requests",
    "// issued by the client.",
    "func WithHTTPHeader(httpHeader http.Header) core.ClientOption \x7b",
    "return func(opts *core.ClientOptions) \x7b",
    "// Clone the headers so they can't be modified after the option call.",
    "opts.HTTPHeader = httpHeader.Clone()",
    "\x7d",
    "\x7d",
    "" ]

/-- The lines of an option function after its comment: the signature, the closure over the
options with its assignments, and the closing lines. -/
def optionBody (signature : String) (assignments : List String) : List String :=
  [signature, "return func(opts *core.ClientOptions) \x7b"] ++ assignments ++
    ["\x7d", "\x7d", ""]

/-! ## Value formatting: properties -/

/-- Looking through `k` optional layers gives the primitive under them. -/
theorem maybePrimitive_nestOptional (k : Nat) (t : TypeReference) :
    maybePrimitive (nestOptional k t) = maybePrimitive t := by
  induction k with
  | zero => rfl
  | succ k ih => simpa [nestOptional, maybePrimitive] using ih

/-- Claim C4: for a type reference that is directly a primitive, `formatForValueType` returns
`IsPrimitive = true` and `IsOptional = false`, with the RFC 3339 format suffix for a
date-time, the `2006-01-02` format suffix for a date, the base64 encoding call around the
value for base64, and an empty prefix and suffix for every other primitive. -/
theorem formatForValueType_primitive :
    formatForValueType (.primitive .PrimitiveTypeDateTime) =
        { Prefix := "", Suffix := ".Format(time.RFC3339)", IsOptional := false,
          IsPrimitive := true } ∧
      formatForValueType (.primitive .PrimitiveTypeDate) =
        { Prefix := "", Suffix := ".Format(\"2006-01-02\")", IsOptional := false,
          IsPrimitive := true } ∧
      formatForValueType (.primitive .PrimitiveTypeBase64) =
        { Prefix := "base64.StdEncoding.EncodeToString(", Suffix := ")", IsOptional := false,
          IsPrimitive := true } ∧
      (∀ p : PrimitiveType, p ≠ .PrimitiveTypeDateTime → p ≠ .PrimitiveTypeDate →
        p ≠ .PrimitiveTypeBase64 →
        formatForValueType (.primitive p) =
          { Prefix := "", Suffix := "", IsOptional := false, IsPrimitive := true }) ∧
      ∀ p : PrimitiveType,
        (formatForValueType (.primitive p)).IsPrimitive = true ∧
          (formatForValueType (.primitive p)).IsOptional = false := by
  refine ⟨by decide, by decide, by decide, ?_, ?_⟩
  · intro p h1 h2 h3
    cases p <;> first | exact absurd rfl h1 | exact absurd rfl h2 | exact absurd rfl h3 | decide
  · intro p
    cases p <;> decide

/-- Witness of C4 at the string primitive, which passes through unchanged. -/
theorem formatForValueType_primitive_witness :
    formatForValueType (.primitive .PrimitiveTypeString) =
      { Prefix := "", Suffix := "", IsOptional := false, IsPrimitive := true } :=
  formatForValueType_primitive.2.2.2.1 .PrimitiveTypeString (by decide) (by decide) (by decide)

/-- Claim C5: an optional byte buffer is dereferenced and encoded; for `Optional(base64)`
the prefix is the base64 encoding call followed by `*`, the suffix closes the call, and the
value is optional and primitive. -/
theorem formatForValueType_optional_base64 :
    formatForValueType (.container (.optional (.primitive .PrimitiveTypeBase64))) =
      { Prefix := "base64.StdEncoding.EncodeToString(*", Suffix := ")", IsOptional := true,
        IsPrimitive := true } := by
  decide

/-- The optional flag of `formatForValueType` is set for at least one optional layer. -/
theorem isOptional_nestOptional_succ (k : Nat) (t : TypeReference) :
    ((nestOptional (k + 1) t).Container.bind ContainerType.Optional).isSome = true := by
  simp [nestOptional, TypeReference.Container, ContainerType.Optional]

/-- Counterexample to C6 as stated: for two nested optional containers around a string the
prefix is a single `*`, not the two dereference operators `**`. -/
theorem formatForValueType_nested_optional_counterexample :
    (formatForValueType (nestOptional 2 (.primitive .PrimitiveTypeString))).Prefix = "*" ∧
      (formatForValueType (nestOptional 2 (.primitive .PrimitiveTypeString))).Prefix ≠ "**" := by
  decide

/-- Claim C6, amended: for every `k ≥ 1` and every primitive other than date, date-time and
base64, the prefix computed for `k` nested optional containers around it is exactly one
dereference operator `*` (so it has `k` operators only for `k = 1`), and the value is
optional and primitive. -/
theorem formatForValueType_nested_optional (k : Nat) (p : PrimitiveType) (hk : 1 ≤ k)
    (h1 : p ≠ .PrimitiveTypeDateTime) (h2 : p ≠ .PrimitiveTypeDate)
    (h3 : p ≠ .PrimitiveTypeBase64) :
    formatForValueType (nestOptional k (.primitive p)) =
      { Prefix := "*", Suffix := "", IsOptional := true, IsPrimitive := true } := by
  obtain ⟨n, rfl⟩ : ∃ n, k = n + 1 := ⟨k - 1, by omega⟩
  have hopt := isOptional_nestOptional_succ n (.primitive p)
  have hprim : maybePrimitive (nestOptional (n + 1) (.primitive p)) = some p := by
    rw [maybePrimitive_nestOptional]; rfl
  unfold formatForValueType
  simp only [hopt, hprim]
  cases p <;> first | exact absurd rfl h1 | exact absurd rfl h2 | exact absurd rfl h3 | rfl

/-- Witness of the amended C6 at three optional layers around an integer. -/
theorem formatForValueType_nested_optional_witness :
    formatForValueType (nestOptional 3 (.primitive .PrimitiveTypeInteger)) =
      { Prefix := "*", Suffix := "", IsOptional := true, IsPrimitive := true } :=
  formatForValueType_nested_optional 3 .PrimitiveTypeInteger (by decide) (by decide)
    (by decide) (by decide)

/-- Claim C7: `maybePrimitive` is total, returns `p` for every primitive `p` under any number
`k ≥ 0` of nested optional containers, and returns the empty primitive when the innermost
layer that is not an optional is a named type or a list, set, map or literal container. -/
theorem maybePrimitive_total :
    (∀ t : TypeReference, ∃ r : Option PrimitiveType, maybePrimitive t = r) ∧
      (∀ (p : PrimitiveType) (k : Nat),
        maybePrimitive (nestOptional k (.primitive p)) = some p) ∧
      (∀ (k : Nat) (id : TypeId), maybePrimitive (nestOptional k (.named id)) = none) ∧
      (∀ (k : Nat) (t : TypeReference),
        maybePrimitive (nestOptional k (.container (.list t))) = none) ∧
      (∀ (k : Nat) (t : TypeReference),
        maybePrimitive (nestOptional k (.container (.set t))) = none) ∧
      (∀ (k : Nat) (key value : TypeReference),
        maybePrimitive (nestOptional k (.container (.map key value))) = none) ∧
      ∀ (k : Nat) (l : Literal),
        maybePrimitive (nestOptional k (.container (.literal l))) = none := by
  refine ⟨fun t => ⟨_, rfl⟩, ?_, ?_, ?_, ?_, ?_, ?_⟩ <;> intros <;>
    rw [maybePrimitive_nestOptional] <;> rfl

/-! ## Request parameter: properties -/

/-- Counterexample to C8 as stated: an endpoint with an inlined request body but no SDK
request needs a request parameter by the spec's condition, and `needsRequestParameter`
returns false for it. -/
theorem needsRequestParameter_counterexample :
    specNeedsRequestParameter bodyWithoutSdkRequest = true ∧
      needsRequestParameter bodyWithoutSdkRequest = false := by
  decide

/-- Claim C8, amended: `needsRequestParameter` is true if and only if the endpoint has an SDK
request and either its request body is present and is not a file upload without body
properties, or its request body is absent; the query parameters and headers are not read. -/
theorem needsRequestParameter_iff (endpoint : HttpEndpoint) :
    needsRequestParameter endpoint = true ↔
      endpoint.SdkRequest.isSome = true ∧
        ((∃ requestBody, endpoint.RequestBody = some requestBody ∧
            ¬ ∃ fileUpload, requestBody.FileUpload = some fileUpload ∧
              fileUploadHasBodyProperties fileUpload = false) ∨
          endpoint.RequestBody = none) := by
  unfold needsRequestParameter
  cases hs : endpoint.SdkRequest with
  | none => simp
  | some sdkRequest =>
    cases hb : endpoint.RequestBody with
    | none => simp
    | some requestBody =>
      cases hf : requestBody.FileUpload with
      | none => simp [hf]
      | some fileUpload => simp [hf]

/-! ## Sorted environment URLs: properties -/

/-- The comparison of the model is the order of strings. -/
theorem stringLess_iff (a b : String) : stringLess a b = true ↔ a < b := by
  simp [stringLess, String.lt_iff_toList_lt]

/-- The comparison fails exactly when the second string is at most the first. -/
theorem stringLess_eq_false_iff (a b : String) : stringLess a b = false ↔ b ≤ a := by
  rw [← Bool.not_eq_true, stringLess_iff, not_lt]

/-- An entry of a map given by its entries is found by looking its key up. -/
theorem lookup_of_mem_of_nodup (urls : List (String × String)) (hnodup : (urls.map Prod.fst).Nodup)
    (entry : String × String) (hmem : entry ∈ urls) : urls.lookup entry.1 = some entry.2 := by
  induction urls with
  | nil => cases hmem
  | cons head rest ih =>
    simp only [List.map_cons, List.nodup_cons] at hnodup
    rcases List.mem_cons.1 hmem with h | h
    · subst h
      simp [List.lookup]
    · have hne : entry.1 ≠ head.1 := by
        intro heq
        exact hnodup.1 (heq ▸ List.mem_map_of_mem Prod.fst h)
      have hbeq : (entry.1 == head.1) = false := by simpa using hne
      obtain ⟨k, v⟩ := head
      simp only [List.lookup, hbeq]
      exact ih hnodup.2 h

/-- The sorted slice is a reordering of the map's entries. -/
theorem environmentURLMapToSortedSlice_perm (urls : List (String × String)) :
    (environmentURLMapToSortedSlice urls).Perm
      (urls.map fun entry => ({ ID := entry.1, URL := entry.2 } : environmentURL)) :=
  List.perm_insertionSort _ _

/-- The sorted slice is ascending by id. -/
theorem environmentURLMapToSortedSlice_le (urls : List (String × String)) :
    (environmentURLMapToSortedSlice urls).Sorted (fun a b => a.ID ≤ b.ID) := by
  haveI : IsTotal environmentURL (fun a b => stringLess b.ID a.ID = false) :=
    ⟨fun a b => by
      simp only [stringLess_eq_false_iff]
      exact le_total a.ID b.ID⟩
  haveI : IsTrans environmentURL (fun a b => stringLess b.ID a.ID = false) :=
    ⟨fun a b c hab hbc => by
      simp only [stringLess_eq_false_iff] at *
      exact le_trans hab hbc⟩
  have h := List.sorted_insertionSort (fun a b : environmentURL => stringLess b.ID a.ID = false)
    (urls.map fun entry => ({ ID := entry.1, URL := entry.2 } : environmentURL))
  exact h.imp fun hab => (stringLess_eq_false_iff _ _).1 hab

/-- With pairwise distinct keys, the sorted slice is strictly ascending by id. -/
theorem environmentURLMapToSortedSlice_lt (urls : List (String × String))
    (hnodup : (urls.map Prod.fst).Nodup) :
    (environmentURLMapToSortedSlice urls).Sorted (fun a b => a.ID < b.ID) := by
  have hperm := environmentURLMapToSortedSlice_perm urls
  have hids : ((environmentURLMapToSortedSlice urls).map environmentURL.ID).Nodup := by
    have h := (hperm.map environmentURL.ID).nodup_iff.2
    apply h
    simpa [List.map_map, Function.comp_def] using hnodup
  have hne : (environmentURLMapToSortedSlice urls).Pairwise (fun a b => a.ID ≠ b.ID) :=
    List.pairwise_map.1 hids
  exact ((environmentURLMapToSortedSlice_le urls).and hne).imp
    fun hab => lt_of_le_of_ne hab.1 hab.2

/-- Claim C9: for a map given by its entries (pairwise distinct keys),
`environmentURLMapToSortedSlice` returns as many elements as the map has entries, strictly
ascending by id, each element `(id, url)` being an entry of the map; hence every order of
enumeration of the same entries gives the same slice. -/
theorem environmentURLMapToSortedSlice_sorted (urls : List (String × String))
    (hnodup : (urls.map Prod.fst).Nodup) :
    (environmentURLMapToSortedSlice urls).length = urls.length ∧
      (environmentURLMapToSortedSlice urls).Sorted (fun a b => a.ID < b.ID) ∧
      (∀ e ∈ environmentURLMapToSortedSlice urls, urls.lookup e.ID = some e.URL) ∧
      ∀ urls' : List (String × String), urls'.Perm urls →
        environmentURLMapToSortedSlice urls' = environmentURLMapToSortedSlice urls := by
  refine ⟨?_, environmentURLMapToSortedSlice_lt urls hnodup, ?_, ?_⟩
  · simpa using (environmentURLMapToSortedSlice_perm urls).length_eq
  · intro e he
    have hmem := (environmentURLMapToSortedSlice_perm urls).mem_iff.1 he
    obtain ⟨entry, hentry, rfl⟩ := List.mem_map.1 hmem
    exact lookup_of_mem_of_nodup urls hnodup entry hentry
  · intro urls' hperm
    have hnodup' : (urls'.map Prod.fst).Nodup := (hperm.map Prod.fst).nodup_iff.2 hnodup
    haveI : IsAntisymm environmentURL (fun a b => a.ID < b.ID) :=
      ⟨fun a b hab hba => absurd hba (lt_asymm hab)⟩
    refine List.eq_of_perm_of_sorted ?_ (environmentURLMapToSortedSlice_lt urls' hnodup')
      (environmentURLMapToSortedSlice_lt urls hnodup)
    exact ((environmentURLMapToSortedSlice_perm urls').trans (hperm.map _)).trans
      (environmentURLMapToSortedSlice_perm urls).symm

/-- Witness of C9 at a map with the ids `web` and `api`, enumerated in either order. -/
theorem environmentURLMapToSortedSlice_sorted_witness :
    (exampleUrls.map Prod.fst).Nodup ∧
      (environmentURLMapToSortedSlice exampleUrls).length = exampleUrls.length ∧
      (environmentURLMapToSortedSlice exampleUrls).Sorted (fun a b => a.ID < b.ID) ∧
      exampleUrls.lookup "api" = some "https://api.example.com" ∧
      environmentURLMapToSortedSlice exampleUrls.reverse =
        environmentURLMapToSortedSlice exampleUrls :=
  ⟨by decide,
    (environmentURLMapToSortedSlice_sorted exampleUrls (by decide)).1,
    (environmentURLMapToSortedSlice_sorted exampleUrls (by decide)).2.1,
    (environmentURLMapToSortedSlice_sorted exampleUrls (by decide)).2.2.1
      { ID := "api", URL := "https://api.example.com" } (by decide),
    (environmentURLMapToSortedSlice_sorted exampleUrls (by decide)).2.2.2 exampleUrls.reverse
      (List.reverse_perm exampleUrls)⟩

/-! ## Query parameters: properties -/

/-- The optional flag returned by `formatForValueType` is set exactly for an optional
container. -/
theorem formatForValueType_isOptional (t : TypeReference) :
    (formatForValueType t).IsOptional = (t.Container.bind ContainerType.Optional).isSome := by
  unfold formatForValueType
  cases maybePrimitive t with
  | none => rfl
  | some p => cases p <;> rfl

/-- The lines of a query parameter that is neither literal-valued nor `AllowMultiple`: the
`queryParams.Add` statement inside an `if <request>.<Field>!= nil` block exactly when the
value type is an optional container, and the statement alone otherwise. -/
theorem queryParameterLines_guard (literalToValue : Literal → String) (endpoint : endpoint)
    (queryParameter : QueryParameter) (hmultiple : queryParameter.AllowMultiple = false)
    (hliteral : ∀ l, queryParameter.ValueType ≠ .container (.literal l)) :
    ((∃ t, queryParameter.ValueType = .container (.optional t)) →
        queryParameterLines literalToValue endpoint queryParameter =
          [presenceGuard endpoint queryParameter, queryParamsAdd endpoint queryParameter,
            P ["\x7d"]]) ∧
      ((¬ ∃ t, queryParameter.ValueType = .container (.optional t)) →
        queryParameterLines literalToValue endpoint queryParameter =
          [queryParamsAdd endpoint queryParameter]) := by
  have hlit : queryParameter.ValueType.Container.bind ContainerType.Literal = none := by
    cases hv : queryParameter.ValueType with
    | container c =>
      cases c with
      | literal l => exact absurd hv (hliteral l)
      | _ => rfl
    | _ => rfl
  constructor
  · rintro ⟨t, ht⟩
    have hfmt : (formatForValueType queryParameter.ValueType).IsOptional = true := by
      rw [formatForValueType_isOptional, ht]; rfl
    simp only [queryParameterLines, hmultiple, hlit, hfmt, presenceGuard, queryParamsAdd]
    rfl
  · intro hnot
    have hfmt : (formatForValueType queryParameter.ValueType).IsOptional = false := by
      rw [formatForValueType_isOptional]
      cases hv : queryParameter.ValueType with
      | container c =>
        cases c with
        | optional t => exact absurd ⟨t, hv⟩ hnot
        | _ => rfl
      | _ => rfl
    simp only [queryParameterLines, hmultiple, hlit, hfmt, queryParamsAdd]
    rfl

/-! ## Base URL: properties -/

/-- Without a matching environment id the single-base-URL visit leaves the value unchanged. -/
theorem visitSingleBaseUrlLoop_absent (e : environmentsURLVisitor)
    (environments : List SingleBaseUrlEnvironment)
    (h : ∀ environment ∈ environments, environment.Id ≠ e.id) :
    visitSingleBaseUrlLoop e environments = e := by
  induction environments with
  | nil => rfl
  | cons environment rest ih =>
    have hne : environment.Id ≠ e.id := h environment (List.mem_cons_self _ _)
    simp only [visitSingleBaseUrlLoop, hne, if_false]
    exact ih fun env henv => h env (List.mem_cons_of_mem _ henv)

/-- Without an entry under the id the lookup in one URL map finds nothing. -/
theorem visitUrlsLoop_absent (id : EnvironmentBaseUrlId)
    (urls : List (EnvironmentBaseUrlId × EnvironmentUrl)) (h : ∀ entry ∈ urls, entry.1 ≠ id) :
    visitUrlsLoop id urls = none := by
  induction urls with
  | nil => rfl
  | cons entry rest ih =>
    have hne : entry.1 ≠ id := h entry (List.mem_cons_self _ _)
    simp only [visitUrlsLoop, hne, if_false]
    exact ih fun e he => h e (List.mem_cons_of_mem _ he)

/-- Without a base-URL id equal to the visitor's id the multiple-base-URL visit leaves the
value unchanged. -/
theorem visitMultipleBaseUrlsLoop_absent (e : environmentsURLVisitor)
    (environments : List MultipleBaseUrlsEnvironment)
    (h : ∀ environment ∈ environments, ∀ entry ∈ environment.Urls, entry.1 ≠ e.id) :
    visitMultipleBaseUrlsLoop e environments = e := by
  induction environments with
  | nil => rfl
  | cons environment rest ih =>
    have hnone := visitUrlsLoop_absent e.id environment.Urls
      (h environment (List.mem_cons_self _ _))
    simp only [visitMultipleBaseUrlsLoop, hnone]
    exact ih fun env henv => h env (List.mem_cons_of_mem _ henv)

/-- The environment lookup never fails. -/
theorem environmentURLFromID_ok (environmentsConfig : Option EnvironmentsConfig)
    (id : EnvironmentBaseUrlId) : ∃ v, environmentURLFromID environmentsConfig id = .ok v := by
  cases environmentsConfig with
  | none => exact ⟨"", rfl⟩
  | some config =>
    cases henv : config.Environments with
    | singleBaseUrl url =>
      exact ⟨(visitSingleBaseUrlLoop { value := "", id := id } url.Environments).value,
        by simp [environmentURLFromID, henv, Environments.Accept,
          environmentsURLVisitor.VisitSingleBaseUrl]⟩
    | multipleBaseUrls url =>
      exact ⟨(visitMultipleBaseUrlsLoop { value := "", id := id } url.Environments).value,
        by simp [environmentURLFromID, henv, Environments.Accept,
          environmentsURLVisitor.VisitMultipleBaseUrls]⟩

/-- The lookup of an id that no environment of the configuration carries gives the empty
string. -/
theorem environmentURLFromID_absent (config : EnvironmentsConfig) (id : EnvironmentBaseUrlId)
    (h : idAbsent id config) : environmentURLFromID (some config) id = .ok "" := by
  unfold idAbsent at h
  cases henv : config.Environments with
  | singleBaseUrl url =>
    rw [henv] at h
    simp [environmentURLFromID, henv, Environments.Accept,
      environmentsURLVisitor.VisitSingleBaseUrl,
      visitSingleBaseUrlLoop_absent { value := "", id := id } url.Environments h]
  | multipleBaseUrls url =>
    rw [henv] at h
    simp [environmentURLFromID, henv, Environments.Accept,
      environmentsURLVisitor.VisitMultipleBaseUrls,
      visitMultipleBaseUrlsLoop_absent { value := "", id := id } url.Environments h]

/-- The base URL of the endpoint returned by `endpointFromIR` is the result of the
environment lookup of the endpoint's environment id. -/
theorem endpointFromIR_baseURL {σ Scope : Type} (x : Externals σ Scope) (f : fileWriter Scope)
    (fernFilepath : FernFilepath) (irEndpoint : HttpEndpoint)
    (irEnvironmentsConfig : Option EnvironmentsConfig) (receiver : String) (s s' : σ)
    (ep : endpoint)
    (hok : endpointFromIR x f fernFilepath irEndpoint irEnvironmentsConfig receiver s =
      .ok (ep, s')) :
    environmentURLFromID irEnvironmentsConfig
      (endpointEnvironmentID irEnvironmentsConfig irEndpoint) = .ok ep.BaseURL := by
  unfold endpointFromIR at hok
  simp only at hok
  split at hok
  · cases hok
  · split at hok
    · cases hok
    · split at hok
      · cases hok
      · rename_i baseURL hbase
        injection hok with hok
        injection hok with hep _
        rw [hbase, ← hep]

/-- The code at the failing input of C1: with the environment `Production`, the URL map
`{api: "https://api.example.com"}` and the default environment `Production`, `endpointFromIR`
gives an endpoint without base-URL override the empty base URL, not
`https://api.example.com`; in a single-base-URL configuration the same default environment
is resolved to its URL. -/
theorem endpointFromIR_multipleBaseUrls_unresolved :
    (endpointFromIR plainExternals emptyWriter rootFilepath bareEndpoint (some productionConfig)
        "c" ()).map (fun r => r.1.BaseURL) = .ok "" ∧
      (endpointFromIR plainExternals emptyWriter rootFilepath bareEndpoint (some productionConfig)
        "c" ()).map (fun r => r.1.BaseURL) ≠ .ok "https://api.example.com" ∧
      (endpointFromIR plainExternals emptyWriter rootFilepath bareEndpoint (some stagingConfig)
        "c" ()).map (fun r => r.1.BaseURL) = .ok "https://api.example.com" := by
  refine ⟨rfl, ?_, rfl⟩
  intro h
  have h2 : (Except.ok "" : Except Failure String) = .ok "https://api.example.com" := h
  injection h2 with h3
  exact absurd h3 (by decide)

/-- In a multiple-base-URL configuration the id that `endpointFromIR` looks up is compared
with the base-URL ids of the URL maps: when no URL map of the configuration has a base-URL
id equal to the default environment id, an endpoint without base-URL override gets the empty
base URL. -/
theorem endpointFromIR_multipleBaseUrls_default {σ Scope : Type} (x : Externals σ Scope)
    (f : fileWriter Scope) (fernFilepath : FernFilepath) (irEndpoint : HttpEndpoint)
    (config : EnvironmentsConfig) (receiver : String) (s s' : σ) (ep : endpoint)
    (url : MultipleBaseUrlsEnvironments) (E : EnvironmentId)
    (henv : config.Environments = .multipleBaseUrls url)
    (hdefault : config.DefaultEnvironment = some E)
    (hoverride : irEndpoint.BaseUrl = none)
    (habsent : ∀ environment ∈ url.Environments, ∀ entry ∈ environment.Urls, entry.1 ≠ E)
    (hok : endpointFromIR x f fernFilepath irEndpoint (some config) receiver s = .ok (ep, s')) :
    ep.BaseURL = "" := by
  have hbase := endpointFromIR_baseURL x f fernFilepath irEndpoint (some config) receiver s s'
    ep hok
  have hid : endpointEnvironmentID (some config) irEndpoint = E := by
    simp [endpointEnvironmentID, hoverride, hdefault]
  have hlookup : environmentURLFromID (some config) E = .ok "" :=
    environmentURLFromID_absent config E (by unfold idAbsent; rw [henv]; exact habsent)
  rw [hid, hlookup] at hbase
  injection hbase with hbase
  exact hbase.symm

/-- Claim C2: when the endpoint has the base-URL override `b`, the environment lookup of `b`
returns a URL, and the base URL of the endpoint returned by `endpointFromIR` is that URL,
whatever the default environment of the configuration. -/
theorem endpointFromIR_baseUrl_override {σ Scope : Type} (x : Externals σ Scope)
    (f : fileWriter Scope) (fernFilepath : FernFilepath) (irEndpoint : HttpEndpoint)
    (irEnvironmentsConfig : Option EnvironmentsConfig) (receiver : String) (s : σ)
    (b : EnvironmentBaseUrlId) (hoverride : irEndpoint.BaseUrl = some b) :
    ∃ v, environmentURLFromID irEnvironmentsConfig b = .ok v ∧
      ∀ ep s', endpointFromIR x f fernFilepath irEndpoint irEnvironmentsConfig receiver s =
        .ok (ep, s') → ep.BaseURL = v := by
  obtain ⟨v, hv⟩ := environmentURLFromID_ok irEnvironmentsConfig b
  refine ⟨v, hv, fun ep s' hok => ?_⟩
  have hbase := endpointFromIR_baseURL x f fernFilepath irEndpoint irEnvironmentsConfig
    receiver s s' ep hok
  have hid : endpointEnvironmentID irEnvironmentsConfig irEndpoint = b := by
    simp [endpointEnvironmentID, hoverride]
  rw [hid, hv] at hbase
  injection hbase with hbase
  exact hbase.symm

/-- Witness of C2: with the default environment `Production` and the override `Staging`, the
endpoint is returned with the URL of `Staging`. -/
theorem endpointFromIR_baseUrl_override_witness :
    ∃ ep s', endpointFromIR plainExternals emptyWriter rootFilepath stagingEndpoint
        (some stagingConfig) "c" () = .ok (ep, s') ∧
      ep.BaseURL = "https://staging.example.com" := by
  obtain ⟨v, hv, h⟩ := endpointFromIR_baseUrl_override plainExternals emptyWriter rootFilepath
    stagingEndpoint (some stagingConfig) "c" () "Staging" rfl
  have hv2 : environmentURLFromID (some stagingConfig) "Staging" =
      .ok "https://staging.example.com" := rfl
  rw [hv2] at hv
  injection hv with hv
  exact ⟨_, _, rfl, (h _ _ rfl).trans hv.symm⟩

/-- Counterexample to C3 as stated: with a configuration that declares no default
environment but has an environment whose id is the empty string, an endpoint without
base-URL override gets that environment's URL, not the empty string. -/
theorem endpointFromIR_emptyId_counterexample :
    (endpointFromIR plainExternals emptyWriter rootFilepath bareEndpoint (some emptyIdConfig)
        "c" ()).map (fun r => r.1.BaseURL) = .ok "https://api.example.com" ∧
      (endpointFromIR plainExternals emptyWriter rootFilepath bareEndpoint (some emptyIdConfig)
        "c" ()).map (fun r => r.1.BaseURL) ≠ .ok "" := by
  constructor
  · rfl
  · intro h
    have h2 : (Except.ok "https://api.example.com" : Except Failure String) = .ok "" := h
    injection h2 with h3
    exact absurd h3 (by decide)

/-- Claim C3, amended: for an endpoint without base-URL override and a configuration (nil
included) that declares no default environment and in which no environment id (single base
URL) or base-URL id (multiple base URLs) is the empty string, the base URL computed by
`endpointFromIR` is the empty string. -/
theorem endpointFromIR_no_default {σ Scope : Type} (x : Externals σ Scope)
    (f : fileWriter Scope) (fernFilepath : FernFilepath) (irEndpoint : HttpEndpoint)
    (irEnvironmentsConfig : Option EnvironmentsConfig) (receiver : String) (s s' : σ)
    (ep : endpoint) (hoverride : irEndpoint.BaseUrl = none)
    (hdefault : irEnvironmentsConfig.bind EnvironmentsConfig.DefaultEnvironment = none)
    (hids : ∀ config, irEnvironmentsConfig = some config → idAbsent "" config)
    (hok : endpointFromIR x f fernFilepath irEndpoint irEnvironmentsConfig receiver s =
      .ok (ep, s')) :
    ep.BaseURL = "" := by
  have hbase := endpointFromIR_baseURL x f fernFilepath irEndpoint irEnvironmentsConfig
    receiver s s' ep hok
  have hid : endpointEnvironmentID irEnvironmentsConfig irEndpoint = "" := by
    simp [endpointEnvironmentID, hoverride, hdefault]
  rw [hid] at hbase
  cases hcfg : irEnvironmentsConfig with
  | none =>
    rw [hcfg] at hbase
    have h2 : (Except.ok "" : Except Failure String) = .ok ep.BaseURL := hbase
    injection h2 with h2
    exact h2.symm
  | some config =>
    rw [hcfg, environmentURLFromID_absent config "" (hids config hcfg)] at hbase
    injection hbase with hbase
    exact hbase.symm

/-- Witness of the amended C3 at a configuration with the environments `Production` and
`Staging` and no default environment. -/
theorem endpointFromIR_no_default_witness :
    ∃ ep s', endpointFromIR plainExternals emptyWriter rootFilepath bareEndpoint
        (some noDefaultConfig) "c" () = .ok (ep, s') ∧ ep.BaseURL = "" :=
  ⟨_, _, rfl,
    endpointFromIR_no_default plainExternals emptyWriter rootFilepath bareEndpoint
      (some noDefaultConfig) "c" () _ _ rfl rfl
      (by
        intro config hconfig
        injection hconfig with hconfig
        subst hconfig
        simp [idAbsent, noDefaultConfig, stagingConfig])
      rfl⟩

/-! ## Structured errors: properties -/

/-- Claim C20: for an error declaration without body type, `WriteError` writes, after the
documentation, a struct that embeds only `*core.APIError`, an `UnmarshalJSON` that sets
`StatusCode` to the declared status code and returns nil whatever the data, and a
`MarshalJSON` that returns `nil, nil`; it writes nothing else and returns no error. -/
theorem WriteError_without_body {σ Scope : Type} (x : Externals σ Scope)
    (f : fileWriter Scope) (errorDeclaration : ErrorDeclaration) (s : σ)
    (hbody : errorDeclaration.Type_ = none) :
    WriteError x f errorDeclaration s =
      { lines := x.WriteDocs errorDeclaration.Docs ++
          [ "type " ++ errorDeclaration.Name.Name.PascalCase.UnsafeName ++ " struct \x7b",
            "*core.APIError",
            "\x7d",
            "",
            "func (" ++ x.typeNameToReceiver errorDeclaration.Name.Name.PascalCase.UnsafeName ++
              "*" ++ errorDeclaration.Name.Name.PascalCase.UnsafeName ++
              ") UnmarshalJSON(data []byte) error \x7b",
            x.typeNameToReceiver errorDeclaration.Name.Name.PascalCase.UnsafeName ++
              ".StatusCode = " ++ toString errorDeclaration.StatusCode,
            "return nil",
            "\x7d",
            "",
            "func (" ++ x.typeNameToReceiver errorDeclaration.Name.Name.PascalCase.UnsafeName ++
              "*" ++ errorDeclaration.Name.Name.PascalCase.UnsafeName ++
              ") MarshalJSON() ([]byte, error) \x7b",
            "return nil, nil",
            "\x7d",
            "" ]
        result := .ok ((), s) } := by
  unfold WriteError
  simp [hbody, P, String.join, String.append_assoc]

/-- Witness of C20 at `NotFoundError`, declared without body and with status code 404. -/
theorem WriteError_without_body_witness :
    WriteError plainExternals emptyWriter notFoundError () =
      { lines :=
          [ "type NotFoundError struct \x7b",
            "*core.APIError",
            "\x7d",
            "",
            "func (r*NotFoundError) UnmarshalJSON(data []byte) error \x7b",
            "r.StatusCode = 404",
            "return nil",
            "\x7d",
            "",
            "func (r*NotFoundError) MarshalJSON() ([]byte, error) \x7b",
            "return nil, nil",
            "\x7d",
            "" ]
        result := .ok ((), ()) } :=
  WriteError_without_body plainExternals emptyWriter notFoundError () rfl

/-! ## Request types: properties -/

/-- Claim C14: for a request body that is the bytes variant, `requestBodyToFieldDeclaration`
writes nothing and returns the error "bytes requests are not supported yet" and no literals,
and `WriteRequestType`, called as its comment requires on an endpoint whose SDK request is a
wrapper, returns that same error. -/
theorem bytes_request_not_supported {σ Scope : Type} (x : Externals σ Scope)
    (f : fileWriter Scope) (fernFilepath : FernFilepath) (endpoint : HttpEndpoint)
    (includeGenericOptionals : Bool) (s : σ) (importPath bodyField : String)
    (sdkRequest : SdkRequest) (wrapper : SdkRequestWrapper)
    (hbody : endpoint.RequestBody = some .bytes)
    (hrequest : endpoint.SdkRequest = some sdkRequest)
    (hwrapper : sdkRequest.Shape = .wrapper wrapper) :
    requestBodyToFieldDeclaration x .bytes f importPath bodyField includeGenericOptionals s =
        { lines := [], result := .error (.error "bytes requests are not supported yet") } ∧
      (WriteRequestType x f fernFilepath endpoint includeGenericOptionals s).result =
        .error (.error "bytes requests are not supported yet") := by
  constructor
  · rfl
  · simp only [WriteRequestType, writeRequestTypeParts, hrequest, hwrapper, hbody,
      Option.bind, SdkRequestShape.Wrapper]
    rfl

/-- Witness of C14 at an endpoint with a bytes body and a wrapper request. -/
theorem bytes_request_not_supported_witness :
    requestBodyToFieldDeclaration plainExternals .bytes emptyWriter "sdk" "Body" false () =
        { lines := [], result := .error (.error "bytes requests are not supported yet") } ∧
      (WriteRequestType plainExternals emptyWriter rootFilepath bytesWrapperEndpoint false
        ()).result = .error (.error "bytes requests are not supported yet") :=
  bytes_request_not_supported plainExternals emptyWriter rootFilepath bytesWrapperEndpoint false
    () "sdk" "Body" (wrapperRequest "UploadRequest")
    { WrapperName := plainName "UploadRequest", BodyKey := plainName "Body" } rfl rfl rfl

/-! ## Clients: properties -/

/-- The code at the failing input of C11: for the query parameter `version`, literal-valued
and allowing multiple values, `WriteClient` writes a loop over the field `Version` of the
request parameter that adds each element, and no statement with the literal `"v1"`, while
the request type written by `WriteRequestType` declares no field `Version` (only the private
field `version` and the getter `Version()`). -/
theorem queryParameterLines_literal_multiple :
    queryParameterLines plainExternals.literalToValue getUserEndpoint versionParameter =
        [ "for _, value := range request.Version\x7b",
          "queryParams.Add(\"version\", fmt.Sprintf(\"%v\", value))",
          "\x7d" ] ∧
      (WriteRequestType plainExternals emptyWriter rootFilepath listVersionsEndpoint false
        ()).lines =
        [ "type ListVersionsRequest struct \x7b",
          "version string",
          "\x7d",
          "",
          "func (r *ListVersionsRequest) Version()string\x7b",
          "return r.version",
          "\x7d",
          "" ] := by
  constructor <;> rfl

/-- The code at the failing input of C12: for the file-upload endpoint `JustFile`, which
declares no header, the method written by `WriteClient` clones no header set and sets the
content type on the header field of the receiver, `c.header`, which it then passes to the
caller. -/
theorem WriteClient_justFile_shared_header :
    (WriteClient plainExternals emptyWriter [justFileEndpoint] [] none none rootFilepath none
        none ()).lines.drop 19 =
      [ "func (c *Client) JustFile(ctx context.Context, file io.Reader) error \x7b",
        "baseURL := \"\"",
        "if c.baseURL != \"\" \x7b",
        "baseURL = c.baseURL",
        "\x7d",
        "endpointURL := baseURL",
        "",
        "requestBuffer := bytes.NewBuffer(nil)",
        "writer := multipart.NewWriter(requestBuffer)",
        "fileFilename := \"file_filename\"",
        "if named, ok := file.(interface\x7b Name() string \x7d); ok \x7b",
        "fileFilename = named.Name()",
        "\x7d",
        "filePart, err := writer.CreateFormFile(\"file\", fileFilename)",
        "if err != nil \x7b",
        "return err",
        "\x7d",
        "if _, err := io.Copy(filePart, file); err != nil \x7b",
        "return err",
        "\x7d",
        "if err := writer.Close(); err != nil \x7b",
        "return err",
        "\x7d",
        "c.header.Set(\"Content-Type\", writer.FormDataContentType())",
        "",
        "if err := c.caller.Call(",
        "ctx,",
        "&core.CallParams\x7b",
        "URL: endpointURL, ",
        "Method:http.MethodPost,",
        "Headers:c.header,",
        "Request: requestBuffer,",
        "\x7d,",
        "); err != nil \x7b",
        "return err",
        "\x7d",
        "return nil",
        "\x7d",
        "" ] := by
  rfl

/-- The reformatting loop fails with the failure of the first endpoint that fails. -/
theorem endpointsFromIR_error {σ Scope : Type} (x : Externals σ Scope) (f : fileWriter Scope)
    (fernFilepath : FernFilepath) (irEnvironmentsConfig : Option EnvironmentsConfig)
    (receiver : String) (before : List HttpEndpoint) (irEndpoint : HttpEndpoint)
    (after : List HttpEndpoint) (s s1 : σ) (endpoints : List endpoint) (err : Failure)
    (hbefore : endpointsFromIR x f fernFilepath irEnvironmentsConfig receiver before s =
      .ok (endpoints, s1))
    (hfail : endpointFromIR x f fernFilepath irEndpoint irEnvironmentsConfig receiver s1 =
      .error err) :
    endpointsFromIR x f fernFilepath irEnvironmentsConfig receiver
      (before ++ irEndpoint :: after) s = .error err := by
  induction before generalizing s endpoints with
  | nil =>
    simp only [endpointsFromIR] at hbefore
    injection hbefore with hbefore
    injection hbefore with _ hs
    subst hs
    simp [endpointsFromIR, hfail]
  | cons first rest ih =>
    simp only [endpointsFromIR] at hbefore
    simp only [List.cons_append, endpointsFromIR]
    cases hfirst : endpointFromIR x f fernFilepath first irEnvironmentsConfig receiver s with
    | error e => rw [hfirst] at hbefore; cases hbefore
    | ok r =>
      obtain ⟨ep, s2⟩ := r
      rw [hfirst] at hbefore
      simp only at hbefore ⊢
      cases hrest : endpointsFromIR x f fernFilepath irEnvironmentsConfig receiver rest s2 with
      | error e => rw [hrest] at hbefore; cases hbefore
      | ok r2 =>
        obtain ⟨eps, s3⟩ := r2
        rw [hrest] at hbefore
        simp only at hbefore
        injection hbefore with hbefore
        injection hbefore with _ hs
        subst hs
        have h := ih s2 eps hrest
        simp only [List.append_eq, h]

/-- Claim C15: when `endpointFromIR` fails for an endpoint of the list given to
`WriteClient`, the endpoints before it having been reformatted, `WriteClient` returns that
failure, no client, and has written no line. -/
theorem WriteClient_no_partial_emission {σ Scope : Type} (x : Externals σ Scope)
    (f : fileWriter Scope) (subpackages : List Subpackage)
    (environmentsConfig : Option EnvironmentsConfig)
    (errorDiscriminationStrategy : Option ErrorDiscriminationStrategy)
    (fernFilepath : FernFilepath) (generatedAuth : Option GeneratedAuth)
    (generatedEnvironment : Option GeneratedEnvironment)
    (before : List HttpEndpoint) (irEndpoint : HttpEndpoint) (after : List HttpEndpoint)
    (s s1 : σ) (endpoints : List endpoint) (err : Failure)
    (hbefore : endpointsFromIR x f fernFilepath environmentsConfig "c" before s =
      .ok (endpoints, s1))
    (hfail : endpointFromIR x f fernFilepath irEndpoint environmentsConfig "c" s1 =
      .error err) :
    (WriteClient x f (before ++ irEndpoint :: after) subpackages environmentsConfig
        errorDiscriminationStrategy fernFilepath generatedAuth generatedEnvironment s).lines
        = [] ∧
      (WriteClient x f (before ++ irEndpoint :: after) subpackages environmentsConfig
        errorDiscriminationStrategy fernFilepath generatedAuth generatedEnvironment s).result
        = .error err := by
  have h := endpointsFromIR_error x f fernFilepath environmentsConfig "c" before irEndpoint
    after s s1 endpoints err hbefore hfail
  simp [WriteClient, h]

/-- Witness of C15: the endpoint with the unsupported response type `bytes` comes second,
after an endpoint that is reformatted. -/
theorem WriteClient_no_partial_emission_witness :
    (WriteClient plainExternals emptyWriter ([bareEndpoint] ++ unsupportedEndpoint :: [])
        [] none none rootFilepath none none ()).lines = [] ∧
      (WriteClient plainExternals emptyWriter ([bareEndpoint] ++ unsupportedEndpoint :: [])
        [] none none rootFilepath none none ()).result =
        .error (.error "bytes requests are not supported yet") :=
  WriteClient_no_partial_emission plainExternals emptyWriter [] none none rootFilepath none none
    [bareEndpoint] unsupportedEndpoint [] () () _ _ rfl rfl

/-- The endpoint returned by `endpointFromIR` carries the errors of the IR endpoint and names
an error decoder exactly when there is one error at least. -/
theorem endpointFromIR_errors {σ Scope : Type} (x : Externals σ Scope) (f : fileWriter Scope)
    (fernFilepath : FernFilepath) (irEndpoint : HttpEndpoint)
    (irEnvironmentsConfig : Option EnvironmentsConfig) (receiver : String) (s s' : σ)
    (ep : endpoint)
    (hok : endpointFromIR x f fernFilepath irEndpoint irEnvironmentsConfig receiver s =
      .ok (ep, s')) :
    ep.Errors = irEndpoint.Errors ∧
      ep.ErrorDecoderParameterName =
        if irEndpoint.Errors.length > 0 then "errorDecoder" else "" := by
  unfold endpointFromIR at hok
  simp only at hok
  split at hok
  · cases hok
  · split at hok
    · cases hok
    · split at hok
      · cases hok
      · injection hok with hok
        injection hok with hep _
        rw [← hep]
        exact ⟨rfl, rfl⟩

/-- The content field of a strategy is not the empty string. -/
theorem contentField_ne_empty (strategy : ErrorDiscriminationByPropertyStrategy) :
    contentField (some strategy) ≠ "" := by
  intro h
  have hlen := congrArg String.length h
  simp only [contentField, String.length_append] at hlen
  have hpos : "discriminant.".length = 13 := by decide
  have hzero : ("" : String).length = 0 := by decide
  omega

/-- The loop over the errors writes one case per error, in order, when every error is in the
error index. -/
theorem errorDecoderCases_ok {σ Scope : Type} (x : Externals σ Scope) (f : fileWriter Scope)
    (strategy : Option ErrorDiscriminationByPropertyStrategy) (errors : List ResponseError)
    (s : σ)
    (hindex : ∀ e ∈ errors, (f.errors.lookup e.Error.ErrorId).isSome = true) :
    ∃ (errorTypes : List String) (s' : σ),
      List.Forall₂
        (fun (declaration : ErrorDeclaration) (errorType : String) =>
          ∃ importAlias, errorType =
            importAlias ++ "." ++ declaration.Name.Name.PascalCase.UnsafeName)
        (declarationsOf f errors) errorTypes ∧
      errorDecoderCases x f strategy (contentField strategy) errors s =
        { lines := (List.zipWith (decoderCase strategy) (declarationsOf f errors)
            errorTypes).flatten
          result := .ok ((), s') } := by
  induction errors generalizing s with
  | nil => exact ⟨[], s, List.Forall₂.nil, rfl⟩
  | cons e rest ih =>
    have he := hindex e (List.mem_cons_self _ _)
    obtain ⟨declaration, hdecl⟩ := Option.isSome_iff_exists.1 he
    obtain ⟨errorTypes, s', hall, hrest⟩ :=
      ih (x.AddImport f.scope
        (x.fernFilepathToImportPath f.baseImportPath declaration.Name.FernFilepath) s).2
        (fun e' he' => hindex e' (List.mem_cons_of_mem _ he'))
    refine ⟨((x.AddImport f.scope
        (x.fernFilepathToImportPath f.baseImportPath declaration.Name.FernFilepath) s).1 ++ "." ++
        declaration.Name.Name.PascalCase.UnsafeName) :: errorTypes, s', ?_, ?_⟩
    · simp only [declarationsOf, List.filterMap_cons, hdecl]
      exact List.Forall₂.cons ⟨_, rfl⟩ hall
    · simp only [errorDecoderCases, hdecl, hrest, declarationsOf, List.filterMap_cons,
        List.zipWith_cons_cons, List.flatten_cons]
      cases strategy with
      | none => rfl
      | some st =>
        have hne := contentField_ne_empty st
        simp only [hne, ne_eq, not_false_eq_true, if_true, Option.isSome_some]
        rfl

/-- Every error of the list has its declaration in the list of declarations, position by
position, when every error is in the error index. -/
theorem declarationsOf_forall {Scope : Type} (f : fileWriter Scope)
    (errors : List ResponseError)
    (hindex : ∀ e ∈ errors, (f.errors.lookup e.Error.ErrorId).isSome = true) :
    List.Forall₂
      (fun (responseError : ResponseError) (declaration : ErrorDeclaration) =>
        f.errors.lookup responseError.Error.ErrorId = some declaration)
      errors (declarationsOf f errors) := by
  induction errors with
  | nil => exact List.Forall₂.nil
  | cons e rest ih =>
    obtain ⟨declaration, hdecl⟩ :=
      Option.isSome_iff_exists.1 (hindex e (List.mem_cons_self _ _))
    simp only [declarationsOf, List.filterMap_cons, hdecl]
    exact List.Forall₂.cons hdecl (ih fun e' he' => hindex e' (List.mem_cons_of_mem _ he'))

/-- The error decoder block of an endpoint whose declared errors are all in the error index:
the opening up to the `switch`, then exactly one case per declared error in declaration
order, then the end of the switch followed by `return apiError`. -/
theorem errorDecoderLines_cases {σ Scope : Type} (x : Externals σ Scope)
    (f : fileWriter Scope) (strategy : Option ErrorDiscriminationByPropertyStrategy)
    (endpoint : endpoint) (s : σ) (herrors : endpoint.Errors ≠ [])
    (hindex : ∀ e ∈ endpoint.Errors, (f.errors.lookup e.Error.ErrorId).isSome = true) :
    ∃ (errorTypes : List String) (s' : σ),
      List.Forall₂
        (fun (responseError : ResponseError) (declaration : ErrorDeclaration) =>
          f.errors.lookup responseError.Error.ErrorId = some declaration)
        endpoint.Errors (declarationsOf f endpoint.Errors) ∧
      List.Forall₂
        (fun (declaration : ErrorDeclaration) (errorType : String) =>
          ∃ importAlias, errorType =
            importAlias ++ "." ++ declaration.Name.Name.PascalCase.UnsafeName)
        (declarationsOf f endpoint.Errors) errorTypes ∧
      errorDecoderLines x f strategy endpoint s =
        { lines := decoderOpening strategy ++
            (List.zipWith (decoderCase strategy) (declarationsOf f endpoint.Errors)
              errorTypes).flatten ++
            ["\x7d", "return apiError", "\x7d", ""]
          result := .ok ((), s') } := by
  obtain ⟨errorTypes, s', hall, hcases⟩ :=
    errorDecoderCases_ok x f strategy endpoint.Errors s hindex
  refine ⟨errorTypes, s', declarationsOf_forall f endpoint.Errors hindex, hall, ?_⟩
  have hlen : endpoint.Errors.length > 0 := List.length_pos.2 herrors
  cases strategy with
  | none =>
    have h2 : errorDecoderCases x f none "" endpoint.Errors s = _ := hcases
    simp only [errorDecoderLines, hlen, if_true, h2]
    simp [decoderOpening, P, String.join]
  | some st =>
    have h2 : errorDecoderCases x f (some st)
        ("discriminant." ++ st.ContentProperty.Name.PascalCase.UnsafeName) endpoint.Errors s = _ :=
      hcases
    simp only [errorDecoderLines, hlen, if_true, h2]
    simp [decoderOpening, P, String.join, String.append_assoc]
    rw [← String.append_assoc]
    rfl

/-! ## Failures of `endpointFromIR`: properties -/

/-- With the request payload present, the request block of `endpointFromIR` does not fail. -/
theorem requestParameters_ne_error {σ Scope : Type} (x : Externals σ Scope)
    (f : fileWriter Scope) (fernFilepath : FernFilepath) (irEndpoint : HttpEndpoint)
    (hpresent : requestPayloadPresent irEndpoint = true) (scope : Scope)
    (signatureParameters : String) (s : σ) (err : Failure) :
    requestParameters x f fernFilepath scope irEndpoint signatureParameters s ≠ .error err := by
  unfold requestPayloadPresent at hpresent
  unfold requestParameters
  cases hsdk : irEndpoint.SdkRequest with
  | none => simp
  | some sdkRequest =>
    rw [hsdk] at hpresent
    simp only at hpresent ⊢
    split
    · cases hshape : sdkRequest.Shape with
      | wrapper w =>
        simp only [SdkRequestShape.JustRequestBody, SdkRequestShape.Wrapper]
        intro h
        cases h
      | justRequestBody b =>
        rw [hshape] at hpresent
        simp only [SdkRequestShape.JustRequestBody] at hpresent
        cases hb : b.TypeReference with
        | none => rw [hb] at hpresent; cases hpresent
        | some reference =>
          simp only [SdkRequestShape.JustRequestBody, SdkRequestShape.Wrapper, hb]
          intro h
          cases h
    · intro h
      cases h

/-- For an unsupported response the response block of `endpointFromIR` returns an error. -/
theorem formatResponse_unsupported {σ Scope : Type} (x : Externals σ Scope)
    (f : fileWriter Scope) (irEndpoint : HttpEndpoint)
    (hunsupported : unsupportedResponse irEndpoint = true) (scope : Scope) (s : σ)
    (r : Except Failure (responseValues × σ))
    (hr : formatResponse x f scope irEndpoint s = r) : ∃ msg, r = .error (.error msg) := by
  subst hr
  unfold unsupportedResponse at hunsupported
  unfold formatResponse
  cases hresp : irEndpoint.Response with
  | none => rw [hresp] at hunsupported; cases hunsupported
  | some response =>
    rw [hresp] at hunsupported
    simp only at hunsupported ⊢
    by_cases hjson : response.Type_ = "json"
    · simp only [hjson, if_true]
      cases hj : response.Json with
      | none => simp [hjson, hj] at hunsupported
      | some json =>
        simp [hjson, hj] at hunsupported
        simp [jsonResponseValues, typeReferenceFromJsonResponse, hj, hunsupported.1,
          hunsupported.2]
    · by_cases hfile : response.Type_ = "fileDownload"
      · simp [hfile] at hunsupported
      · by_cases htext : response.Type_ = "text"
        · simp [htext] at hunsupported
        · by_cases hstream : response.Type_ = "streaming"
          · simp only [hstream, if_true]
            cases hst : response.Streaming with
            | none => simp [hstream, hst] at hunsupported
            | some streaming =>
              cases hc : streaming.DataEventType with
              | none => simp [hstream, hst, hc] at hunsupported
              | some chunkType =>
                simp [hstream, hst, hc] at hunsupported
                simp [streamingResponseValues, typeReferenceFromStreamingResponseChunkType,
                  hst, hc, hunsupported.1, hunsupported.2]
          · simp [hjson, hfile, htext, hstream]

/-- When the type reference of a json response is found, the json case does not fail. -/
theorem jsonResponseValues_ne_error {σ Scope : Type} (x : Externals σ Scope)
    (f : fileWriter Scope) (scope : Scope) (response : HttpResponse) (s : σ) (err : Failure)
    (typeReference : TypeReference)
    (htype : typeReferenceFromJsonResponse response.Json = .ok (some typeReference)) :
    jsonResponseValues x f scope response s ≠ .error err := by
  unfold jsonResponseValues
  rw [htype]
  simp only
  intro h
  split at h <;> cases h

/-- When the type reference of a streaming response is found, the streaming case does not
fail. -/
theorem streamingResponseValues_ne_error {σ Scope : Type} (x : Externals σ Scope)
    (f : fileWriter Scope) (scope : Scope) (response : HttpResponse) (s : σ) (err : Failure)
    (streaming : StreamingResponse) (typeReference : TypeReference)
    (hstreaming : response.Streaming = some streaming)
    (htype : typeReferenceFromStreamingResponseChunkType streaming.DataEventType =
      some typeReference) :
    streamingResponseValues x f scope response s ≠ .error err := by
  unfold streamingResponseValues
  rw [hstreaming]
  simp only [htype]
  intro h
  cases h

/-- For a supported response whose payloads are present the response block of
`endpointFromIR` does not fail. -/
theorem formatResponse_supported {σ Scope : Type} (x : Externals σ Scope)
    (f : fileWriter Scope) (irEndpoint : HttpEndpoint)
    (hpresent : payloadsPresent irEndpoint = true)
    (hsupported : unsupportedResponse irEndpoint = false) (scope : Scope) (s : σ)
    (err : Failure) : formatResponse x f scope irEndpoint s ≠ .error err := by
  unfold unsupportedResponse at hsupported
  unfold payloadsPresent at hpresent
  unfold formatResponse
  cases hresp : irEndpoint.Response with
  | none => simp
  | some response =>
    rw [hresp] at hsupported hpresent
    simp only at hsupported hpresent ⊢
    by_cases hjson : response.Type_ = "json"
    · simp only [hjson, if_true]
      cases hj : response.Json with
      | none => simp [hjson, hj] at hpresent
      | some json =>
        simp [hjson, hj, jsonPayloadPresent] at hsupported hpresent
        obtain ⟨_, hresponse, hnested⟩ := hpresent
        by_cases hkind : json.Type_ = "response"
        · simp only [hkind, not_true_eq_false, false_or] at hresponse
          cases hbody : json.Response with
          | none => simp [hbody] at hresponse
          | some body =>
            simp only [hbody] at hresponse
            obtain ⟨typeReference, htype⟩ := Option.isSome_iff_exists.1 hresponse
            exact jsonResponseValues_ne_error x f scope response s err typeReference
              (by simp [typeReferenceFromJsonResponse, hj, hkind, hbody, htype])
        · have hkind2 := hsupported hkind
          simp only [hkind2, not_true_eq_false, false_or] at hnested
          cases hbody : json.NestedPropertyAsResponse with
          | none => simp [hbody] at hnested
          | some body =>
            simp only [hbody] at hnested
            obtain ⟨typeReference, htype⟩ := Option.isSome_iff_exists.1 hnested
            exact jsonResponseValues_ne_error x f scope response s err typeReference
              (by simp [typeReferenceFromJsonResponse, hj, hkind, hkind2, hbody, htype])
    · by_cases hfile : response.Type_ = "fileDownload"
      · simp [hfile]
      · by_cases htext : response.Type_ = "text"
        · simp [htext]
        · by_cases hstream : response.Type_ = "streaming"
          · simp only [hstream, if_true]
            simp [hstream] at hsupported hpresent
            obtain ⟨_, hpayload⟩ := hpresent
            cases hst : response.Streaming with
            | none => simp [hst] at hpayload
            | some streaming =>
              simp only [hst, streamingPayloadPresent] at hpayload
              cases hc : streaming.DataEventType with
              | none => simp [hc] at hpayload
              | some chunkType =>
                simp [hst, hc] at hsupported hpayload
                have hne : ∀ r : Except Failure (responseValues × σ),
                    r = streamingResponseValues x f scope response s → r ≠ .error err := by
                  intro r hr
                  subst hr
                  by_cases hkind : chunkType.Type_ = "json"
                  · obtain ⟨typeReference, htype⟩ :=
                      Option.isSome_iff_exists.1 (hpayload.resolve_left (not_not.2 hkind))
                    exact streamingResponseValues_ne_error x f scope response s err streaming
                      typeReference hst
                      (by simp [typeReferenceFromStreamingResponseChunkType, hc, hkind, htype])
                  · have hkind2 := hsupported hkind
                    exact streamingResponseValues_ne_error x f scope response s err streaming
                      (.primitive .PrimitiveTypeString) hst
                      (by simp [typeReferenceFromStreamingResponseChunkType, hc, hkind, hkind2])
                simpa using hne _ rfl
          · simp [hjson, hfile, htext, hstream] at hsupported

/-- The environment lookup returns no failure. -/
theorem environmentURLFromID_ne_error (environmentsConfig : Option EnvironmentsConfig)
    (id : EnvironmentBaseUrlId) (err : Failure) :
    environmentURLFromID environmentsConfig id ≠ .error err := by
  obtain ⟨v, hv⟩ := environmentURLFromID_ok environmentsConfig id
  rw [hv]
  intro h
  cases h

/-- Counterexample to C13 as stated: an endpoint without response whose SDK request is just
a bytes body makes `endpointFromIR` fail (the type reference of the request body, absent
for bytes, is read), although it declares no response; and for a json response of the
supported kind `response` whose body has no type, `endpointFromIR` returns an error. -/
theorem endpointFromIR_bytes_counterexample :
    (bytesEndpoint.Response = none ∧
        endpointFromIR plainExternals emptyWriter rootFilepath bytesEndpoint none "c" () =
          .error .nilDereference) ∧
      (unsupportedResponse untypedJsonEndpoint = false ∧
        endpointFromIR plainExternals emptyWriter rootFilepath untypedJsonEndpoint none "c" () =
          .error (.error "unsupported json response type: response")) := by
  refine ⟨⟨rfl, rfl⟩, ⟨by decide, rfl⟩⟩

/-- Claim C13, amended: when every payload that `endpointFromIR` reads is present, it
returns an error if and only if the endpoint declares a response whose type is not one of
json, fileDownload, text and streaming, or is json with a body kind other than response and
nestedPropertyAsResponse, or is streaming with a chunk kind other than json and text; and it
returns an endpoint in every other case, in particular for an endpoint without response
(the environment lookup never fails). -/
theorem endpointFromIR_error_iff {σ Scope : Type} (x : Externals σ Scope)
    (f : fileWriter Scope) (fernFilepath : FernFilepath) (irEndpoint : HttpEndpoint)
    (irEnvironmentsConfig : Option EnvironmentsConfig) (receiver : String) (s : σ)
    (hpresent : payloadsPresent irEndpoint = true) :
    ((∃ msg, endpointFromIR x f fernFilepath irEndpoint irEnvironmentsConfig receiver s =
          .error (.error msg)) ↔ unsupportedResponse irEndpoint = true) ∧
      ((∃ ep s', endpointFromIR x f fernFilepath irEndpoint irEnvironmentsConfig receiver s =
          .ok (ep, s')) ↔ unsupportedResponse irEndpoint = false) ∧
      (irEndpoint.Response = none →
        ∃ ep s', endpointFromIR x f fernFilepath irEndpoint irEnvironmentsConfig receiver s =
          .ok (ep, s')) := by
  have hrequest : requestPayloadPresent irEndpoint = true := by
    unfold payloadsPresent at hpresent
    simp only [Bool.and_eq_true] at hpresent
    exact hpresent.1
  have herror : unsupportedResponse irEndpoint = true →
      ∃ msg, endpointFromIR x f fernFilepath irEndpoint irEnvironmentsConfig receiver s =
        .error (.error msg) := by
    intro hunsupported
    unfold endpointFromIR
    simp only
    split
    · rename_i heq
      exact absurd heq (requestParameters_ne_error x f fernFilepath irEndpoint hrequest _ _ _ _)
    · split
      · rename_i heq
        obtain ⟨msg, hmsg⟩ := formatResponse_unsupported x f irEndpoint hunsupported _ _ _ heq
        injection hmsg with hmsg
        exact ⟨msg, by rw [hmsg]⟩
      · rename_i heq
        obtain ⟨msg, hmsg⟩ := formatResponse_unsupported x f irEndpoint hunsupported _ _ _ heq
        cases hmsg
  have hok : unsupportedResponse irEndpoint = false →
      ∃ ep s', endpointFromIR x f fernFilepath irEndpoint irEnvironmentsConfig receiver s =
        .ok (ep, s') := by
    intro hsupported
    unfold endpointFromIR
    simp only
    split
    · rename_i heq
      exact absurd heq (requestParameters_ne_error x f fernFilepath irEndpoint hrequest _ _ _ _)
    · split
      · rename_i heq
        exact absurd heq (formatResponse_supported x f irEndpoint hpresent hsupported _ _ _)
      · split
        · rename_i heq
          exact absurd heq (environmentURLFromID_ne_error _ _ _)
        · exact ⟨_, _, rfl⟩
  refine ⟨⟨?_, herror⟩, ⟨?_, hok⟩, ?_⟩
  · rintro ⟨msg, hmsg⟩
    cases hu : unsupportedResponse irEndpoint with
    | true => rfl
    | false =>
      obtain ⟨ep, s', h⟩ := hok hu
      rw [h] at hmsg
      cases hmsg
  · rintro ⟨ep, s', h⟩
    cases hu : unsupportedResponse irEndpoint with
    | false => rfl
    | true =>
      obtain ⟨msg, hmsg⟩ := herror hu
      rw [hmsg] at h
      cases h
  · intro hnone
    exact hok (by simp [unsupportedResponse, hnone])

/-- Witness of the amended C13 at an endpoint with the unsupported response type `bytes`:
`endpointFromIR` returns an error. -/
theorem endpointFromIR_error_iff_witness :
    payloadsPresent unsupportedEndpoint = true ∧
      unsupportedResponse unsupportedEndpoint = true ∧
      ∃ msg, endpointFromIR plainExternals emptyWriter rootFilepath unsupportedEndpoint none "c"
        () = .error (.error msg) :=
  ⟨by decide, by decide,
    (endpointFromIR_error_iff plainExternals emptyWriter rootFilepath unsupportedEndpoint none
      "c" () (by decide)).1.2 (by decide)⟩

/-! ## Serialization of request types: properties -/

/-- The loop over the headers collects the literals of the literal-valued headers. -/
theorem requestHeaderFields_literals {σ Scope : Type} (x : Externals σ Scope)
    (f : fileWriter Scope) (importPath : String) (headers : List HttpHeader)
    (lines : List String) (literals : List literal) (s : σ) :
    (requestHeaderFields x f importPath headers (lines, literals, s)).2.1 =
      literals ++ headerLiterals headers := by
  induction headers generalizing lines literals s with
  | nil => simp [requestHeaderFields, headerLiterals]
  | cons header rest ih =>
    unfold requestHeaderFields
    cases hl : header.ValueType.Container.bind ContainerType.Literal with
    | none =>
      have hcons : headerLiterals (header :: rest) = headerLiterals rest := by
        simp only [headerLiterals, List.filterMap_cons, hl, Option.map]
      simp only [hl]
      rw [ih, hcons]
    | some l =>
      have hcons : headerLiterals (header :: rest) =
          { Name := header.Name.Name, Value := l } :: headerLiterals rest := by
        simp only [headerLiterals, List.filterMap_cons, hl, Option.map]
      simp only [hl]
      rw [ih, hcons]
      simp

/-- The loop over the query parameters collects the literals of the literal-valued query
parameters. -/
theorem requestQueryFields_literals {σ Scope : Type} (x : Externals σ Scope)
    (f : fileWriter Scope) (importPath : String) (queryParameters : List QueryParameter)
    (lines : List String) (literals : List literal) (s : σ) :
    (requestQueryFields x f importPath queryParameters (lines, literals, s)).2.1 =
      literals ++ queryLiterals queryParameters := by
  induction queryParameters generalizing lines literals s with
  | nil => simp [requestQueryFields, queryLiterals]
  | cons queryParam rest ih =>
    unfold requestQueryFields
    cases hl : queryParam.ValueType.Container.bind ContainerType.Literal with
    | none =>
      have hcons : queryLiterals (queryParam :: rest) = queryLiterals rest := by
        simp only [queryLiterals, List.filterMap_cons, hl, Option.map]
      simp only [hl]
      rw [ih, hcons]
    | some l =>
      have hcons : queryLiterals (queryParam :: rest) =
          { Name := queryParam.Name.Name, Value := l } :: queryLiterals rest := by
        simp only [queryLiterals, List.filterMap_cons, hl, Option.map]
      simp only [hl]
      rw [ih, hcons]
      simp

/-- Without reference type, `UnmarshalJSON` decodes the body into the request and then
assigns its fixed value to the field of every literal; it compares nothing. -/
theorem requestUnmarshalJSON_inlined {σ Scope : Type} (x : Externals σ Scope)
    (receiver typeName bodyField : String) (referenceIsPointer : Bool)
    (referenceLiteral : String) (literals : List literal) :
    requestUnmarshalJSON x receiver typeName bodyField "" referenceIsPointer referenceLiteral
        literals =
      [ unmarshalHeader receiver typeName,
        "type unmarshaler " ++ typeName,
        "var body unmarshaler",
        "if err := json.Unmarshal(data, &body); err != nil \x7b",
        "return err",
        "\x7d",
        "*" ++ receiver ++ " = " ++ typeName ++ "(body)" ] ++
      literals.map (literalAssignment x receiver) ++
      [ "return nil", "\x7d", "" ] := by
  have hlen : ("" : String).length = 0 := by decide
  simp [requestUnmarshalJSON, hlen, unmarshalHeader, literalAssignment, P, String.join,
    String.append_assoc, Function.comp_def]

/-- What `WriteRequestType` writes for a wrapper request with a body whose fields are
declared without error: the literals are those of the headers, of the query parameters and
of the body's fields, and the serialization methods are computed from them and from the
reference type, which is empty unless the body is a reference. -/
theorem writeRequestTypeParts_body {σ Scope : Type} (x : Externals σ Scope)
    (f : fileWriter Scope) (fernFilepath : FernFilepath) (endpoint : HttpEndpoint)
    (includeGenericOptionals : Bool) (s s' : σ) (sdkRequest : SdkRequest)
    (wrapper : SdkRequestWrapper) (requestBody : HttpRequestBody)
    (hrequest : endpoint.SdkRequest = some sdkRequest)
    (hwrapper : sdkRequest.Shape = .wrapper wrapper)
    (hbody : endpoint.RequestBody = some requestBody)
    (hok : (writeRequestTypeParts x f fernFilepath endpoint includeGenericOptionals s).result =
      .ok ((), s')) :
    ∃ (fieldLiterals : List literal) (referenceType : String) (referenceIsPointer : Bool)
      (referenceLiteral : String),
      (writeRequestTypeParts x f fernFilepath endpoint includeGenericOptionals s).literals =
          headerLiterals endpoint.Headers ++ queryLiterals endpoint.QueryParameters ++
            fieldLiterals ∧
        (writeRequestTypeParts x f fernFilepath endpoint includeGenericOptionals
            s).serialization =
          requestSerialization x
            (x.typeNameToReceiver wrapper.WrapperName.PascalCase.UnsafeName)
            wrapper.WrapperName.PascalCase.UnsafeName wrapper.BodyKey.PascalCase.UnsafeName
            referenceType referenceIsPointer referenceLiteral
            (headerLiterals endpoint.Headers ++ queryLiterals endpoint.QueryParameters ++
              fieldLiterals) ∧
        (requestBody.Reference = none →
          referenceType = "" ∧ referenceIsPointer = false ∧ referenceLiteral = "") ∧
        (∀ reference, requestBody.Reference = some reference →
          ∃ t, referenceType =
            trimPrefix (x.typeReferenceToGoType reference.RequestBodyType f.scope
              f.baseImportPath (x.fernFilepathToImportPath f.baseImportPath fernFilepath)
              false t).1 "*") := by
  unfold writeRequestTypeParts at hok ⊢
  simp only [hrequest, hwrapper, hbody, Option.bind, SdkRequestShape.Wrapper] at hok ⊢
  have hHl := requestHeaderFields_literals x f
    (x.fernFilepathToImportPath f.baseImportPath fernFilepath) endpoint.Headers
    [P ["type ", wrapper.WrapperName.PascalCase.UnsafeName, " struct \x7b"]] [] s
  generalize requestHeaderFields x f (x.fernFilepathToImportPath f.baseImportPath fernFilepath)
    endpoint.Headers
    ([P ["type ", wrapper.WrapperName.PascalCase.UnsafeName, " struct \x7b"]], [], s) = H
    at hok hHl ⊢
  obtain ⟨hlines, hliterals, hs⟩ := H
  simp only at hHl hok ⊢
  have hQl := requestQueryFields_literals x f
    (x.fernFilepathToImportPath f.baseImportPath fernFilepath) endpoint.QueryParameters
    hlines hliterals hs
  generalize requestQueryFields x f (x.fernFilepathToImportPath f.baseImportPath fernFilepath)
    endpoint.QueryParameters (hlines, hliterals, hs) = Q at hok hQl ⊢
  obtain ⟨qlines, qliterals, qs⟩ := Q
  simp only at hQl hok ⊢
  have hlits : qliterals =
      headerLiterals endpoint.Headers ++ queryLiterals endpoint.QueryParameters := by
    rw [hQl, hHl]
    simp
  subst hlits
  generalize requestBodyToFieldDeclaration x requestBody f
    (x.fernFilepathToImportPath f.baseImportPath fernFilepath)
    wrapper.BodyKey.PascalCase.UnsafeName includeGenericOptionals qs = declared at hok ⊢
  cases hd : declared.result with
  | error err =>
    rw [hd] at hok
    cases hok
  | ok r =>
    obtain ⟨fieldLiterals, s3⟩ := r
    simp only [hd]
    cases href : requestBody.Reference with
    | none =>
      refine ⟨fieldLiterals, "", false, "", rfl, rfl, fun _ => ⟨rfl, rfl, rfl⟩, ?_⟩
      intro reference h
      cases h
    | some reference =>
      refine ⟨fieldLiterals, _, _, _, rfl, rfl, ?_, ?_⟩
      · intro h
        cases h
      · intro other h
        injection h with h
        subst h
        exact ⟨s3, rfl⟩

/-- What `WriteRequestType` writes for a wrapper request without body: the literals of the
headers and of the query parameters, and no serialization method. -/
theorem writeRequestTypeParts_no_body {σ Scope : Type} (x : Externals σ Scope)
    (f : fileWriter Scope) (fernFilepath : FernFilepath) (endpoint : HttpEndpoint)
    (includeGenericOptionals : Bool) (s : σ) (sdkRequest : SdkRequest)
    (wrapper : SdkRequestWrapper)
    (hrequest : endpoint.SdkRequest = some sdkRequest)
    (hwrapper : sdkRequest.Shape = .wrapper wrapper)
    (hbody : endpoint.RequestBody = none) :
    (writeRequestTypeParts x f fernFilepath endpoint includeGenericOptionals s).literals =
        headerLiterals endpoint.Headers ++ queryLiterals endpoint.QueryParameters ∧
      (writeRequestTypeParts x f fernFilepath endpoint includeGenericOptionals
        s).serialization = [] := by
  unfold writeRequestTypeParts
  simp only [hrequest, hwrapper, hbody, Option.bind, SdkRequestShape.Wrapper]
  have hHl := requestHeaderFields_literals x f
    (x.fernFilepathToImportPath f.baseImportPath fernFilepath) endpoint.Headers
    [P ["type ", wrapper.WrapperName.PascalCase.UnsafeName, " struct \x7b"]] [] s
  generalize requestHeaderFields x f (x.fernFilepathToImportPath f.baseImportPath fernFilepath)
    endpoint.Headers
    ([P ["type ", wrapper.WrapperName.PascalCase.UnsafeName, " struct \x7b"]], [], s) = H
    at hHl ⊢
  obtain ⟨hlines, hliterals, hs⟩ := H
  simp only at hHl ⊢
  have hQl := requestQueryFields_literals x f
    (x.fernFilepathToImportPath f.baseImportPath fernFilepath) endpoint.QueryParameters
    hlines hliterals hs
  generalize requestQueryFields x f (x.fernFilepathToImportPath f.baseImportPath fernFilepath)
    endpoint.QueryParameters (hlines, hliterals, hs) = Q at hQl ⊢
  obtain ⟨qlines, qliterals, qs⟩ := Q
  simp only at hQl ⊢
  rw [hQl, hHl]
  simp

/-- The serialization methods are written exactly when there is a literal or a reference
type, and they are then the `UnmarshalJSON` and `MarshalJSON` pair. -/
theorem requestSerialization_pair {σ Scope : Type} (x : Externals σ Scope)
    (receiver typeName bodyField referenceType : String) (referenceIsPointer : Bool)
    (referenceLiteral : String) (literals : List literal) :
    (requestSerialization x receiver typeName bodyField referenceType referenceIsPointer
        referenceLiteral literals ≠ [] ↔ literals ≠ [] ∨ referenceType ≠ "") ∧
      (requestSerialization x receiver typeName bodyField referenceType referenceIsPointer
          referenceLiteral literals ≠ [] →
        ∃ rest1 rest2,
          requestSerialization x receiver typeName bodyField referenceType referenceIsPointer
              referenceLiteral literals =
            (unmarshalHeader receiver typeName :: rest1) ++
              (marshalHeader receiver typeName :: rest2)) := by
  have hlen : referenceType.length = 0 ↔ referenceType = "" := by
    constructor
    · intro h
      have hdata : referenceType.data = [] := List.length_eq_zero.1 h
      cases referenceType
      simp_all
    · intro h
      subst h
      decide
  have hpair : ¬ (literals.length = 0 ∧ referenceType.length = 0) →
      ∃ rest1 rest2,
        requestSerialization x receiver typeName bodyField referenceType referenceIsPointer
            referenceLiteral literals =
          (unmarshalHeader receiver typeName :: rest1) ++
            (marshalHeader receiver typeName :: rest2) := by
    intro hcond
    have h1 : P ["func (", receiver, " *", typeName, ") UnmarshalJSON(data []byte) error \x7b"] =
        unmarshalHeader receiver typeName := by
      simp [P, String.join, unmarshalHeader, String.append_assoc]
    have h2 : P ["func (", receiver, " *", typeName, ") MarshalJSON() ([]byte, error) \x7b"] =
        marshalHeader receiver typeName := by
      simp [P, String.join, marshalHeader, String.append_assoc]
    have hU : requestUnmarshalJSON x receiver typeName bodyField referenceType
        referenceIsPointer referenceLiteral literals =
        unmarshalHeader receiver typeName ::
          (requestUnmarshalJSON x receiver typeName bodyField referenceType referenceIsPointer
            referenceLiteral literals).tail := by
      simp only [requestUnmarshalJSON, h1, List.singleton_append, List.cons_append,
        List.tail_cons, List.append_assoc]
    have hM : requestMarshalJSON x receiver typeName bodyField referenceType referenceLiteral
        literals =
        marshalHeader receiver typeName ::
          (requestMarshalJSON x receiver typeName bodyField referenceType referenceLiteral
            literals).tail := by
      simp only [requestMarshalJSON, h2, List.singleton_append, List.cons_append,
        List.tail_cons, List.append_assoc]
    refine ⟨(requestUnmarshalJSON x receiver typeName bodyField referenceType
        referenceIsPointer referenceLiteral literals).tail,
      (requestMarshalJSON x receiver typeName bodyField referenceType referenceLiteral
        literals).tail, ?_⟩
    rw [← hU, ← hM]
    simp only [requestSerialization, hcond, if_false]
  constructor
  · constructor
    · intro hne
      by_contra hcon
      simp only [not_or, not_not] at hcon
      apply hne
      simp [requestSerialization, hcon.1, hcon.2]
    · intro hcond hnil
      have hc : ¬ (literals.length = 0 ∧ referenceType.length = 0) := by
        rintro ⟨h1, h2⟩
        rcases hcond with h | h
        · exact h (List.length_eq_zero.1 h1)
        · exact h (hlen.1 h2)
      obtain ⟨rest1, rest2, h⟩ := hpair hc
      rw [h] at hnil
      cases hnil
  · intro hne
    apply hpair
    rintro ⟨h1, h2⟩
    apply hne
    simp [requestSerialization, h1, h2]

/-- Counterexample to C18 as stated: for `CreateUser`, whose header `X-API-Version` is the
literal `"v1"`, the `UnmarshalJSON` written by `WriteRequestType` assigns `"v1"` to the field
of the literal after decoding; no line compares a value with `"v1"`. -/
theorem WriteRequestType_literal_counterexample :
    (WriteRequestType plainExternals emptyWriter rootFilepath createUserEndpoint false
        ()).lines =
      [ "type CreateUserRequest struct \x7b",
        "Name any",
        "apiVersion string",
        "\x7d",
        "",
        "func (r *CreateUserRequest) APIVersion()string\x7b",
        "return r.apiVersion",
        "\x7d",
        "",
        "func (r *CreateUserRequest) UnmarshalJSON(data []byte) error \x7b",
        "type unmarshaler CreateUserRequest",
        "var body unmarshaler",
        "if err := json.Unmarshal(data, &body); err != nil \x7b",
        "return err",
        "\x7d",
        "*r = CreateUserRequest(body)",
        "r.apiVersion = \"v1\"",
        "return nil",
        "\x7d",
        "",
        "func (r *CreateUserRequest) MarshalJSON() ([]byte, error) \x7b",
        "type embed CreateUserRequest",
        "var marshaler = struct\x7b",
        "embed",
        "APIVersion string `json:\"X-API-Version\"`",
        "\x7d\x7b",
        "embed: embed(*r),",
        "APIVersion: \"v1\",",
        "\x7d",
        "return json.Marshal(marshaler)",
        "\x7d",
        "" ] ∧
      (WriteRequestType plainExternals emptyWriter rootFilepath createUserEndpoint false
        ()).lines.any (containsText "!= \"v1\"") = false := by
  constructor
  · rfl
  · decide

/-- The serialization methods among the parts of a wrapper request written without error,
the type mapper giving a non-empty type for a reference body: they are written if and only
if the endpoint has a request body and either one literal at least was collected or the body
is a reference, and they are then `UnmarshalJSON` followed by `MarshalJSON`. -/
theorem requestSerialization_iff {σ Scope : Type} (x : Externals σ Scope)
    (f : fileWriter Scope) (fernFilepath : FernFilepath) (endpoint : HttpEndpoint)
    (includeGenericOptionals : Bool) (s s' : σ) (sdkRequest : SdkRequest)
    (wrapper : SdkRequestWrapper)
    (hrequest : endpoint.SdkRequest = some sdkRequest)
    (hwrapper : sdkRequest.Shape = .wrapper wrapper)
    (hmapper : ∀ t scope baseImportPath importPath flag s0,
      trimPrefix (x.typeReferenceToGoType t scope baseImportPath importPath flag s0).1 "*" ≠ "")
    (hok : (writeRequestTypeParts x f fernFilepath endpoint includeGenericOptionals s).result =
      .ok ((), s')) :
    ((writeRequestTypeParts x f fernFilepath endpoint includeGenericOptionals
          s).serialization ≠ [] ↔
        ∃ requestBody, endpoint.RequestBody = some requestBody ∧
          ((writeRequestTypeParts x f fernFilepath endpoint includeGenericOptionals
              s).literals ≠ [] ∨ requestBody.Reference.isSome = true)) ∧
      ((writeRequestTypeParts x f fernFilepath endpoint includeGenericOptionals
          s).serialization ≠ [] →
        ∃ rest1 rest2,
          (writeRequestTypeParts x f fernFilepath endpoint includeGenericOptionals
              s).serialization =
            (unmarshalHeader (x.typeNameToReceiver wrapper.WrapperName.PascalCase.UnsafeName)
                wrapper.WrapperName.PascalCase.UnsafeName :: rest1) ++
              (marshalHeader (x.typeNameToReceiver wrapper.WrapperName.PascalCase.UnsafeName)
                wrapper.WrapperName.PascalCase.UnsafeName :: rest2)) ∧
      (∃ fieldLiterals,
        (writeRequestTypeParts x f fernFilepath endpoint includeGenericOptionals s).literals =
          headerLiterals endpoint.Headers ++ queryLiterals endpoint.QueryParameters ++
            fieldLiterals) ∧
      (endpoint.RequestBody = none →
        (writeRequestTypeParts x f fernFilepath endpoint includeGenericOptionals s).literals =
          headerLiterals endpoint.Headers ++ queryLiterals endpoint.QueryParameters) := by
  cases hbody : endpoint.RequestBody with
  | none =>
    obtain ⟨hlits, hser⟩ := writeRequestTypeParts_no_body x f fernFilepath endpoint
      includeGenericOptionals s sdkRequest wrapper hrequest hwrapper hbody
    refine ⟨?_, ?_, ⟨[], by simpa using hlits⟩, fun _ => hlits⟩
    · rw [hser]
      simp
    · intro h
      exact absurd hser h
  | some requestBody =>
    obtain ⟨fieldLiterals, referenceType, referenceIsPointer, referenceLiteral, hlits, hser,
      hnone, hsome⟩ := writeRequestTypeParts_body x f fernFilepath endpoint
        includeGenericOptionals s s' sdkRequest wrapper requestBody hrequest hwrapper hbody hok
    have hpair := requestSerialization_pair x
      (x.typeNameToReceiver wrapper.WrapperName.PascalCase.UnsafeName)
      wrapper.WrapperName.PascalCase.UnsafeName wrapper.BodyKey.PascalCase.UnsafeName
      referenceType referenceIsPointer referenceLiteral
      (headerLiterals endpoint.Headers ++ queryLiterals endpoint.QueryParameters ++
        fieldLiterals)
    have hreference : referenceType ≠ "" ↔ requestBody.Reference.isSome = true := by
      cases href : requestBody.Reference with
      | none => simp [(hnone href).1]
      | some reference =>
        obtain ⟨t, ht⟩ := hsome reference href
        simp only [Option.isSome_some, iff_true]
        rw [ht]
        exact hmapper _ _ _ _ _ _
    refine ⟨?_, ?_, ⟨fieldLiterals, hlits⟩, fun h => by cases h⟩
    · rw [hser, hlits, hpair.1, hreference]
      constructor
      · intro h
        exact ⟨requestBody, rfl, h⟩
      · rintro ⟨other, hother, h⟩
        injection hother with hother
        subst hother
        exact h
    · rw [hser]
      exact hpair.2

/-- The type mapper of `plainExternals` gives a non-empty type. -/
theorem plainExternals_mapper (t : TypeReference) (scope : Unit)
    (baseImportPath importPath : String) (flag : Bool) (s0 : Unit) :
    trimPrefix (plainExternals.typeReferenceToGoType t scope baseImportPath importPath flag
      s0).1 "*" ≠ "" := by
  show trimPrefix "any" "*" ≠ ""
  decide

/-! ## Structured errors: the `Unwrap` method -/

/-- The code at the failing input of C21: for the error declaration `NotFoundError`, which
has no body type, no line written by `WriteError` mentions `Unwrap`, while for
`ConflictError`, which has a body, the last lines written are the `Unwrap` method that
returns the embedded API error. -/
theorem WriteError_unwrap_missing :
    (WriteError plainExternals emptyWriter notFoundError ()).lines.any (containsText "Unwrap") =
        false ∧
      (WriteError plainExternals emptyWriter conflictError ()).lines.drop 19 =
        [ "func (r*ConflictError) Unwrap() error \x7b",
          "return r.APIError",
          "\x7d",
          "" ] := by
  constructor <;> rfl

/-! ## Client options: properties -/

/-- A loop over a list writes the same lines, and ends in the same state, without the
elements for which its body writes nothing and keeps the state. -/
theorem writeEach_filter {σ α : Type} (body : α → σ → List String × σ) (keep : α → Bool)
    (hskip : ∀ a s, keep a = false → body a s = ([], s)) (l : List α) (s : σ) :
    writeEach body (l.filter keep) s = writeEach body l s := by
  induction l generalizing s with
  | nil => rfl
  | cons a rest ih =>
    cases hkeep : keep a with
    | true =>
      rw [List.filter_cons_of_pos hkeep]
      simp only [writeEach, ih]
    | false =>
      rw [List.filter_cons_of_neg (by simp [hkeep])]
      simp only [writeEach, hskip a s hkeep, ih, List.nil_append]

/-- The lines and the final state of the loop of `WriteClientOptions` over the auth schemes
depend neither on the index nor on the example kept so far. -/
theorem authOptionsLoop_lines {σ Scope : Type} (x : Externals σ Scope) (f : fileWriter Scope)
    (importPath clientOptionType clientOptionsType : String) (authDocs : Option String) (i : Nat)
    (schemes : List AuthScheme) (option : Option Expr) (s : σ) :
    ((authOptionsLoop x f importPath clientOptionType clientOptionsType authDocs i schemes option
        s).1.1,
      (authOptionsLoop x f importPath clientOptionType clientOptionsType authDocs i schemes option
        s).2) =
      writeEach (fun authScheme s =>
        (optionLines clientOptionsType
          (authSchemeOption x f importPath clientOptionType authDocs authScheme s).1,
          (authSchemeOption x f importPath clientOptionType authDocs authScheme s).2)) schemes s := by
  induction schemes generalizing i option s with
  | nil => rfl
  | cons authScheme rest ih =>
    simp only [authOptionsLoop, writeEach]
    rw [← ih]

/-- From an index other than 0 on, the loop over the auth schemes keeps the example it was
given. -/
theorem authOptionsLoop_option {σ Scope : Type} (x : Externals σ Scope) (f : fileWriter Scope)
    (importPath clientOptionType clientOptionsType : String) (authDocs : Option String) (i : Nat)
    (schemes : List AuthScheme) (option : Option Expr) (s : σ) :
    (authOptionsLoop x f importPath clientOptionType clientOptionsType authDocs (i + 1) schemes
      option s).1.2 = option := by
  induction schemes generalizing i s with
  | nil => rfl
  | cons authScheme rest ih =>
    simp only [authOptionsLoop, Nat.add_one_ne_zero, if_false]
    exact ih _ _

/-- The example that the loop over the auth schemes ends with is the example of the scheme
at index 0, if that scheme has one. -/
theorem authOptionsLoop_first {σ Scope : Type} (x : Externals σ Scope) (f : fileWriter Scope)
    (importPath clientOptionType clientOptionsType : String) (authDocs : Option String)
    (schemes : List AuthScheme) (s : σ) :
    (authOptionsLoop x f importPath clientOptionType clientOptionsType authDocs 0 schemes none
      s).1.2 = schemes.head?.bind (authSchemeExample importPath) := by
  cases schemes with
  | nil => rfl
  | cons authScheme rest =>
    simp only [authOptionsLoop]
    rw [authOptionsLoop_option]
    cases h : authSchemeExample importPath authScheme <;> simp [h]

/-- A scheme has an example exactly when it is not a literal-valued header scheme. -/
theorem authSchemeExample_isSome (importPath : String) (authScheme : AuthScheme) :
    (authSchemeExample importPath authScheme).isSome = !isLiteralScheme authScheme := by
  cases authScheme with
  | bearer b => rfl
  | basic => rfl
  | header h =>
    simp only [authSchemeExample, isLiteralScheme]
    cases h.ValueType.Container.bind ContainerType.Literal <;> rfl

/-- A scheme has an option function exactly when it is not a literal-valued header
scheme. -/
theorem authSchemeOption_isSome {σ Scope : Type} (x : Externals σ Scope) (f : fileWriter Scope)
    (importPath clientOptionType : String) (authDocs : Option String)
    (authScheme : AuthScheme) (s : σ) :
    (authSchemeOption x f importPath clientOptionType authDocs authScheme s).1.isSome =
      !isLiteralScheme authScheme := by
  cases authScheme with
  | bearer b => rfl
  | basic => rfl
  | header h =>
    simp only [authSchemeOption, isLiteralScheme]
    cases h.ValueType.Container.bind ContainerType.Literal <;> rfl

/-- For a literal-valued header scheme the loops write no field and no option function, and
keep the state. -/
theorem authScheme_literal_skipped {σ Scope : Type} (x : Externals σ Scope)
    (f : fileWriter Scope) (importPath clientOptionType : String) (authDocs : Option String)
    (authScheme : AuthScheme) (s : σ) (hliteral : (!isLiteralScheme authScheme) = false) :
    authSchemeFields x f importPath authScheme s = ([], s) ∧
      authSchemeOption x f importPath clientOptionType authDocs authScheme s = (none, s) := by
  cases authScheme with
  | bearer b => simp [isLiteralScheme] at hliteral
  | basic => simp [isLiteralScheme] at hliteral
  | header h =>
    simp only [isLiteralScheme, Bool.not_eq_false'] at hliteral
    cases hl : h.ValueType.Container.bind ContainerType.Literal with
    | none => simp [hl] at hliteral
    | some l => simp only [authSchemeFields, authSchemeOption, hl, and_self]

/-- For a literal-valued custom header the loops write no field and no option function, and
keep the state. -/
theorem header_literal_skipped {σ Scope : Type} (x : Externals σ Scope)
    (f : fileWriter Scope) (importPath clientOptionType : String) (header : HttpHeader) (s : σ)
    (hliteral : (!isLiteralHeader header) = false) :
    headerFields x f importPath header s = ([], s) ∧
      headerOption x f importPath clientOptionType header s = (none, s) := by
  simp only [isLiteralHeader, Bool.not_eq_false'] at hliteral
  cases hl : header.ValueType.Container.bind ContainerType.Literal with
  | none => simp [hl] at hliteral
  | some l => simp only [headerFields, headerOption, hl, and_self]

/-- The fields of `ClientOptions` are those written without the literal-valued header
schemes and custom headers. -/
theorem clientOptionsFields_filter {σ Scope : Type} (x : Externals σ Scope)
    (f : fileWriter Scope) (importPath : String) (schemes : List AuthScheme)
    (headers : List HttpHeader) (s : σ) :
    clientOptionsFields x f importPath
        (schemes.filter fun authScheme => !isLiteralScheme authScheme)
        (headers.filter fun header => !isLiteralHeader header) s =
      clientOptionsFields x f importPath schemes headers s := by
  unfold clientOptionsFields
  rw [writeEach_filter (authSchemeFields x f importPath) _
    (fun authScheme s1 hkeep => (authScheme_literal_skipped x f importPath "" none authScheme s1
      hkeep).1)]
  simp only
  rw [writeEach_filter (headerFields x f importPath) _
    (fun header s1 hkeep => (header_literal_skipped x f importPath "" header s1 hkeep).1)]

/-- The lines of `WriteClientOptions` are those written without the literal-valued header
schemes and custom headers. -/
theorem WriteClientOptions_lines_filter {σ Scope : Type} (x : Externals σ Scope)
    (f : fileWriter Scope) (auth : ApiAuth) (headers : List HttpHeader) (s : σ) :
    (WriteClientOptions x f (some (withoutLiteralSchemes auth)) (withoutLiteralHeaders headers)
        s).lines =
      (WriteClientOptions x f (some auth) headers s).lines := by
  have hloop := fun schemes =>
    authOptionsLoop_lines x f (x.pathJoin f.baseImportPath "client") "core.ClientOption"
      "*core.ClientOptions" auth.Docs 0 schemes none s
  have hschemes := writeEach_filter (fun authScheme s =>
      (optionLines "*core.ClientOptions"
        (authSchemeOption x f (x.pathJoin f.baseImportPath "client") "core.ClientOption"
          auth.Docs authScheme s).1,
        (authSchemeOption x f (x.pathJoin f.baseImportPath "client") "core.ClientOption"
          auth.Docs authScheme s).2))
    (fun authScheme => !isLiteralScheme authScheme)
    (by
      intro authScheme s1 hkeep
      simp only [(authScheme_literal_skipped x f (x.pathJoin f.baseImportPath "client")
        "core.ClientOption" auth.Docs authScheme s1 hkeep).2, optionLines])
    auth.Schemes s
  have hauth := (hloop (auth.Schemes.filter fun authScheme => !isLiteralScheme authScheme)).trans
    (hschemes.trans (hloop auth.Schemes).symm)
  have hlines := congrArg Prod.fst hauth
  have hstate := congrArg Prod.snd hauth
  simp only at hlines hstate
  simp only [WriteClientOptions, withoutLiteralSchemes, withoutLiteralHeaders, hlines, hstate]
  rw [writeEach_filter]
  intro header s1 hkeep
  simp only [(header_literal_skipped x f (x.pathJoin f.baseImportPath "client")
    "core.ClientOption" header s1 hkeep).2, optionLines]

/-- With an auth scheme or a custom header, every statement of the schemes and headers is
among the lines of `WriteClientOptionsDefinition`, inside `ToHeader`. -/
theorem toHeaderStatements_mem {σ Scope : Type} (x : Externals σ Scope) (f : fileWriter Scope)
    (auth : ApiAuth) (headers : List HttpHeader) (sdkConfig : Option SdkConfig)
    (moduleConfig : Option ModuleConfig) (sdkVersion : String) (s : σ) (line : String)
    (hline : line ∈ toHeaderStatements x.literalToValue auth.Schemes headers) :
    line ∈ (WriteClientOptionsDefinition x f (some auth) headers sdkConfig moduleConfig
      sdkVersion s).lines := by
  have hcond : ¬ (auth.Schemes.length = 0 ∧ headers.length = 0) := by
    rintro ⟨hs, hh⟩
    rw [List.length_eq_zero] at hs hh
    simp [toHeaderStatements, hs, hh] at hline
  simp only [WriteClientOptionsDefinition, if_neg hcond]
  apply List.mem_append_left
  apply List.mem_append_right
  apply List.mem_append_left
  apply List.mem_append_right
  exact hline

/-- Counterexample to C23 as stated: with a literal-valued header scheme at index 0 followed
by a bearer scheme, `WriteClientOptions` writes the option `WithToken` of the bearer scheme
and returns no example invocation. -/
theorem WriteClientOptions_example_counterexample :
    (WriteClientOptions plainExternals emptyWriter (some literalFirstAuth) [] ()).result =
        .ok (none, ()) ∧
      "func WithToken(token string) core.ClientOption \x7b" ∈
        (WriteClientOptions plainExternals emptyWriter (some literalFirstAuth) [] ()).lines := by
  constructor
  · rfl
  · decide

/-- Claim C23 (amended): `WriteClientOptions` returns the example invocation of the auth
scheme at index 0 when that scheme is a bearer, basic or non-literal header scheme, and
returns no example otherwise (no scheme, or a literal-valued header scheme at index 0),
whatever the later schemes; a scheme has an example exactly when it has an option function,
that is when it is not a literal-valued header scheme. -/
theorem WriteClientOptions_first_scheme {σ Scope : Type} (x : Externals σ Scope)
    (f : fileWriter Scope) (auth : ApiAuth) (headers : List HttpHeader) (s : σ) :
    (∃ s', (WriteClientOptions x f (some auth) headers s).result =
      .ok ((auth.Schemes.head?.bind
        (authSchemeExample (x.pathJoin f.baseImportPath "client"))).map
          (fun invocation => { Option := invocation }), s')) ∧
      ∀ authScheme s1,
        (authSchemeExample (x.pathJoin f.baseImportPath "client") authScheme).isSome =
            (!isLiteralScheme authScheme) ∧
          (authSchemeOption x f (x.pathJoin f.baseImportPath "client") "core.ClientOption"
            auth.Docs authScheme s1).1.isSome = !isLiteralScheme authScheme := by
  constructor
  · have hfirst := authOptionsLoop_first x f (x.pathJoin f.baseImportPath "client")
      "core.ClientOption" "*core.ClientOptions" auth.Docs auth.Schemes s
    simp only [WriteClientOptions]
    rw [hfirst]
    cases auth.Schemes.head?.bind (authSchemeExample (x.pathJoin f.baseImportPath "client")) with
    | none => exact ⟨_, rfl⟩
    | some invocation => exact ⟨_, rfl⟩
  · intro authScheme s1
    exact ⟨authSchemeExample_isSome _ authScheme, authSchemeOption_isSome x f _ _ _ authScheme s1⟩

/-! ## Multipart bodies: properties -/

/-- A format is that of a primitive exactly when the type is ultimately a primitive. -/
theorem formatForValueType_isPrimitive (t : TypeReference) :
    (formatForValueType t).IsPrimitive = (maybePrimitive t).isSome := by
  unfold formatForValueType
  cases h : maybePrimitive t with
  | none => rfl
  | some p => cases p <;> rfl

/-- The lines of a body property of a multipart request are consecutive lines of the
multipart block. -/
theorem fileBodyPropertyLines_consecutive (literalToValue : Literal → String)
    (quote : String → String) (receiver : String) (endpoint : endpoint)
    (property : InlinedRequestBodyProperty) (hmem : property ∈ endpoint.FileBodyProperties) :
    fileBodyPropertyLines literalToValue endpoint property <:+:
      multipartLines literalToValue quote receiver endpoint := by
  have hlen : endpoint.FileProperties.length > 0 ∨ endpoint.FileBodyProperties.length > 0 :=
    Or.inr (List.length_pos_of_mem hmem)
  unfold multipartLines
  rw [if_pos hlen]
  have hflat : fileBodyPropertyLines literalToValue endpoint property <:+:
      endpoint.FileBodyProperties.flatMap (fileBodyPropertyLines literalToValue endpoint) := by
    rw [List.flatMap]
    exact List.infix_of_mem_flatten (List.mem_map_of_mem _ hmem)
  exact hflat.trans (List.infix_append _ _ _)

/-- The code at the failing input of C28: for an optional container directly around a list
or a set, `formatForValueType` returns the prefix `*`, not an empty prefix, so that for the
body property `optionalListOfStrings` the method written by `WriteClient` passes the
dereferenced field `*request.OptionalListOfStrings` to `core.WriteMultipartJSON`. -/
theorem formatForValueType_optional_collection (t : TypeReference) :
    formatForValueType (.container (.optional (.container (.list t)))) =
        { Prefix := "*", Suffix := "", IsOptional := true, IsPrimitive := false } ∧
      formatForValueType (.container (.optional (.container (.set t)))) =
        { Prefix := "*", Suffix := "", IsOptional := true, IsPrimitive := false } ∧
      "if err := core.WriteMultipartJSON(writer, \"optionalListOfStrings\", *request.OptionalListOfStrings); err != nil \x7b" ∈
        (WriteClient plainExternals emptyWriter [postEndpoint] [] none none rootFilepath none
          none ()).lines := by
  refine ⟨rfl, rfl, ?_⟩
  decide

/-! ## The call signature: properties -/

/-- The request block of a returned endpoint: its signature, request parameter name and
request value name are those that `requestParameters` gives after the path parameters and
the file parameters. -/
theorem endpointFromIR_request {σ Scope : Type} (x : Externals σ Scope) (f : fileWriter Scope)
    (fernFilepath : FernFilepath) (irEndpoint : HttpEndpoint)
    (irEnvironmentsConfig : Option EnvironmentsConfig) (receiver : String) (s s' : σ)
    (ep : endpoint)
    (hok : endpointFromIR x f fernFilepath irEndpoint irEnvironmentsConfig receiver s =
      .ok (ep, s')) :
    ∃ s2, requestParameters x f fernFilepath (x.Child f.scope s).1 irEndpoint
        (match irEndpoint.RequestBody.bind HttpRequestBody.FileUpload with
         | some fileUpload =>
           (filePropertiesLoop fileUpload.Properties
             ((pathParametersLoop x f (x.Child f.scope s).1 irEndpoint.AllPathParameters
               ("ctx context.Context", [], (x.Child f.scope s).2)).1, [], [])).1
         | none =>
           (pathParametersLoop x f (x.Child f.scope s).1 irEndpoint.AllPathParameters
             ("ctx context.Context", [], (x.Child f.scope s).2)).1)
        (pathParametersLoop x f (x.Child f.scope s).1 irEndpoint.AllPathParameters
          ("ctx context.Context", [], (x.Child f.scope s).2)).2.2 =
      .ok ((ep.SignatureParameters, ep.RequestParameterName, ep.RequestValueName), s2) := by
  unfold endpointFromIR at hok
  simp only at hok
  split at hok
  · cases hok
  · rename_i sig rpn rvn s2 hreq
    split at hok
    · cases hok
    · split at hok
      · cases hok
      · injection hok with hok
        injection hok with hep _
        refine ⟨s2, ?_⟩
        rw [← hep]
        simp only
        rw [← hreq]
        cases irEndpoint.RequestBody.bind HttpRequestBody.FileUpload <;> rfl

/-- The code at the failing input of C26: for the file-upload endpoint
`JustFileWithQueryParams`, with one file, no body property and the query parameter
`maybeString`, `needsRequestParameter` is false, the signature written by `WriteClient` has
no request parameter, and the query-parameter code reads the field `MaybeString` of a
request parameter whose name is empty. -/
theorem WriteClient_justFile_query_parameters :
    needsRequestParameter justFileWithQueryParamsEndpoint = false ∧
      ((WriteClient plainExternals emptyWriter [justFileWithQueryParamsEndpoint] [] none none
        rootFilepath none none ()).lines.drop 19).take 11 =
      [ "func (c *Client) JustFileWithQueryParams(ctx context.Context, file io.Reader) error \x7b",
        "baseURL := \"\"",
        "if c.baseURL != \"\" \x7b",
        "baseURL = c.baseURL",
        "\x7d",
        "endpointURL := baseURL",
        "",
        "queryParams := make(url.Values)",
        "if .MaybeString!= nil \x7b",
        "queryParams.Add(\"maybeString\", fmt.Sprintf(\"%v\", *.MaybeString))",
        "\x7d" ] := by
  constructor <;> rfl

/-- For a file-upload body, the request value that `requestParameters` gives is
`requestBuffer` with an SDK request and empty without. -/
theorem requestParameters_fileUpload {σ Scope : Type} (x : Externals σ Scope)
    (f : fileWriter Scope) (fernFilepath : FernFilepath) (scope : Scope)
    (irEndpoint : HttpEndpoint) (signatureParameters : String) (s s2 : σ)
    (signature requestParameterName requestValueName : String)
    (fileUpload : FileUploadRequest)
    (hbody : irEndpoint.RequestBody = some (.fileUpload fileUpload))
    (hok : requestParameters x f fernFilepath scope irEndpoint signatureParameters s =
      .ok ((signature, requestParameterName, requestValueName), s2)) :
    requestValueName = if irEndpoint.SdkRequest.isSome then "requestBuffer" else "" := by
  unfold requestParameters at hok
  cases hsdk : irEndpoint.SdkRequest with
  | none =>
    simp only [hsdk] at hok
    injection hok with hok
    injection hok with hok _
    injection hok with _ hok
    injection hok with _ hok
    simp [← hok]
  | some sdkRequest =>
    simp only [hsdk, hbody, Option.bind, HttpRequestBody.FileUpload, Option.isSome,
      if_true] at hok
    split at hok
    · split at hok
      · cases hok
      · injection hok with hok
        injection hok with hok _
        injection hok with _ hok
        injection hok with _ hok
        simp [← hok]
    · injection hok with hok
      injection hok with hok _
      injection hok with _ hok
      injection hok with _ hok
      simp [← hok]

/-- Counterexample to C27 as stated: for the file-upload endpoint `JustFile` without an SDK
request, the request value name of the returned endpoint is empty, and the call written by
`WriteClient` passes no `Request`. -/
theorem endpointFromIR_fileUpload_counterexample :
    (endpointFromIR plainExternals emptyWriter rootFilepath justFileWithoutSdkRequest none "c"
        ()).map (fun r => r.1.RequestValueName) = .ok "" ∧
      (WriteClient plainExternals emptyWriter [justFileWithoutSdkRequest] [] none none
        rootFilepath none none ()).lines.drop 44 =
        [ "if err := c.caller.Call(",
          "ctx,",
          "&core.CallParams\x7b",
          "URL: endpointURL, ",
          "Method:http.MethodPost,",
          "Headers:c.header,",
          "\x7d,",
          "); err != nil \x7b",
          "return err",
          "\x7d",
          "return nil",
          "\x7d",
          "" ] := by
  constructor <;> rfl

/-- Claim C27 (amended): for every endpoint whose request body is a file upload and whose
SDK request is present, the endpoint returned by `endpointFromIR` has the request value name
`requestBuffer`, and the call written for it passes `Request: requestBuffer,`, whether or not
the signature has a request parameter. -/
theorem endpointFromIR_fileUpload_requestBuffer {σ Scope : Type} (x : Externals σ Scope)
    (f : fileWriter Scope) (fernFilepath : FernFilepath) (irEndpoint : HttpEndpoint)
    (irEnvironmentsConfig : Option EnvironmentsConfig) (receiver : String) (s s' : σ)
    (ep : endpoint) (fileUpload : FileUploadRequest) (sdkRequest : SdkRequest)
    (hbody : irEndpoint.RequestBody = some (.fileUpload fileUpload))
    (hsdk : irEndpoint.SdkRequest = some sdkRequest)
    (hok : endpointFromIR x f fernFilepath irEndpoint irEnvironmentsConfig receiver s =
      .ok (ep, s')) :
    ep.RequestValueName = "requestBuffer" ∧
      "Request: requestBuffer," ∈ callLines receiver ep := by
  obtain ⟨s2, hreq⟩ := endpointFromIR_request x f fernFilepath irEndpoint irEnvironmentsConfig
    receiver s s' ep hok
  have hvalue := requestParameters_fileUpload x f fernFilepath _ irEndpoint _ _ s2 _ _ _
    fileUpload hbody hreq
  rw [hsdk] at hvalue
  have hname : ep.RequestValueName = "requestBuffer" := by simpa using hvalue
  refine ⟨hname, ?_⟩
  unfold callLines
  split <;> simp [hname, P, String.join]

/-- Witness of C27 at the endpoint `JustFile` with its wrapper request: the signature has no
request parameter and the request value is `requestBuffer`. -/
theorem endpointFromIR_fileUpload_requestBuffer_witness :
    (justFileClientEndpoint.RequestValueName = "requestBuffer" ∧
      "Request: requestBuffer," ∈ callLines "c" justFileClientEndpoint) ∧
      justFileClientEndpoint.SignatureParameters = "ctx context.Context, file io.Reader" :=
  ⟨endpointFromIR_fileUpload_requestBuffer plainExternals emptyWriter rootFilepath
    justFileEndpoint none "c" () () justFileClientEndpoint
    { Name := plainName "JustFileRequest",
      Properties := [{ File := some fileProperty, BodyProperty := none }] }
    (wrapperRequest "JustFileRequest") rfl rfl rfl, rfl⟩

/-- The code at the failing input of C29, with a scope whose `Add` returns a free candidate
unchanged and a fresh name otherwise: two path parameters named `request` get the distinct
names `request` and `request_`, while for the path parameter `request` and the request
parameter `request` the signature has the name `request` twice. -/
theorem signature_names_collide :
    (endpointFromIR scopedExternals emptyWriter rootFilepath repeatedPathEndpoint none "c"
        []).map (fun r => parameterNames r.1.SignatureParameters) =
        .ok ["ctx", "request", "request_"] ∧
      (endpointFromIR scopedExternals emptyWriter rootFilepath updateUserEndpoint none "c"
        []).map (fun r => r.1.SignatureParameters) =
        .ok "ctx context.Context, request any, request *sdk.UpdateUserRequest" ∧
      (endpointFromIR scopedExternals emptyWriter rootFilepath updateUserEndpoint none "c"
        []).map (fun r => parameterNames r.1.SignatureParameters) =
        .ok ["ctx", "request", "request"] := by
  refine ⟨?_, ?_, ?_⟩ <;> rfl

/-- Folding `++` over strings from an accumulator appends the fold from the empty string. -/
theorem foldl_append_string (l : List String) (acc : String) :
    l.foldl (fun r s => r ++ s) acc = acc ++ l.foldl (fun r s => r ++ s) "" := by
  induction l generalizing acc with
  | nil => simp
  | cons a rest ih =>
    simp only [List.foldl_cons]
    rw [ih (acc ++ a), ih ("" ++ a), String.empty_append, String.append_assoc]

/-- Joining a list of strings starts with its head. -/
theorem join_cons (a : String) (l : List String) :
    String.join (a :: l) = a ++ String.join l := by
  unfold String.join
  simp only [List.foldl_cons]
  rw [foldl_append_string, String.empty_append]

/-- The loop over the path parameters appends to the signature one segment per path
parameter, in order, made of the name that the scope returns for it and of its Go type. -/
theorem pathParametersLoop_signature {σ Scope : Type} (x : Externals σ Scope)
    (f : fileWriter Scope) (scope : Scope) (pathParameters : List PathParameter)
    (signatureParameters : String) (pathParameterNames : List String) (s : σ) :
    ∃ segments,
      (pathParametersLoop x f scope pathParameters
        (signatureParameters, pathParameterNames, s)).1 =
        signatureParameters ++ String.join segments ∧
      List.Forall₂ (fun pathParameter segment => ∃ s1 s2,
          segment = ", " ++ (x.Add scope pathParameter.Name.CamelCase.SafeName s1).1 ++ " " ++
            (x.typeReferenceToGoType pathParameter.ValueType scope f.baseImportPath "" false
              s2).1)
        pathParameters segments := by
  induction pathParameters generalizing signatureParameters pathParameterNames s with
  | nil => exact ⟨[], by simp [pathParametersLoop, String.join], List.Forall₂.nil⟩
  | cons pathParameter rest ih =>
    obtain ⟨segments, hsig, hall⟩ := ih
      (signatureParameters ++ ", " ++
        (x.Add scope pathParameter.Name.CamelCase.SafeName s).1 ++ " " ++
        (x.typeReferenceToGoType pathParameter.ValueType scope f.baseImportPath "" false
          (x.Add scope pathParameter.Name.CamelCase.SafeName s).2).1)
      (pathParameterNames ++ [(x.Add scope pathParameter.Name.CamelCase.SafeName s).1])
      (x.typeReferenceToGoType pathParameter.ValueType scope f.baseImportPath "" false
          (x.Add scope pathParameter.Name.CamelCase.SafeName s).2).2
    refine ⟨_ :: segments, ?_,
      List.Forall₂.cons ⟨s, (x.Add scope pathParameter.Name.CamelCase.SafeName s).2, rfl⟩ hall⟩
    rw [pathParametersLoop]
    simp only
    rw [hsig, join_cons]
    simp only [String.append_assoc]

/-- The loop over the properties of a file upload appends to the signature one `io.Reader`
parameter per file property, in order, and collects the files and the body properties. -/
theorem filePropertiesLoop_signature (properties : List FileUploadRequestProperty)
    (signatureParameters : String) (fileProperties : List FileProperty)
    (fileBodyProperties : List InlinedRequestBodyProperty) :
    filePropertiesLoop properties (signatureParameters, fileProperties, fileBodyProperties) =
      (signatureParameters ++ String.join
          ((properties.filterMap FileUploadRequestProperty.File).map fun file =>
            ", " ++ file.Key.Name.CamelCase.SafeName ++ " io.Reader"),
        fileProperties ++ properties.filterMap FileUploadRequestProperty.File,
        fileBodyProperties ++ properties.filterMap FileUploadRequestProperty.BodyProperty) := by
  induction properties generalizing signatureParameters fileProperties fileBodyProperties with
  | nil => simp [filePropertiesLoop, String.join]
  | cons property rest ih =>
    rw [filePropertiesLoop]
    cases hfile : property.File <;> cases hbody : property.BodyProperty <;>
      simp [ih, hfile, hbody, List.filterMap_cons, join_cons, String.append_assoc]

/-- A parameter of a signature is not the empty string. -/
theorem parameter_ne_empty (name type : String) : ", " ++ name ++ " " ++ type ≠ "" := by
  intro h
  have hlen := congrArg String.length h
  simp only [String.length_append] at hlen
  have h2 : ", ".length = 2 := by decide
  have h0 : "".length = 0 := by decide
  omega

/-- The request block appends to the signature the request parameter, named as the SDK
request names it, exactly when the SDK request is present and `needsRequestParameter`
holds, and appends nothing otherwise. -/
theorem requestParameters_signature {σ Scope : Type} (x : Externals σ Scope)
    (f : fileWriter Scope) (fernFilepath : FernFilepath) (scope : Scope)
    (irEndpoint : HttpEndpoint) (signatureParameters : String) (s s2 : σ)
    (signature requestParameterName requestValueName : String)
    (hok : requestParameters x f fernFilepath scope irEndpoint signatureParameters s =
      .ok ((signature, requestParameterName, requestValueName), s2)) :
    ∃ requestSegment,
      signature = signatureParameters ++ requestSegment ∧
      (requestSegment ≠ "" ↔
        (irEndpoint.SdkRequest.isSome = true ∧ needsRequestParameter irEndpoint = true)) ∧
      (∀ sdkRequest, irEndpoint.SdkRequest = some sdkRequest →
        needsRequestParameter irEndpoint = true →
        ∃ requestType, requestSegment =
          ", " ++ sdkRequest.RequestParameterName.CamelCase.SafeName ++ " " ++ requestType) := by
  unfold requestParameters at hok
  cases hsdk : irEndpoint.SdkRequest with
  | none =>
    simp only [hsdk] at hok
    injection hok with hok
    injection hok with hok _
    injection hok with hsig _
    refine ⟨"", by simp [← hsig], by simp, ?_⟩
    intro sdkRequest h
    cases h
  | some sdkRequest =>
    simp only [hsdk] at hok
    by_cases hneeds : needsRequestParameter irEndpoint = true
    · simp only [hneeds, if_true] at hok
      split at hok
      · cases hok
      · rename_i requestType s1 hjust
        injection hok with hok
        injection hok with hok _
        injection hok with hsig _
        obtain ⟨goType, hgo⟩ : ∃ goType, signature = signatureParameters ++ ", " ++
            sdkRequest.RequestParameterName.CamelCase.SafeName ++ " " ++ goType :=
          ⟨_, hsig.symm⟩
        refine ⟨", " ++ sdkRequest.RequestParameterName.CamelCase.SafeName ++ " " ++ goType,
          ?_, ?_, ?_⟩
        · rw [hgo]
          simp only [String.append_assoc]
        · exact Iff.intro (fun _ => ⟨rfl, hneeds⟩)
            (fun _ => parameter_ne_empty sdkRequest.RequestParameterName.CamelCase.SafeName _)
        · intro sdkRequest' h _
          injection h with h
          subst h
          exact ⟨_, rfl⟩
    · simp only [hneeds] at hok
      injection hok with hok
      injection hok with hok _
      injection hok with hsig _
      refine ⟨"", by simp [← hsig], by simp [hneeds], ?_⟩
      intro _ _ h
      exact absurd h hneeds

/-- Claim C30: the signature of the endpoint returned by `endpointFromIR` is
`ctx context.Context`, then one parameter per entry of `AllPathParameters` in order (the name
that the child scope returns for the entry, and its Go type), then one `io.Reader` parameter
per file property of a file-upload body in order, then the request parameter, named as the
SDK request names it, if and only if the SDK request is present and `needsRequestParameter`
holds. -/
theorem endpointFromIR_signature_order {σ Scope : Type} (x : Externals σ Scope)
    (f : fileWriter Scope) (fernFilepath : FernFilepath) (irEndpoint : HttpEndpoint)
    (irEnvironmentsConfig : Option EnvironmentsConfig) (receiver : String) (s s' : σ)
    (ep : endpoint)
    (hok : endpointFromIR x f fernFilepath irEndpoint irEnvironmentsConfig receiver s =
      .ok (ep, s')) :
    ∃ pathSegments requestSegment,
      ep.SignatureParameters =
        "ctx context.Context" ++ String.join pathSegments ++
          String.join (fileParameters irEndpoint) ++ requestSegment ∧
      List.Forall₂ (fun pathParameter segment => ∃ s1 s2,
          segment =
            ", " ++ (x.Add (x.Child f.scope s).1 pathParameter.Name.CamelCase.SafeName s1).1 ++
              " " ++ (x.typeReferenceToGoType pathParameter.ValueType (x.Child f.scope s).1
                f.baseImportPath "" false s2).1)
        irEndpoint.AllPathParameters pathSegments ∧
      (requestSegment ≠ "" ↔
        (irEndpoint.SdkRequest.isSome = true ∧ needsRequestParameter irEndpoint = true)) ∧
      (∀ sdkRequest, irEndpoint.SdkRequest = some sdkRequest →
        needsRequestParameter irEndpoint = true →
        ∃ requestType, requestSegment =
          ", " ++ sdkRequest.RequestParameterName.CamelCase.SafeName ++ " " ++ requestType) := by
  obtain ⟨s2, hreq⟩ := endpointFromIR_request x f fernFilepath irEndpoint irEnvironmentsConfig
    receiver s s' ep hok
  obtain ⟨requestSegment, hsig, hiff, hshape⟩ :=
    requestParameters_signature x f fernFilepath _ irEndpoint _ _ s2 _ _ _ hreq
  obtain ⟨pathSegments, hpath, hall⟩ := pathParametersLoop_signature x f (x.Child f.scope s).1
    irEndpoint.AllPathParameters "ctx context.Context" [] (x.Child f.scope s).2
  refine ⟨pathSegments, requestSegment, ?_, hall, hiff, hshape⟩
  rw [hsig, hpath]
  unfold fileParameters
  cases irEndpoint.RequestBody.bind HttpRequestBody.FileUpload with
  | none => simp [String.join]
  | some fileUpload => simp only [filePropertiesLoop_signature, List.filterMap]

/-- Witness of C30 at the upload endpoint with the path parameter `userId`, the files `file`
and `maybeFile` and the wrapper request `MyRequest`. -/
theorem endpointFromIR_signature_order_witness :
    (∃ pathSegments requestSegment,
      uploadClientEndpoint.SignatureParameters =
        "ctx context.Context" ++ String.join pathSegments ++
          String.join (fileParameters uploadEndpoint) ++ requestSegment ∧
      List.Forall₂ (fun pathParameter segment => ∃ s1 s2,
          segment =
            ", " ++ (plainExternals.Add (plainExternals.Child emptyWriter.scope ()).1
              pathParameter.Name.CamelCase.SafeName s1).1 ++
              " " ++ (plainExternals.typeReferenceToGoType pathParameter.ValueType
                (plainExternals.Child emptyWriter.scope ()).1
                emptyWriter.baseImportPath "" false s2).1)
        uploadEndpoint.AllPathParameters pathSegments ∧
      (requestSegment ≠ "" ↔
        (uploadEndpoint.SdkRequest.isSome = true ∧ needsRequestParameter uploadEndpoint = true)) ∧
      (∀ sdkRequest, uploadEndpoint.SdkRequest = some sdkRequest →
        needsRequestParameter uploadEndpoint = true →
        ∃ requestType, requestSegment =
          ", " ++ sdkRequest.RequestParameterName.CamelCase.SafeName ++ " " ++ requestType)) ∧
      uploadClientEndpoint.SignatureParameters =
        "ctx context.Context, userId any, file io.Reader, maybeFile io.Reader, request *sdk.MyRequest" ∧
      fileParameters uploadEndpoint = [", file io.Reader", ", maybeFile io.Reader"] :=
  ⟨endpointFromIR_signature_order plainExternals emptyWriter rootFilepath uploadEndpoint none
    "c" () () uploadClientEndpoint rfl, rfl, rfl⟩

/-! ## The path template: properties -/

/-- The characters of the path suffix built by the loop over the parts: those of the suffix
so far, then for every part the placeholder, if the part has a path parameter, and the
tail. -/
theorem pathSuffixLoop_toList (parts : List HttpPathPart) (pathSuffix : String) :
    (pathSuffixLoop parts pathSuffix).toList =
      pathSuffix.toList ++ parts.flatMap fun part =>
        (if part.PathParameter ≠ "" then ['%', 'v'] else []) ++ part.Tail.toList := by
  induction parts generalizing pathSuffix with
  | nil => simp [pathSuffixLoop]
  | cons part rest ih =>
    rw [pathSuffixLoop]
    simp only [ih, List.flatMap_cons]
    by_cases hp : part.PathParameter = "" <;> by_cases ht : part.Tail = "" <;>
      simp [hp, ht, String.toList, String.data_append]

/-- The path suffix of a full path is its template without the leading slashes. -/
theorem endpointPathSuffix_template (fullPath : HttpPath) :
    endpointPathSuffix (some fullPath) =
      String.mk ((pathTemplate fullPath).dropWhile fun c => c = '/') := by
  simp only [endpointPathSuffix, trimLeftSlash, pathSuffixLoop_toList, pathTemplate]
  by_cases hh : fullPath.Head = "/" <;> simp [hh, String.toList]

/-- What is left after the leading slashes does not start with a slash. -/
theorem head_dropWhile_slash (l : List Char) :
    (l.dropWhile fun c => decide (c = '/')).head? ≠ some '/' := by
  induction l with
  | nil => simp
  | cons c rest ih =>
    by_cases hc : c = '/'
    · simpa [List.dropWhile_cons, hc] using ih
    · simp [List.dropWhile_cons, hc]

/-- Characters without `%` in front of a list add no placeholder. -/
theorem countPlaceholders_append (l m : List Char) (hl : ∀ c ∈ l, c ≠ '%') :
    countPlaceholders (l ++ m) = countPlaceholders m := by
  induction l with
  | nil => rfl
  | cons c rest ih =>
    have hc : c ≠ '%' := hl c (List.mem_cons_self _ _)
    simp only [List.cons_append, countPlaceholders, hc, false_and, if_false, Nat.zero_add]
    exact ih fun d hd => hl d (List.mem_cons_of_mem _ hd)

/-- Dropping the leading slashes keeps the number of placeholders. -/
theorem countPlaceholders_dropWhile (l : List Char) :
    countPlaceholders (l.dropWhile fun c => decide (c = '/')) = countPlaceholders l := by
  induction l with
  | nil => rfl
  | cons c rest ih =>
    by_cases hc : c = '/'
    · subst hc
      simp only [List.dropWhile_cons, decide_True, if_true, ih, countPlaceholders]
      simp
    · simp [List.dropWhile_cons, hc]

/-- When no tail contains `%`, the parts hold one placeholder per part with a path
parameter. -/
theorem countPlaceholders_parts (parts : List HttpPathPart)
    (htails : ∀ part ∈ parts, ∀ c ∈ part.Tail.toList, c ≠ '%') :
    countPlaceholders (parts.flatMap fun part =>
        (if part.PathParameter ≠ "" then ['%', 'v'] else []) ++ part.Tail.toList) =
      (parts.filter fun part => part.PathParameter ≠ "").length := by
  induction parts with
  | nil => rfl
  | cons part rest ih =>
    have hrest := ih fun p hp => htails p (List.mem_cons_of_mem _ hp)
    have htail := htails part (List.mem_cons_self _ _)
    simp only [List.flatMap_cons, List.append_assoc]
    by_cases hp : part.PathParameter = ""
    · simp only [hp, ne_eq, not_true_eq_false, if_false, List.nil_append]
      rw [countPlaceholders_append _ _ htail, hrest]
      simp [List.filter_cons, hp]
    · simp only [hp, ne_eq, not_false_eq_true, if_true, List.cons_append, List.nil_append,
        countPlaceholders]
      rw [countPlaceholders_append _ _ htail, hrest]
      simp [List.filter_cons, hp]
      omega

/-- The path suffix and the method of a returned endpoint are those computed from the full
path and the method of the IR endpoint. -/
theorem endpointFromIR_pathSuffix {σ Scope : Type} (x : Externals σ Scope)
    (f : fileWriter Scope) (fernFilepath : FernFilepath) (irEndpoint : HttpEndpoint)
    (irEnvironmentsConfig : Option EnvironmentsConfig) (receiver : String) (s s' : σ)
    (ep : endpoint)
    (hok : endpointFromIR x f fernFilepath irEndpoint irEnvironmentsConfig receiver s =
      .ok (ep, s')) :
    ep.PathSuffix = endpointPathSuffix irEndpoint.FullPath ∧
      ep.Method = irMethodToMethodEnum irEndpoint.Method := by
  unfold endpointFromIR at hok
  simp only at hok
  split at hok
  · cases hok
  · split at hok
    · cases hok
    · split at hok
      · cases hok
      · injection hok with hok
        injection hok with hep _
        rw [← hep]
        exact ⟨rfl, rfl⟩

/-- Claim C31: for an endpoint with a full path, the path suffix of the endpoint returned by
`endpointFromIR` is the head (dropped when it is exactly `/`) followed, for each part in
order, by `%v` if the part has a path parameter and then by the part's tail, with all
leading `/` removed; it does not start with `/`; and when neither the head nor a tail
contains `%`, it holds as many placeholders `%v` as there are parts with a path
parameter. -/
theorem endpointFromIR_path_template {σ Scope : Type} (x : Externals σ Scope)
    (f : fileWriter Scope) (fernFilepath : FernFilepath) (irEndpoint : HttpEndpoint)
    (irEnvironmentsConfig : Option EnvironmentsConfig) (receiver : String) (s s' : σ)
    (ep : endpoint) (fullPath : HttpPath)
    (hpath : irEndpoint.FullPath = some fullPath)
    (hok : endpointFromIR x f fernFilepath irEndpoint irEnvironmentsConfig receiver s =
      .ok (ep, s')) :
    ep.PathSuffix = String.mk ((pathTemplate fullPath).dropWhile fun c => c = '/') ∧
      ep.PathSuffix.toList.head? ≠ some '/' ∧
      ((∀ c ∈ fullPath.Head.toList, c ≠ '%') →
        (∀ part ∈ fullPath.Parts, ∀ c ∈ part.Tail.toList, c ≠ '%') →
        countPlaceholders ep.PathSuffix.toList =
          (fullPath.Parts.filter fun part => part.PathParameter ≠ "").length) := by
  have hsuffix : ep.PathSuffix =
      String.mk ((pathTemplate fullPath).dropWhile fun c => c = '/') := by
    rw [(endpointFromIR_pathSuffix x f fernFilepath irEndpoint irEnvironmentsConfig receiver s
      s' ep hok).1, hpath, endpointPathSuffix_template]
  refine ⟨hsuffix, ?_, ?_⟩
  · rw [hsuffix]
    exact head_dropWhile_slash _
  · intro hhead htails
    rw [hsuffix]
    show countPlaceholders ((pathTemplate fullPath).dropWhile fun c => decide (c = '/')) = _
    rw [countPlaceholders_dropWhile, pathTemplate]
    by_cases hh : fullPath.Head = "/"
    · simp only [hh, if_true, List.nil_append]
      exact countPlaceholders_parts _ htails
    · simp only [hh, if_false]
      rw [countPlaceholders_append _ _ hhead]
      exact countPlaceholders_parts _ htails

/-- Witness of C31 at the full path `/users/{userId}`: the path suffix is `users/%v`, with
one placeholder. -/
theorem endpointFromIR_path_template_witness :
    usersClientEndpoint.PathSuffix = "users/%v" ∧
      usersClientEndpoint.PathSuffix.toList.head? ≠ some '/' ∧
      countPlaceholders usersClientEndpoint.PathSuffix.toList = 1 :=
  have h := endpointFromIR_path_template plainExternals emptyWriter rootFilepath usersEndpoint
    none "c" () () usersClientEndpoint usersPath rfl rfl
  ⟨h.1, h.2.1, h.2.2 (by decide) (by decide)⟩

/-! ## The body type of a file upload: properties -/

/-- Claim C32: for a file upload without body property, `VisitFileUpload` writes nothing and
keeps the visitor, and `requestBodyToFieldDeclaration` returns no literals; otherwise the
visit is that of the property writer on an object declaration that extends nothing and whose
properties are the body properties of the upload, in order, with their `Docs`, `Name` and
`ValueType`. -/
theorem VisitFileUpload_body_properties {σ Scope : Type} (x : Externals σ Scope)
    (f : fileWriter Scope) (fileUpload : FileUploadRequest) (r : requestBodyVisitor Scope)
    (importPath bodyField : String) (includeGenericOptionals : Bool) (s : σ) :
    (bodyPropertiesOf fileUpload = [] →
      r.VisitFileUpload x fileUpload s = { lines := [], result := .ok (r, s) } ∧
        requestBodyToFieldDeclaration x (.fileUpload fileUpload) f importPath bodyField
          includeGenericOptionals s = { lines := [], result := .ok ([], s) }) ∧
      (bodyPropertiesOf fileUpload ≠ [] →
        ∃ object : ObjectTypeDeclaration,
          r.VisitFileUpload x fileUpload s =
            { lines := (x.visitObjectProperties fileUpload.Name.PascalCase.UnsafeName
                r.baseImportPath r.importPath object true r.includeGenericOptionals s).1.1
              result := .ok
                ({ r with literals :=
                    (x.visitObjectProperties fileUpload.Name.PascalCase.UnsafeName
                      r.baseImportPath r.importPath object true r.includeGenericOptionals
                      s).1.2 },
                  (x.visitObjectProperties fileUpload.Name.PascalCase.UnsafeName
                    r.baseImportPath r.importPath object true r.includeGenericOptionals
                    s).2) } ∧
            object.Extends = [] ∧
            List.Forall₂ (fun (bodyProperty : InlinedRequestBodyProperty)
                (objectProperty : ObjectProperty) =>
                objectProperty.Docs = bodyProperty.Docs ∧
                  objectProperty.Name = bodyProperty.Name ∧
                  objectProperty.ValueType = bodyProperty.ValueType)
              (bodyPropertiesOf fileUpload) object.Properties) := by
  constructor
  · intro hnone
    unfold bodyPropertiesOf at hnone
    constructor
    · simp only [requestBodyVisitor.VisitFileUpload]
      rw [show (List.filterMap (fun property => property.BodyProperty) fileUpload.Properties) =
        [] from hnone]
      rfl
    · simp only [requestBodyToFieldDeclaration, HttpRequestBody.Accept,
        requestBodyVisitor.VisitFileUpload]
      rw [show (List.filterMap (fun property => property.BodyProperty) fileUpload.Properties) =
        [] from hnone]
      rfl
  · intro hsome
    refine ⟨inlinedRequestBodyPropertiesToObjectTypeDeclaration (bodyPropertiesOf fileUpload),
      ?_, rfl, ?_⟩
    · have hlen : ¬ (bodyPropertiesOf fileUpload).length = 0 := by
        rw [List.length_eq_zero]
        exact hsome
      unfold bodyPropertiesOf at hlen
      simp only [requestBodyVisitor.VisitFileUpload]
      rw [if_neg hlen]
      rfl
    · simp only [inlinedRequestBodyPropertiesToObjectTypeDeclaration]
      generalize bodyPropertiesOf fileUpload = bodyProperties
      induction bodyProperties with
      | nil => exact List.Forall₂.nil
      | cons bodyProperty rest ih => exact List.Forall₂.cons ⟨rfl, rfl, rfl⟩ ih

/-- Witness of C32 at the upload of `JustFile`, which has one file and no body property:
nothing is written and no literal is returned; for the upload of `Post` the fields of the
two body properties are written. -/
theorem VisitFileUpload_body_properties_witness :
    (plainVisitor.VisitFileUpload plainExternals
        { Name := plainName "JustFileRequest",
          Properties := [{ File := some fileProperty, BodyProperty := none }] } () =
        { lines := [], result := .ok (plainVisitor, ()) } ∧
      requestBodyToFieldDeclaration plainExternals
        (.fileUpload
          { Name := plainName "JustFileRequest",
            Properties := [{ File := some fileProperty, BodyProperty := none }] })
        emptyWriter "sdk" "Body" false () = { lines := [], result := .ok ([], ()) }) ∧
      (plainVisitor.VisitFileUpload plainExternals postUpload ()).lines =
        ["MaybeString any", "OptionalListOfStrings any"] :=
  ⟨(VisitFileUpload_body_properties plainExternals emptyWriter
      { Name := plainName "JustFileRequest",
        Properties := [{ File := some fileProperty, BodyProperty := none }] }
      plainVisitor "sdk" "Body" false ()).1 rfl, rfl⟩

/-! ## Subpackages and methods: properties -/

/-- The loop over the subpackages inside the client struct writes one field per subpackage,
in order: the name of the subpackage and a pointer to the client type of its package. -/
theorem subpackageFields_each {σ Scope : Type} (x : Externals σ Scope) (f : fileWriter Scope)
    (clientName : String) (subpackages : List Subpackage) (s : σ) :
    List.Forall₂ (fun (subpackage : Subpackage) line => ∃ s1,
        line = subpackage.Name.PascalCase.UnsafeName ++ " *" ++
          (x.AddImport f.scope (x.packagePathToImportPath f.baseImportPath
            (x.packagePathForClient subpackage.FernFilepath)) s1).1 ++ "." ++ clientName)
      subpackages (subpackageFields x f clientName subpackages s).1 := by
  induction subpackages generalizing s with
  | nil => exact List.Forall₂.nil
  | cons subpackage rest ih =>
    simp only [subpackageFields]
    refine List.Forall₂.cons ⟨s, ?_⟩ (ih _)
    simp [P, String.join, String.append_assoc]

/-- The loop over the subpackages inside the constructor writes one initializer per
subpackage, in order: the name of the subpackage and the constructor of its package applied to
`opts...`. -/
theorem subpackageInitializers_each {σ Scope : Type} (x : Externals σ Scope)
    (f : fileWriter Scope) (subpackages : List Subpackage) (s : σ) :
    List.Forall₂ (fun (subpackage : Subpackage) line => ∃ s1,
        line = subpackage.Name.PascalCase.UnsafeName ++ ": " ++
          (x.AddImport f.scope (x.packagePathToImportPath f.baseImportPath
            (x.packagePathForClient subpackage.FernFilepath)) s1).1 ++ ".NewClient(opts...),")
      subpackages (subpackageInitializers x f subpackages s).1 := by
  induction subpackages generalizing s with
  | nil => exact List.Forall₂.nil
  | cons subpackage rest ih =>
    simp only [subpackageInitializers]
    refine List.Forall₂.cons ⟨s, ?_⟩ (ih _)
    simp [P, String.join, String.append_assoc]

/-- Claim C34: `irMethodToMethodEnum` maps GET, POST, PUT, PATCH and DELETE to
`http.MethodGet`, `http.MethodPost`, `http.MethodPut`, `http.MethodPatch` and
`http.MethodDelete`, five different strings, and every other method to the empty string. -/
theorem irMethodToMethodEnum_table :
    namedMethods.map irMethodToMethodEnum =
        ["http.MethodGet", "http.MethodPost", "http.MethodPut", "http.MethodPatch",
          "http.MethodDelete"] ∧
      (namedMethods.map irMethodToMethodEnum).Nodup ∧
      ∀ value, irMethodToMethodEnum (.other value) = "" :=
  ⟨rfl, by decide, fun _ => rfl⟩

/-! ## Client options and request types: code at failing inputs -/

/-- The code at the failing input of C35: for the basic scheme, the statement of `ToHeader`
encodes the username, a colon followed by a blank, and the password; it is written under the
guard that both are non-empty. -/
theorem basic_auth_header (literalToValue : Literal → String) :
    authSchemeToHeader literalToValue .basic =
      [ "if c.Username != \"\" && c.Password != \"\" \x7b",
        "header.Set(\"Authorization\", \"Basic \" + base64.StdEncoding.EncodeToString([]byte(c.Username + \": \" + c.Password)))",
        "\x7d" ] ∧
      "header.Set(\"Authorization\", \"Basic \" + base64.StdEncoding.EncodeToString([]byte(c.Username + \": \" + c.Password)))" ∈
        (WriteClientOptionsDefinition plainExternals emptyWriter (some basicAuth) [] none none ""
          ()).lines := by
  constructor
  · rfl
  · decide

/-- The code at the failing input of C36: with the SDK version `0.1.0` and an SDK
configuration without platform headers, `WriteClientOptionsDefinition` returns no error and
writes the `ToHeader` that calls `cloneHeader`, and no line defines `cloneHeader`; with an
empty SDK version its last lines are the definition. -/
theorem cloneHeader_undefined :
    (WriteClientOptionsDefinition plainExternals emptyWriter (some noSchemes) []
        (some { PlatformHeaders := none }) none "0.1.0" ()).result = .ok ((), ()) ∧
      (WriteClientOptionsDefinition plainExternals emptyWriter (some noSchemes) []
        (some { PlatformHeaders := none }) none "0.1.0" ()).lines.drop 22 =
        [ "// ToHeader maps the configured client options into a http.Header issued",
          "// on every request.",
          "func (c *ClientOptions) ToHeader() http.Header \x7b return c.cloneHeader() \x7d",
          "" ] ∧
      (WriteClientOptionsDefinition plainExternals emptyWriter (some noSchemes) []
        (some { PlatformHeaders := none }) none "0.1.0" ()).lines.any
          (containsText "cloneHeader() http.Header") = false ∧
      (WriteClientOptionsDefinition plainExternals emptyWriter (some noSchemes) []
        (some { PlatformHeaders := none }) none "" ()).lines.drop 26 =
        [ "func (c *ClientOptions) cloneHeader() http.Header \x7b",
          "return c.HTTPHeader.Clone()",
          "\x7d" ] := by
  refine ⟨rfl, rfl, ?_, rfl⟩
  rfl

/-- The code at the failing input of C37: with a nil `auth`, `WriteClientOptionsDefinition`
fails on a nil dereference after the ten lines written before the loop over `auth.Schemes`,
whatever the headers, the configuration and the version. -/
theorem WriteClientOptionsDefinition_nil_auth {σ Scope : Type} (x : Externals σ Scope)
    (f : fileWriter Scope) (headers : List HttpHeader) (sdkConfig : Option SdkConfig)
    (moduleConfig : Option ModuleConfig) (sdkVersion : String) (s : σ) :
    (WriteClientOptionsDefinition x f none headers sdkConfig moduleConfig sdkVersion
      s).result = .error .nilDereference ∧
    (WriteClientOptionsDefinition x f none headers sdkConfig moduleConfig sdkVersion
      s).lines.length = 10 :=
  ⟨rfl, rfl⟩

/-- The code at the failing input of C38: for the endpoint `CreateUser`, with the literal
header `X-API-Version` and an inlined body, the `MarshalJSON` written by `WriteRequestType`
adds the header to the marshaled struct as the JSON field `X-API-Version` with the value
`"v1"`. -/
theorem WriteRequestType_header_literal_marshaled :
    (WriteRequestType plainExternals emptyWriter rootFilepath createUserEndpoint false
        ()).lines.drop 20 =
      [ "func (r *CreateUserRequest) MarshalJSON() ([]byte, error) \x7b",
        "type embed CreateUserRequest",
        "var marshaler = struct\x7b",
        "embed",
        "APIVersion string `json:\"X-API-Version\"`",
        "\x7d\x7b",
        "embed: embed(*r),",
        "APIVersion: \"v1\",",
        "\x7d",
        "return json.Marshal(marshaler)",
        "\x7d",
        "" ] := by
  rfl

/-- The code at the failing input of C39: `typeReferenceFromJsonResponse` returns nil for a
nil payload, and for a response of type `json` without `Json` payload the response block then
reads `Json.Type` to format its error, a nil dereference, so that `endpointFromIR` fails on
it and returns no error value. -/
theorem endpointFromIR_missing_json {σ Scope : Type} (x : Externals σ Scope)
    (f : fileWriter Scope) (scope : Scope) (s : σ) :
    typeReferenceFromJsonResponse none = .ok none ∧
      jsonResponseValues x f scope { Type_ := "json", Json := none, Streaming := none } s =
        .error .nilDereference ∧
      (endpointFromIR plainExternals emptyWriter rootFilepath missingJsonEndpoint none "c"
        ()).map (fun r => r.1.Name) = .error .nilDereference := by
  refine ⟨rfl, rfl, rfl⟩

/-! ## The environments variable: properties -/

/-- With pairwise distinct keys, every enumeration of the same entries gives the same sorted
slice. -/
theorem environmentURLMapToSortedSlice_enumeration (urls urls' : List (String × String))
    (hnodup : (urls.map Prod.fst).Nodup) (hperm : urls'.Perm urls) :
    environmentURLMapToSortedSlice urls' = environmentURLMapToSortedSlice urls := by
  have hnodup' : (urls'.map Prod.fst).Nodup := (hperm.map Prod.fst).nodup_iff.2 hnodup
  haveI : IsAntisymm environmentURL (fun a b => a.ID < b.ID) :=
    ⟨fun a b hab hba => absurd hba (lt_asymm hab)⟩
  refine List.eq_of_perm_of_sorted ?_ (environmentURLMapToSortedSlice_lt urls' hnodup')
    (environmentURLMapToSortedSlice_lt urls hnodup)
  exact ((environmentURLMapToSortedSlice_perm urls').trans (hperm.map _)).trans
    (environmentURLMapToSortedSlice_perm urls).symm

/-- The declaring loop over the environments writes the declaration of every environment, in
order. -/
theorem declareMultipleBaseUrlsLoop_written (WriteDocs : Option String → List String)
    (baseURLs : EnvironmentBaseUrlId → String) (i : Nat)
    (environments : List MultipleBaseUrlsEnvironment) (e : environmentsDeclarationVisitor) :
    (declareMultipleBaseUrlsLoop WriteDocs baseURLs i environments e).written =
      e.written ++ environments.flatMap (declareEnvironment WriteDocs baseURLs) := by
  induction environments generalizing i e with
  | nil => simp [declareMultipleBaseUrlsLoop]
  | cons environment rest ih =>
    rw [declareMultipleBaseUrlsLoop, ih]
    by_cases hi : i = 0 <;> simp [hi, List.flatMap_cons, List.append_assoc]

/-- Claim C40: for a configuration with several base URLs, the declaration visitor and the
value visitor write, for every environment in order, the lines of that environment; and for
an environment whose URL map has pairwise distinct keys, whatever the order in which each
visitor enumerates the map, the fields declared by the declaration visitor, the fields of the
struct type written by the value visitor and the fields initialised in its value are the
names of the base URLs of one sequence of entries, strictly ascending by base-URL id, each
field being initialised to the URL that the environment maps the id to. -/
theorem environment_fields_agree (WriteDocs : Option String → List String)
    (quote : String → String) (url : MultipleBaseUrlsEnvironments)
    (environment : MultipleBaseUrlsEnvironment) (urls' : List (String × String))
    (declarationVisitor : environmentsDeclarationVisitor)
    (valueVisitor : environmentsValueVisitor)
    (hnodup : (environment.Urls.map Prod.fst).Nodup) (hperm : urls'.Perm environment.Urls) :
    (∃ visited, declarationVisitor.VisitMultipleBaseUrls WriteDocs url = .ok visited ∧
        visited.written = declarationVisitor.written ++ url.Environments.flatMap
          (declareEnvironment WriteDocs (baseURLNames url.BaseUrls fun _ => ""))) ∧
      (∃ visited, valueVisitor.VisitMultipleBaseUrls quote url = .ok visited ∧
        visited.written = valueVisitor.written ++ url.Environments.flatMap
          (valueOfEnvironment quote (baseURLNames url.BaseUrls fun _ => ""))) ∧
      declareEnvironment WriteDocs (baseURLNames url.BaseUrls fun _ => "")
          { environment with Urls := urls' } =
        WriteDocs environment.Docs ++
          [environment.Name.PascalCase.UnsafeName ++ " struct \x7b"] ++
          (environmentFieldNames url.BaseUrls environment.Urls).map (fun name =>
            name ++ " string") ++
          ["\x7d"] ∧
      valueOfEnvironment quote (baseURLNames url.BaseUrls fun _ => "") environment =
        [environment.Name.PascalCase.UnsafeName ++ ": struct \x7b"] ++
          (environmentFieldNames url.BaseUrls environment.Urls).map (fun name =>
            name ++ " string") ++
          ["\x7d\x7b"] ++
          (environmentURLMapToSortedSlice environment.Urls).map (fun environmentURL =>
            baseURLNames url.BaseUrls (fun _ => "") environmentURL.ID ++ ": " ++
              quote environmentURL.URL ++ ",") ++
          ["\x7d,"] ∧
      (environmentURLMapToSortedSlice environment.Urls).Sorted (fun a b => a.ID < b.ID) ∧
      ∀ environmentURL ∈ environmentURLMapToSortedSlice environment.Urls,
        environment.Urls.lookup environmentURL.ID = some environmentURL.URL := by
  refine ⟨⟨_, rfl, declareMultipleBaseUrlsLoop_written _ _ _ _ _⟩, ⟨_, rfl, rfl⟩, ?_, ?_,
    environmentURLMapToSortedSlice_lt _ hnodup, ?_⟩
  · simp only [declareEnvironment, environmentFieldNames,
      environmentURLMapToSortedSlice_enumeration environment.Urls urls' hnodup hperm,
      List.map_map]
    simp [P, String.join, Function.comp_def]
  · simp only [valueOfEnvironment, environmentFieldNames, List.map_map]
    simp [P, String.join, Function.comp_def, String.append_assoc]
  · intro environmentURL hmem
    have hmapped := (environmentURLMapToSortedSlice_perm environment.Urls).mem_iff.1 hmem
    obtain ⟨entry, hentry, rfl⟩ := List.mem_map.1 hmapped
    exact lookup_of_mem_of_nodup environment.Urls hnodup entry hentry

/-- Witness of C40 at the environment `Production` with the URLs of `web` and `api`, the
declaration visitor enumerating the map in the reverse order: both visitors write the fields
`Api`, `Web`. -/
theorem environment_fields_agree_witness :
    declareEnvironment plainExternals.WriteDocs
        (baseURLNames twoUrlsEnvironments.BaseUrls fun _ => "")
        { productionEnvironment with Urls := exampleUrls.reverse } =
        ["Production struct \x7b", "Api string", "Web string", "\x7d"] ∧
      valueOfEnvironment plainExternals.quote
        (baseURLNames twoUrlsEnvironments.BaseUrls fun _ => "") productionEnvironment =
        [ "Production: struct \x7b", "Api string", "Web string", "\x7d\x7b",
          "Api: \"https://api.example.com\",", "Web: \"https://web.example.com\",", "\x7d," ] :=
  have h := environment_fields_agree plainExternals.WriteDocs plainExternals.quote
    twoUrlsEnvironments productionEnvironment exampleUrls.reverse
    { value := none, importPath := "sdk", written := [] } { written := [] } (by decide)
    (List.reverse_perm exampleUrls)
  ⟨h.2.2.1.trans (by rfl), h.2.2.2.1.trans (by rfl)⟩

/-! ## The lines of `WriteClient`, method by method: properties -/

/-- The reformatting loop returns one endpoint per IR endpoint, in order, each returned by
`endpointFromIR`. -/
theorem endpointsFromIR_each {σ Scope : Type} (x : Externals σ Scope) (f : fileWriter Scope)
    (fernFilepath : FernFilepath) (irEnvironmentsConfig : Option EnvironmentsConfig)
    (receiver : String) (irEndpoints : List HttpEndpoint) (s s' : σ)
    (endpoints : List endpoint)
    (hconv : endpointsFromIR x f fernFilepath irEnvironmentsConfig receiver irEndpoints s =
      .ok (endpoints, s')) :
    List.Forall₂
      (fun irEndpoint ep => ∃ t t',
        endpointFromIR x f fernFilepath irEndpoint irEnvironmentsConfig receiver t =
          .ok (ep, t'))
      irEndpoints endpoints := by
  induction irEndpoints generalizing s endpoints with
  | nil =>
    simp only [endpointsFromIR] at hconv
    injection hconv with hconv
    injection hconv with hnil _
    subst hnil
    exact List.Forall₂.nil
  | cons first rest ih =>
    simp only [endpointsFromIR] at hconv
    cases hfirst : endpointFromIR x f fernFilepath first irEnvironmentsConfig receiver s with
    | error e => rw [hfirst] at hconv; cases hconv
    | ok r =>
      obtain ⟨ep, s2⟩ := r
      rw [hfirst] at hconv
      simp only at hconv
      cases hrest : endpointsFromIR x f fernFilepath irEnvironmentsConfig receiver rest s2 with
      | error e => rw [hrest] at hconv; cases hconv
      | ok r2 =>
        obtain ⟨eps, s3⟩ := r2
        rw [hrest] at hconv
        simp only at hconv
        injection hconv with hconv
        injection hconv with heps hs
        subst heps
        subst hs
        exact List.Forall₂.cons ⟨s, s2, hfirst⟩ (ih s2 eps hrest)

/-- The error decoder block returns without failure when every declared error of the
endpoint is in the error index. -/
theorem errorDecoderLines_result {σ Scope : Type} (x : Externals σ Scope)
    (f : fileWriter Scope) (strategy : Option ErrorDiscriminationByPropertyStrategy)
    (endpoint : endpoint) (s : σ)
    (hindex : ∀ e ∈ endpoint.Errors, (f.errors.lookup e.Error.ErrorId).isSome = true) :
    ∃ s', (errorDecoderLines x f strategy endpoint s).result = .ok ((), s') := by
  by_cases hlen : endpoint.Errors.length > 0
  · obtain ⟨errorTypes, s', _, hcases⟩ :=
      errorDecoderCases_ok x f strategy endpoint.Errors s hindex
    refine ⟨s', ?_⟩
    cases strategy with
    | none =>
      have h2 : errorDecoderCases x f none "" endpoint.Errors s = _ := hcases
      simp only [errorDecoderLines, hlen, if_true, h2]
    | some st =>
      have h2 : errorDecoderCases x f (some st)
          ("discriminant." ++ st.ContentProperty.Name.PascalCase.UnsafeName) endpoint.Errors
          s = _ := hcases
      simp only [errorDecoderLines, hlen, if_true, h2]
  · exact ⟨s, by simp only [errorDecoderLines, hlen, if_false]⟩

/-- The method of an endpoint returns without failure when its error decoder block does. -/
theorem clientMethod_result {σ Scope : Type} (x : Externals σ Scope) (f : fileWriter Scope)
    (receiver clientName : String) (strategy : Option ErrorDiscriminationByPropertyStrategy)
    (endpoint : endpoint) (s s' : σ)
    (hok : (errorDecoderLines x f strategy endpoint s).result = .ok ((), s')) :
    (clientMethod x f receiver clientName strategy endpoint s).result = .ok ((), s') := by
  simp only [clientMethod, hok]

/-- The loop over the endpoints, every declared error being in the error index: it returns
without failure and has written the method of every endpoint, in order, the error decoder
block of each returning without failure. -/
theorem clientMethods_blocks {σ Scope : Type} (x : Externals σ Scope) (f : fileWriter Scope)
    (receiver clientName : String) (strategy : Option ErrorDiscriminationByPropertyStrategy)
    (endpoints : List endpoint) (s : σ)
    (hindex : ∀ ep ∈ endpoints, ∀ e ∈ ep.Errors,
      (f.errors.lookup e.Error.ErrorId).isSome = true) :
    ∃ (blocks : List (List String)) (s' : σ),
      clientMethods x f receiver clientName strategy endpoints s =
        { lines := blocks.flatten, result := .ok ((), s') } ∧
      List.Forall₂
        (fun ep block => ∃ t t',
          (errorDecoderLines x f strategy ep t).result = .ok ((), t') ∧
          block = (clientMethod x f receiver clientName strategy ep t).lines)
        endpoints blocks := by
  induction endpoints generalizing s with
  | nil => exact ⟨[], s, rfl, List.Forall₂.nil⟩
  | cons ep rest ih =>
    obtain ⟨t', hdec⟩ := errorDecoderLines_result x f strategy ep s
      (hindex ep (List.mem_cons_self _ _))
    have hmethod := clientMethod_result x f receiver clientName strategy ep s t' hdec
    obtain ⟨blocks, s', hrest, hall⟩ :=
      ih t' (fun ep' hep' => hindex ep' (List.mem_cons_of_mem _ hep'))
    refine ⟨_ :: blocks, s', ?_, List.Forall₂.cons ⟨s, t', hdec, rfl⟩ hall⟩
    simp only [clientMethods, hmethod, hrest, List.flatten_cons]

/-- Two position-by-position relations between lists compose. -/
theorem forall₂_compose {α β γ : Type} {R : α → β → Prop} {S : β → γ → Prop}
    {l1 : List α} {l2 : List β} {l3 : List γ} (h1 : List.Forall₂ R l1 l2)
    (h2 : List.Forall₂ S l2 l3) : List.Forall₂ (fun a c => ∃ b, R a b ∧ S b c) l1 l3 := by
  induction h1 generalizing l3 with
  | nil =>
    cases h2
    exact List.Forall₂.nil
  | cons hab _ ih =>
    cases h2 with
    | cons hbc hrest => exact List.Forall₂.cons ⟨_, hab, hbc⟩ (ih hrest)

/-- The loop over the endpoints that `endpointFromIR` returns for IR endpoints whose declared
errors are all in the error index: it returns without failure and has written one method
per IR endpoint, in order, the method of the endpoint returned for it. -/
theorem clientMethods_of_IR {σ Scope : Type} (x : Externals σ Scope) (f : fileWriter Scope)
    (fernFilepath : FernFilepath) (environmentsConfig : Option EnvironmentsConfig)
    (strategy : Option ErrorDiscriminationByPropertyStrategy)
    (irEndpoints : List HttpEndpoint) (s s1 s2 : σ) (endpoints : List endpoint)
    (hconv : endpointsFromIR x f fernFilepath environmentsConfig "c" irEndpoints s =
      .ok (endpoints, s1))
    (hindex : ∀ irEndpoint ∈ irEndpoints, ∀ e ∈ irEndpoint.Errors,
      (f.errors.lookup e.Error.ErrorId).isSome = true) :
    ∃ (blocks : List (List String)) (s' : σ),
      clientMethods x f "c" "Client" strategy endpoints s2 =
        { lines := blocks.flatten, result := .ok ((), s') } ∧
      List.Forall₂
        (fun irEndpoint block => irEndpoint ∈ irEndpoints ∧ ∃ ep,
          (∃ t t', endpointFromIR x f fernFilepath irEndpoint environmentsConfig "c" t =
            .ok (ep, t')) ∧
          ∃ t t',
            (errorDecoderLines x f strategy ep t).result = .ok ((), t') ∧
            block = (clientMethod x f "c" "Client" strategy ep t).lines)
        irEndpoints blocks := by
  have heach := endpointsFromIR_each x f fernFilepath environmentsConfig "c" irEndpoints s s1
    endpoints hconv
  have hindex2 : ∀ ep ∈ endpoints, ∀ e ∈ ep.Errors,
      (f.errors.lookup e.Error.ErrorId).isSome = true := by
    clear hconv
    induction heach with
    | nil => intro ep hep; cases hep
    | @cons irEndpoint ep irRest rest hhead _ ih =>
      intro ep' hep'
      rcases List.mem_cons.1 hep' with h | h
      · subst h
        obtain ⟨t, t', hok⟩ := hhead
        rw [(endpointFromIR_errors x f fernFilepath irEndpoint environmentsConfig "c" t t' ep'
          hok).1]
        exact hindex irEndpoint (List.mem_cons_self _ _)
      · exact ih (fun ir hir => hindex ir (List.mem_cons_of_mem _ hir)) ep' h
  obtain ⟨blocks, s', hmethods, hall⟩ :=
    clientMethods_blocks x f "c" "Client" strategy endpoints s2 hindex2
  refine ⟨blocks, s', hmethods, ?_⟩
  have hall2 := forall₂_compose heach hall
  clear hmethods hall heach hindex2 hconv hindex
  induction hall2 with
  | nil => exact List.Forall₂.nil
  | cons hhead _ ih =>
    obtain ⟨ep, hep, hblock⟩ := hhead
    exact List.Forall₂.cons ⟨List.mem_cons_self _ _, ep, hep, hblock⟩
      (ih.imp fun _ _ h => ⟨List.mem_cons_of_mem _ h.1, h.2⟩)

/-- The endpoint returned by `endpointFromIR` carries the query parameters and the headers
of the IR endpoint, and the files and the body properties of its file upload, in order. -/
theorem endpointFromIR_fields {σ Scope : Type} (x : Externals σ Scope) (f : fileWriter Scope)
    (fernFilepath : FernFilepath) (irEndpoint : HttpEndpoint)
    (irEnvironmentsConfig : Option EnvironmentsConfig) (receiver : String) (s s' : σ)
    (ep : endpoint)
    (hok : endpointFromIR x f fernFilepath irEndpoint irEnvironmentsConfig receiver s =
      .ok (ep, s')) :
    ep.QueryParameters = irEndpoint.QueryParameters ∧
      ep.Headers = irEndpoint.Headers ∧
      ep.FileProperties =
        (match irEndpoint.RequestBody.bind HttpRequestBody.FileUpload with
         | some fileUpload => fileUpload.Properties.filterMap FileUploadRequestProperty.File
         | none => []) ∧
      ep.FileBodyProperties =
        (match irEndpoint.RequestBody.bind HttpRequestBody.FileUpload with
         | some fileUpload => bodyPropertiesOf fileUpload
         | none => []) := by
  unfold endpointFromIR at hok
  simp only at hok
  split at hok
  · cases hok
  · split at hok
    · cases hok
    · split at hok
      · cases hok
      · injection hok with hok
        injection hok with hep _
        rw [← hep]
        refine ⟨rfl, rfl, ?_, ?_⟩
        · cases irEndpoint.RequestBody.bind HttpRequestBody.FileUpload with
          | none => rfl
          | some fileUpload => simp only [filePropertiesLoop_signature, List.nil_append]
        · cases irEndpoint.RequestBody.bind HttpRequestBody.FileUpload with
          | none => rfl
          | some fileUpload =>
            simp only [filePropertiesLoop_signature, List.nil_append, bodyPropertiesOf]

/-- Claim C33: whatever the endpoints, the environments, the strategy and the auth, when
the endpoints are reformatted without failure `WriteClient` writes first the client struct
with, after its three fixed fields, one field per subpackage, then the constructor
`NewClient`, which takes the options `opts`, with, after its three fixed initializers, one
initializer per subpackage, and then the methods (none without endpoints); fields and
initializers follow the order of the subpackages, carry the name of their subpackage, refer
to the package of the subpackage, and every initializer calls `NewClient(opts...)`. -/
theorem WriteClient_subpackages {σ Scope : Type} (x : Externals σ Scope)
    (f : fileWriter Scope) (irEndpoints : List HttpEndpoint) (subpackages : List Subpackage)
    (environmentsConfig : Option EnvironmentsConfig)
    (errorDiscriminationStrategy : Option ErrorDiscriminationStrategy)
    (fernFilepath : FernFilepath) (generatedAuth : Option GeneratedAuth)
    (generatedEnvironment : Option GeneratedEnvironment) (s s1 : σ)
    (endpoints : List endpoint)
    (hconv : endpointsFromIR x f fernFilepath environmentsConfig "c" irEndpoints s =
      .ok (endpoints, s1)) :
    ∃ fields initializers methods,
      (WriteClient x f irEndpoints subpackages environmentsConfig errorDiscriminationStrategy
          fernFilepath generatedAuth generatedEnvironment s).lines =
        [ "type Client struct \x7b",
          "baseURL string",
          "caller *core.Caller",
          "header http.Header",
          "" ] ++ fields ++
        [ "\x7d",
          "",
          "func NewClient(opts ...core.ClientOption) *Client \x7b",
          "options := core.NewClientOptions()",
          "for _, opt := range opts \x7b",
          "opt(options)",
          "\x7d",
          "return &Client\x7b",
          "baseURL: options.BaseURL,",
          "caller: core.NewCaller(options.HTTPClient),",
          "header: options.ToHeader()," ] ++ initializers ++
        [ "\x7d",
          "\x7d",
          "" ] ++ methods ∧
      List.Forall₂ (fun (subpackage : Subpackage) line => ∃ t,
          line = subpackage.Name.PascalCase.UnsafeName ++ " *" ++
            (x.AddImport f.scope (x.packagePathToImportPath f.baseImportPath
              (x.packagePathForClient subpackage.FernFilepath)) t).1 ++ ".Client")
        subpackages fields ∧
      List.Forall₂ (fun (subpackage : Subpackage) line => ∃ t,
          line = subpackage.Name.PascalCase.UnsafeName ++ ": " ++
            (x.AddImport f.scope (x.packagePathToImportPath f.baseImportPath
              (x.packagePathForClient subpackage.FernFilepath)) t).1 ++
            ".NewClient(opts...),")
        subpackages initializers ∧
      (irEndpoints = [] → methods = []) := by
  refine ⟨(subpackageFields x f "Client" subpackages s1).1,
    (subpackageInitializers x f subpackages (subpackageFields x f "Client" subpackages s1).2).1,
    (clientMethods x f "c" "Client"
      (errorDiscriminationStrategy.bind ErrorDiscriminationStrategy.Property) endpoints
      (clientDeclaration x f "Client" subpackages s1).2).lines,
    ?_, ?_, subpackageInitializers_each x f subpackages _, ?_⟩
  · simp only [WriteClient, hconv]
    split <;> simp [clientDeclaration, P, String.join]
  · refine (subpackageFields_each x f "Client" subpackages s1).imp ?_
    rintro subpackage line ⟨t, hline⟩
    refine ⟨t, ?_⟩
    rw [hline, String.append_assoc _ "." "Client"]
    rfl
  · intro hnil
    subst hnil
    simp only [endpointsFromIR] at hconv
    injection hconv with hconv
    injection hconv with hnil _
    subst hnil
    rfl

/-- Witness of C33 at the endpoint `GetUser` and the subpackages `user` and `admin`. -/
theorem WriteClient_subpackages_witness :
    (∃ endpoints,
      endpointsFromIR plainExternals emptyWriter rootFilepath none "c" [getUserQueryEndpoint]
        () = .ok (endpoints, ()) ∧
      ∃ fields initializers methods,
        (WriteClient plainExternals emptyWriter [getUserQueryEndpoint]
            [subpackageNamed "user", subpackageNamed "admin"] none none rootFilepath none none
            ()).lines =
          [ "type Client struct \x7b",
            "baseURL string",
            "caller *core.Caller",
            "header http.Header",
            "" ] ++ fields ++
          [ "\x7d",
            "",
            "func NewClient(opts ...core.ClientOption) *Client \x7b",
            "options := core.NewClientOptions()",
            "for _, opt := range opts \x7b",
            "opt(options)",
            "\x7d",
            "return &Client\x7b",
            "baseURL: options.BaseURL,",
            "caller: core.NewCaller(options.HTTPClient),",
            "header: options.ToHeader()," ] ++ initializers ++
          [ "\x7d",
            "\x7d",
            "" ] ++ methods ∧
        List.Forall₂ (fun (subpackage : Subpackage) line => ∃ t,
            line = subpackage.Name.PascalCase.UnsafeName ++ " *" ++
              (plainExternals.AddImport emptyWriter.scope
                (plainExternals.packagePathToImportPath emptyWriter.baseImportPath
                  (plainExternals.packagePathForClient subpackage.FernFilepath)) t).1 ++
              ".Client")
          [subpackageNamed "user", subpackageNamed "admin"] fields ∧
        List.Forall₂ (fun (subpackage : Subpackage) line => ∃ t,
            line = subpackage.Name.PascalCase.UnsafeName ++ ": " ++
              (plainExternals.AddImport emptyWriter.scope
                (plainExternals.packagePathToImportPath emptyWriter.baseImportPath
                  (plainExternals.packagePathForClient subpackage.FernFilepath)) t).1 ++
              ".NewClient(opts...),")
          [subpackageNamed "user", subpackageNamed "admin"] initializers ∧
        (([getUserQueryEndpoint] : List HttpEndpoint) = [] → methods = [])) ∧
    (WriteClient plainExternals emptyWriter [getUserQueryEndpoint]
        [subpackageNamed "user", subpackageNamed "admin"] none none rootFilepath none none
        ()).lines.take 24 =
      [ "type Client struct \x7b",
        "baseURL string",
        "caller *core.Caller",
        "header http.Header",
        "",
        "user *sdk.Client",
        "admin *sdk.Client",
        "\x7d",
        "",
        "func NewClient(opts ...core.ClientOption) *Client \x7b",
        "options := core.NewClientOptions()",
        "for _, opt := range opts \x7b",
        "opt(options)",
        "\x7d",
        "return &Client\x7b",
        "baseURL: options.BaseURL,",
        "caller: core.NewCaller(options.HTTPClient),",
        "header: options.ToHeader(),",
        "user: sdk.NewClient(opts...),",
        "admin: sdk.NewClient(opts...),",
        "\x7d",
        "\x7d",
        "",
        "func (c *Client) GetUser(ctx context.Context, request *sdk.GetUserRequest) error \x7b" ] :=
  ⟨⟨_, rfl,
    WriteClient_subpackages plainExternals emptyWriter [getUserQueryEndpoint]
      [subpackageNamed "user", subpackageNamed "admin"] none none rootFilepath none none () ()
      _ rfl⟩, by rfl⟩

/-- Claim C10: when the endpoints are reformatted without failure and every declared error
is in the error index, `WriteClient` writes the declaration of the client and then one
method per endpoint, in order; the method of an endpoint with query parameters holds, right
after its signature and its URL, the declaration of `queryParams`, then one group of lines
per query parameter, in order, then the lines that append the encoded parameters to the
URL; and the group of a query parameter that is neither literal-valued nor `AllowMultiple`
is the `queryParams.Add` statement inside an `if <request>.<Field>!= nil` block exactly when
its value type is an optional container, and that statement alone otherwise. -/
theorem WriteClient_query_parameter_guard {σ Scope : Type} (x : Externals σ Scope)
    (f : fileWriter Scope) (irEndpoints : List HttpEndpoint) (subpackages : List Subpackage)
    (environmentsConfig : Option EnvironmentsConfig)
    (errorDiscriminationStrategy : Option ErrorDiscriminationStrategy)
    (fernFilepath : FernFilepath) (generatedAuth : Option GeneratedAuth)
    (generatedEnvironment : Option GeneratedEnvironment) (s s1 : σ)
    (endpoints : List endpoint)
    (hconv : endpointsFromIR x f fernFilepath environmentsConfig "c" irEndpoints s =
      .ok (endpoints, s1))
    (hindex : ∀ irEndpoint ∈ irEndpoints, ∀ e ∈ irEndpoint.Errors,
      (f.errors.lookup e.Error.ErrorId).isSome = true) :
    ∃ blocks : List (List String),
      (WriteClient x f irEndpoints subpackages environmentsConfig errorDiscriminationStrategy
          fernFilepath generatedAuth generatedEnvironment s).lines =
        (clientDeclaration x f "Client" subpackages s1).1 ++ blocks.flatten ∧
      List.Forall₂
        (fun (irEndpoint : HttpEndpoint) (block : List String) =>
          ∃ ep,
            (∃ t t', endpointFromIR x f fernFilepath irEndpoint environmentsConfig "c" t =
              .ok (ep, t')) ∧
            ep.QueryParameters = irEndpoint.QueryParameters ∧
            (irEndpoint.QueryParameters ≠ [] →
              ∃ (segments : List (List String)) (after : List String),
                block = methodSignature x "c" "Client" ep ++ endpointURLLines x "c" ep ++
                  ["", "queryParams := make(url.Values)"] ++ segments.flatten ++
                  [ "if len(queryParams) > 0 \x7b",
                    "endpointURL += \"?\" + queryParams.Encode()",
                    "\x7d" ] ++ after ∧
                List.Forall₂
                  (fun (queryParameter : QueryParameter) (segment : List String) =>
                    queryParameter.AllowMultiple = false →
                    (∀ l, queryParameter.ValueType ≠ .container (.literal l)) →
                    ((∃ t, queryParameter.ValueType = .container (.optional t)) →
                        segment =
                          [presenceGuard ep queryParameter, queryParamsAdd ep queryParameter,
                            "\x7d"]) ∧
                      ((¬ ∃ t, queryParameter.ValueType = .container (.optional t)) →
                        segment = [queryParamsAdd ep queryParameter]))
                  irEndpoint.QueryParameters segments))
        irEndpoints blocks := by
  obtain ⟨blocks, s', hmethods, hall⟩ := clientMethods_of_IR x f fernFilepath
    environmentsConfig (errorDiscriminationStrategy.bind ErrorDiscriminationStrategy.Property)
    irEndpoints s s1 (clientDeclaration x f "Client" subpackages s1).2 endpoints hconv hindex
  have hlines : (WriteClient x f irEndpoints subpackages environmentsConfig
      errorDiscriminationStrategy fernFilepath generatedAuth generatedEnvironment s).lines =
      (clientDeclaration x f "Client" subpackages s1).1 ++ blocks.flatten := by
    simp only [WriteClient, hconv, hmethods]
  refine ⟨blocks, hlines, hall.imp ?_⟩
  rintro irEndpoint block ⟨_, ep, ⟨t, t', hep⟩, u, u', hdec, hblock⟩
  have hmethod : (clientMethod x f "c" "Client"
      (errorDiscriminationStrategy.bind ErrorDiscriminationStrategy.Property) ep u).lines =
      methodSignature x "c" "Client" ep ++ endpointURLLines x "c" ep ++
        queryParametersLines x.literalToValue ep ++ headersLines x.literalToValue "c" ep ++
        (errorDecoderLines x f
          (errorDiscriminationStrategy.bind ErrorDiscriminationStrategy.Property) ep u).lines ++
        responseVariableLines ep ++ multipartLines x.literalToValue x.quote "c" ep ++
        callLines "c" ep := by
    simp only [clientMethod, hdec]
  rw [hmethod] at hblock
  have hquery := (endpointFromIR_fields x f fernFilepath irEndpoint environmentsConfig "c" t t'
    ep hep).1
  refine ⟨ep, ⟨t, t', hep⟩, hquery, ?_⟩
  intro hne
  rw [← hquery] at hne ⊢
  have hlen : ep.QueryParameters.length > 0 := List.length_pos.2 hne
  refine ⟨ep.QueryParameters.map (queryParameterLines x.literalToValue ep),
    headersLines x.literalToValue "c" ep ++
      (errorDecoderLines x f
        (errorDiscriminationStrategy.bind ErrorDiscriminationStrategy.Property) ep u).lines ++
      responseVariableLines ep ++ multipartLines x.literalToValue x.quote "c" ep ++
      callLines "c" ep, ?_, ?_⟩
  · rw [hblock]
    simp only [queryParametersLines, hlen, if_true, List.flatMap, List.append_assoc]
    rfl
  · rw [List.forall₂_map_right_iff, List.forall₂_same]
    intro queryParameter _ hmultiple hliteral
    exact queryParameterLines_guard x.literalToValue ep queryParameter hmultiple hliteral

/-- Witness of C10 at the endpoint `GetUser` with the optional query parameter `shallow`:
the statement is guarded by `if request.Shallow!= nil`. -/
theorem WriteClient_query_parameter_guard_witness :
    (∃ endpoints,
      endpointsFromIR plainExternals emptyWriter rootFilepath none "c" [getUserQueryEndpoint]
        () = .ok (endpoints, ()) ∧
      ∃ blocks : List (List String),
        (WriteClient plainExternals emptyWriter [getUserQueryEndpoint] [] none none
            rootFilepath none none ()).lines =
          (clientDeclaration plainExternals emptyWriter "Client" [] ()).1 ++ blocks.flatten ∧
        List.Forall₂
          (fun (irEndpoint : HttpEndpoint) (block : List String) =>
            ∃ ep,
              (∃ t t', endpointFromIR plainExternals emptyWriter rootFilepath irEndpoint none
                "c" t = .ok (ep, t')) ∧
              ep.QueryParameters = irEndpoint.QueryParameters ∧
              (irEndpoint.QueryParameters ≠ [] →
                ∃ (segments : List (List String)) (after : List String),
                  block = methodSignature plainExternals "c" "Client" ep ++
                    endpointURLLines plainExternals "c" ep ++
                    ["", "queryParams := make(url.Values)"] ++ segments.flatten ++
                    [ "if len(queryParams) > 0 \x7b",
                      "endpointURL += \"?\" + queryParams.Encode()",
                      "\x7d" ] ++ after ∧
                  List.Forall₂
                    (fun (queryParameter : QueryParameter) (segment : List String) =>
                      queryParameter.AllowMultiple = false →
                      (∀ l, queryParameter.ValueType ≠ .container (.literal l)) →
                      ((∃ t, queryParameter.ValueType = .container (.optional t)) →
                          segment =
                            [presenceGuard ep queryParameter, queryParamsAdd ep queryParameter,
                              "\x7d"]) ∧
                        ((¬ ∃ t, queryParameter.ValueType = .container (.optional t)) →
                          segment = [queryParamsAdd ep queryParameter]))
                    irEndpoint.QueryParameters segments))
          [getUserQueryEndpoint] blocks) ∧
      ((WriteClient plainExternals emptyWriter [getUserQueryEndpoint] [] none none rootFilepath
          none none ()).lines.drop 25).take 8 =
        [ "",
          "queryParams := make(url.Values)",
          "if request.Shallow!= nil \x7b",
          "queryParams.Add(\"shallow\", fmt.Sprintf(\"%v\", *request.Shallow))",
          "\x7d",
          "if len(queryParams) > 0 \x7b",
          "endpointURL += \"?\" + queryParams.Encode()",
          "\x7d" ] :=
  ⟨⟨_, rfl,
    WriteClient_query_parameter_guard plainExternals emptyWriter [getUserQueryEndpoint] [] none
      none rootFilepath none none () () _ rfl (by decide)⟩, by rfl⟩

/-- A line whose first element starts with a character other than the first character of a
text is not that text. -/
theorem P_ne_of_head (a : String) (rest : List String) (t : String) (c d : Char)
    (as ts : List Char) (ha : a.toList = c :: as) (ht : t.toList = d :: ts) (hcd : c ≠ d) :
    P (a :: rest) ≠ t := by
  intro h
  have h2 := congrArg String.toList h
  rw [P, join_cons] at h2
  have h4 : (a ++ String.join rest).data = t.data := h2
  rw [String.data_append] at h4
  have ha2 : a.data = c :: as := ha
  have ht2 : t.data = d :: ts := ht
  rw [ha2, ht2] at h4
  injection h4 with h3 _
  exact hcd h3

/-- A line whose first element starts with a character other than `E` is not the
`ErrorDecoder` parameter of the call. -/
theorem P_ne_errorDecoder (a : String) (rest : List String) (c : Char) (as : List Char)
    (ha : a.toList = c :: as) (hc : c ≠ 'E') :
    ¬ "ErrorDecoder:errorDecoder," = P (a :: rest) :=
  fun h => P_ne_of_head a rest "ErrorDecoder:errorDecoder," c 'E' as
    "rrorDecoder:errorDecoder,".toList ha rfl hc h.symm

/-- No line of a call without `ErrorDecoder` parameter is `ErrorDecoder:errorDecoder,`: the
other lines of the call start with another character. -/
theorem callLines_without_errorDecoder (receiver : String) (endpoint : endpoint)
    (hname : endpoint.ErrorDecoderParameterName = "") :
    "ErrorDecoder:errorDecoder," ∉ callLines receiver endpoint := by
  have hparameter : errorDecoderParameter endpoint = [] := by
    simp [errorDecoderParameter, hname]
  have h1 := fun rest => P_ne_errorDecoder "streamer := core.NewStreamer[" rest 's' _ rfl
    (by decide)
  have h2 := fun rest => P_ne_errorDecoder "Method:" rest 'M' _ rfl (by decide)
  have h3 := fun rest => P_ne_errorDecoder "Headers:" rest 'H' _ rfl (by decide)
  have h4 := fun rest => P_ne_errorDecoder "Request: " rest 'R' _ rfl (by decide)
  have h5 := fun rest => P_ne_errorDecoder "Delimiter: " rest 'D' _ rfl (by decide)
  have h6 := fun rest => P_ne_errorDecoder "if err := " rest 'i' _ rfl (by decide)
  have h7 := fun rest => P_ne_errorDecoder "Response: " rest 'R' _ rfl (by decide)
  have h8 := fun rest => P_ne_errorDecoder "return " rest 'r' _ rfl (by decide)
  have l1 : ¬ "ErrorDecoder:errorDecoder," = P ["return streamer.Stream("] := by decide
  have l2 : ¬ "ErrorDecoder:errorDecoder," = P ["ctx,"] := by decide
  have l3 : ¬ "ErrorDecoder:errorDecoder," = P ["&core.StreamParams\x7b"] := by decide
  have l4 : ¬ "ErrorDecoder:errorDecoder," = P ["URL: endpointURL, "] := by decide
  have l5 : ¬ "ErrorDecoder:errorDecoder," = P ["\x7d,"] := by decide
  have l6 : ¬ "ErrorDecoder:errorDecoder," = P [")"] := by decide
  have l7 : ¬ "ErrorDecoder:errorDecoder," = P ["\x7d"] := by decide
  have l8 : ¬ "ErrorDecoder:errorDecoder," = P [] := by decide
  have l9 : ¬ "ErrorDecoder:errorDecoder," = P ["&core.CallParams\x7b"] := by decide
  have l10 : ¬ "ErrorDecoder:errorDecoder," = P ["ResponseIsOptional: true,"] := by decide
  have l11 : ¬ "ErrorDecoder:errorDecoder," = P ["); err != nil \x7b"] := by decide
  unfold callLines
  rw [hparameter]
  split
  · simp only [List.mem_append, List.mem_cons, List.mem_singleton, List.not_mem_nil,
      or_false, not_or]
    split_ifs <;>
      simp only [List.mem_singleton, List.not_mem_nil, not_false_eq_true, and_self, h1, h2,
        h3, h4, h5, l1, l2, l3, l4, l5, l6, l7, l8]
  · simp only [List.mem_append, List.mem_cons, List.mem_singleton, List.not_mem_nil,
      or_false, not_or]
    split_ifs <;>
      simp only [List.mem_singleton, List.not_mem_nil, not_false_eq_true, and_self, h2, h3,
        h4, h6, h7, h8, l2, l4, l5, l7, l8, l9, l10, l11]

/-- The error decoder block of an endpoint: it starts with the definition of `errorDecoder`
when the endpoint declares an error, and it is empty otherwise. -/
theorem errorDecoderLines_head {σ Scope : Type} (x : Externals σ Scope)
    (f : fileWriter Scope) (strategy : Option ErrorDiscriminationByPropertyStrategy)
    (endpoint : endpoint) (t : σ) :
    (endpoint.Errors ≠ [] →
        (errorDecoderLines x f strategy endpoint t).lines.head? =
          some "errorDecoder := func(statusCode int, body io.Reader) error \x7b") ∧
      (endpoint.Errors = [] → (errorDecoderLines x f strategy endpoint t).lines = []) := by
  constructor
  · intro hne
    have hlen : endpoint.Errors.length > 0 := List.length_pos.2 hne
    unfold errorDecoderLines
    simp only [hlen, if_true]
    cases hcases : (errorDecoderCases x f strategy
        (match strategy with
          | some strategy =>
            "discriminant." ++ strategy.ContentProperty.Name.PascalCase.UnsafeName
          | none => "") endpoint.Errors t).result with
    | error e => rfl
    | ok r => rfl
  · intro hnil
    unfold errorDecoderLines
    rw [hnil]
    rfl

/-- Claim C16: for every endpoint, the endpoint returned by `endpointFromIR` names the
error decoder `errorDecoder` if and only if the IR endpoint declares an error; and when the
endpoints are reformatted without failure, every declared error being in the error index,
the method that `WriteClient` writes for the endpoint holds, between the headers and the
response variable, an error decoder block that starts with the definition of `errorDecoder`
when the endpoint declares an error and is empty otherwise, and the call at the end of the
method passes `ErrorDecoder:errorDecoder,` under that same condition and not otherwise. -/
theorem WriteClient_error_decoder_iff {σ Scope : Type} (x : Externals σ Scope)
    (f : fileWriter Scope) (irEndpoints : List HttpEndpoint) (subpackages : List Subpackage)
    (environmentsConfig : Option EnvironmentsConfig)
    (errorDiscriminationStrategy : Option ErrorDiscriminationStrategy)
    (fernFilepath : FernFilepath) (generatedAuth : Option GeneratedAuth)
    (generatedEnvironment : Option GeneratedEnvironment) (s s1 : σ)
    (endpoints : List endpoint)
    (hconv : endpointsFromIR x f fernFilepath environmentsConfig "c" irEndpoints s =
      .ok (endpoints, s1))
    (hindex : ∀ irEndpoint ∈ irEndpoints, ∀ e ∈ irEndpoint.Errors,
      (f.errors.lookup e.Error.ErrorId).isSome = true) :
    ∃ blocks : List (List String),
      (WriteClient x f irEndpoints subpackages environmentsConfig errorDiscriminationStrategy
          fernFilepath generatedAuth generatedEnvironment s).lines =
        (clientDeclaration x f "Client" subpackages s1).1 ++ blocks.flatten ∧
      List.Forall₂
        (fun (irEndpoint : HttpEndpoint) (block : List String) =>
          ∃ (ep : endpoint) (decoder : List String),
            (∃ t t', endpointFromIR x f fernFilepath irEndpoint environmentsConfig "c" t =
              .ok (ep, t')) ∧
            (ep.ErrorDecoderParameterName = "errorDecoder" ↔ irEndpoint.Errors ≠ []) ∧
            block = methodSignature x "c" "Client" ep ++ endpointURLLines x "c" ep ++
              queryParametersLines x.literalToValue ep ++
              headersLines x.literalToValue "c" ep ++ decoder ++
              responseVariableLines ep ++ multipartLines x.literalToValue x.quote "c" ep ++
              callLines "c" ep ∧
            (irEndpoint.Errors ≠ [] →
              decoder.head? =
                  some "errorDecoder := func(statusCode int, body io.Reader) error \x7b" ∧
                "ErrorDecoder:errorDecoder," ∈ callLines "c" ep) ∧
            (irEndpoint.Errors = [] →
              decoder = [] ∧ "ErrorDecoder:errorDecoder," ∉ callLines "c" ep))
        irEndpoints blocks := by
  obtain ⟨blocks, s', hmethods, hall⟩ := clientMethods_of_IR x f fernFilepath
    environmentsConfig (errorDiscriminationStrategy.bind ErrorDiscriminationStrategy.Property)
    irEndpoints s s1 (clientDeclaration x f "Client" subpackages s1).2 endpoints hconv hindex
  have hlines : (WriteClient x f irEndpoints subpackages environmentsConfig
      errorDiscriminationStrategy fernFilepath generatedAuth generatedEnvironment s).lines =
      (clientDeclaration x f "Client" subpackages s1).1 ++ blocks.flatten := by
    simp only [WriteClient, hconv, hmethods]
  refine ⟨blocks, hlines, hall.imp ?_⟩
  rintro irEndpoint block ⟨_, ep, ⟨t, t', hep⟩, u, u', hdec, hblock⟩
  have hmethod : (clientMethod x f "c" "Client"
      (errorDiscriminationStrategy.bind ErrorDiscriminationStrategy.Property) ep u).lines =
      methodSignature x "c" "Client" ep ++ endpointURLLines x "c" ep ++
        queryParametersLines x.literalToValue ep ++ headersLines x.literalToValue "c" ep ++
        (errorDecoderLines x f
          (errorDiscriminationStrategy.bind ErrorDiscriminationStrategy.Property) ep u).lines ++
        responseVariableLines ep ++ multipartLines x.literalToValue x.quote "c" ep ++
        callLines "c" ep := by
    simp only [clientMethod, hdec]
  rw [hmethod] at hblock
  obtain ⟨herrors, hname⟩ := endpointFromIR_errors x f fernFilepath irEndpoint
    environmentsConfig "c" t t' ep hep
  have hhead := errorDecoderLines_head x f
    (errorDiscriminationStrategy.bind ErrorDiscriminationStrategy.Property) ep u
  rw [herrors] at hhead
  refine ⟨ep, _, ⟨t, t', hep⟩, ?_, hblock, ?_, ?_⟩
  · rw [hname]
    cases hE : irEndpoint.Errors with
    | nil => simp
    | cons e rest => simp
  · intro hne
    have hlen : irEndpoint.Errors.length > 0 := List.length_pos.2 hne
    have hname2 : ep.ErrorDecoderParameterName = "errorDecoder" := by
      rw [hname]
      simp only [hlen, if_true]
    have hparameter : "ErrorDecoder:errorDecoder," ∈ errorDecoderParameter ep := by
      simp only [errorDecoderParameter, hname2]
      decide
    refine ⟨hhead.1 hne, ?_⟩
    unfold callLines
    split
    · simp only [List.mem_append]
      exact Or.inl (Or.inl (Or.inr hparameter))
    · simp only [List.mem_append]
      exact Or.inl (Or.inr hparameter)
  · intro hnil
    exact ⟨hhead.2 hnil,
      callLines_without_errorDecoder "c" ep (by rw [hname, hnil]; rfl)⟩

/-- Witness of C16 at an endpoint that declares two errors: the decoder is named, defined
and passed to the call. -/
theorem WriteClient_error_decoder_iff_witness :
    (∃ (ep : endpoint) (decoder : List String),
      (∃ t t', endpointFromIR plainExternals errorsWriter rootFilepath failingEndpoint none "c"
        t = .ok (ep, t')) ∧
      ep.ErrorDecoderParameterName = "errorDecoder" ∧
      decoder.head? = some "errorDecoder := func(statusCode int, body io.Reader) error \x7b" ∧
      "ErrorDecoder:errorDecoder," ∈ callLines "c" ep) ∧
    "errorDecoder := func(statusCode int, body io.Reader) error \x7b" ∈
      (WriteClient plainExternals errorsWriter [failingEndpoint] [] none none rootFilepath none
        none ()).lines ∧
    "ErrorDecoder:errorDecoder," ∈
      (WriteClient plainExternals errorsWriter [failingEndpoint] [] none none rootFilepath none
        none ()).lines := by
  obtain ⟨blocks, _, hall⟩ :=
    WriteClient_error_decoder_iff plainExternals errorsWriter [failingEndpoint] [] none none
      rootFilepath none none () () _ rfl (by decide)
  cases hall with
  | cons hfirst _ =>
    obtain ⟨ep, decoder, hep, hiff, _, hpos, _⟩ := hfirst
    exact ⟨⟨ep, decoder, hep, hiff.2 (by decide), (hpos (by decide)).1, (hpos (by decide)).2⟩,
      by decide, by decide⟩

/-- Claim C17: when the endpoints are reformatted without failure and every declared error
is in the error index, the method that `WriteClient` writes for an endpoint with declared
errors holds, between the headers and the response variable, the error decoder: the opening
up to the `switch` (on `statusCode`, or on the discriminant field with a
discrimination-by-property strategy), then exactly one case per declared error in
declaration order (labelled with the status code and decoding the whole body, or labelled
with the quoted discriminant value and decoding the content field), then the end of the
switch followed by `return apiError`, the generic API error built from the raw body. -/
theorem WriteClient_error_decoder_cases {σ Scope : Type} (x : Externals σ Scope)
    (f : fileWriter Scope) (irEndpoints : List HttpEndpoint) (subpackages : List Subpackage)
    (environmentsConfig : Option EnvironmentsConfig)
    (errorDiscriminationStrategy : Option ErrorDiscriminationStrategy)
    (fernFilepath : FernFilepath) (generatedAuth : Option GeneratedAuth)
    (generatedEnvironment : Option GeneratedEnvironment) (s s1 : σ)
    (endpoints : List endpoint)
    (hconv : endpointsFromIR x f fernFilepath environmentsConfig "c" irEndpoints s =
      .ok (endpoints, s1))
    (hindex : ∀ irEndpoint ∈ irEndpoints, ∀ e ∈ irEndpoint.Errors,
      (f.errors.lookup e.Error.ErrorId).isSome = true) :
    ∃ blocks : List (List String),
      (WriteClient x f irEndpoints subpackages environmentsConfig errorDiscriminationStrategy
          fernFilepath generatedAuth generatedEnvironment s).lines =
        (clientDeclaration x f "Client" subpackages s1).1 ++ blocks.flatten ∧
      List.Forall₂
        (fun (irEndpoint : HttpEndpoint) (block : List String) =>
          ∃ ep : endpoint,
            (∃ t t', endpointFromIR x f fernFilepath irEndpoint environmentsConfig "c" t =
              .ok (ep, t')) ∧
            (irEndpoint.Errors ≠ [] →
              ∃ errorTypes : List String,
                List.Forall₂
                  (fun (responseError : ResponseError) (declaration : ErrorDeclaration) =>
                    f.errors.lookup responseError.Error.ErrorId = some declaration)
                  irEndpoint.Errors (declarationsOf f irEndpoint.Errors) ∧
                List.Forall₂
                  (fun (declaration : ErrorDeclaration) (errorType : String) =>
                    ∃ importAlias, errorType =
                      importAlias ++ "." ++ declaration.Name.Name.PascalCase.UnsafeName)
                  (declarationsOf f irEndpoint.Errors) errorTypes ∧
                block = methodSignature x "c" "Client" ep ++ endpointURLLines x "c" ep ++
                  queryParametersLines x.literalToValue ep ++
                  headersLines x.literalToValue "c" ep ++
                  (decoderOpening
                      (errorDiscriminationStrategy.bind ErrorDiscriminationStrategy.Property) ++
                    (List.zipWith
                      (decoderCase
                        (errorDiscriminationStrategy.bind ErrorDiscriminationStrategy.Property))
                      (declarationsOf f irEndpoint.Errors) errorTypes).flatten ++
                    ["\x7d", "return apiError", "\x7d", ""]) ++
                  responseVariableLines ep ++
                  multipartLines x.literalToValue x.quote "c" ep ++ callLines "c" ep))
        irEndpoints blocks := by
  obtain ⟨blocks, s', hmethods, hall⟩ := clientMethods_of_IR x f fernFilepath
    environmentsConfig (errorDiscriminationStrategy.bind ErrorDiscriminationStrategy.Property)
    irEndpoints s s1 (clientDeclaration x f "Client" subpackages s1).2 endpoints hconv hindex
  have hlines : (WriteClient x f irEndpoints subpackages environmentsConfig
      errorDiscriminationStrategy fernFilepath generatedAuth generatedEnvironment s).lines =
      (clientDeclaration x f "Client" subpackages s1).1 ++ blocks.flatten := by
    simp only [WriteClient, hconv, hmethods]
  refine ⟨blocks, hlines, hall.imp ?_⟩
  rintro irEndpoint block ⟨hmem, ep, ⟨t, t', hep⟩, u, u', hdec, hblock⟩
  have hmethod : (clientMethod x f "c" "Client"
      (errorDiscriminationStrategy.bind ErrorDiscriminationStrategy.Property) ep u).lines =
      methodSignature x "c" "Client" ep ++ endpointURLLines x "c" ep ++
        queryParametersLines x.literalToValue ep ++ headersLines x.literalToValue "c" ep ++
        (errorDecoderLines x f
          (errorDiscriminationStrategy.bind ErrorDiscriminationStrategy.Property) ep u).lines ++
        responseVariableLines ep ++ multipartLines x.literalToValue x.quote "c" ep ++
        callLines "c" ep := by
    simp only [clientMethod, hdec]
  rw [hmethod] at hblock
  obtain ⟨herrors, _⟩ := endpointFromIR_errors x f fernFilepath irEndpoint
    environmentsConfig "c" t t' ep hep
  refine ⟨ep, ⟨t, t', hep⟩, ?_⟩
  intro hne
  obtain ⟨errorTypes, u2, hlookup, htypes, hdecoder⟩ := errorDecoderLines_cases x f
    (errorDiscriminationStrategy.bind ErrorDiscriminationStrategy.Property) ep u
    (by rw [herrors]; exact hne) (by rw [herrors]; exact hindex irEndpoint hmem)
  rw [herrors] at hlookup htypes hdecoder
  refine ⟨errorTypes, hlookup, htypes, ?_⟩
  rw [hblock, hdecoder]

/-- Witness of C17 with the strategy of section 8: the discriminant `errorType` selects
`conflict` (status 409) and `notFound` (status 404), in the order of declaration. -/
theorem WriteClient_error_decoder_cases_witness :
    (∃ blocks : List (List String),
      (WriteClient plainExternals errorsWriter [failingEndpoint] [] none
          (some (.property errorTypeStrategy)) rootFilepath none none ()).lines =
        (clientDeclaration plainExternals errorsWriter "Client" [] ()).1 ++ blocks.flatten ∧
      blocks.length = 1) ∧
    ((WriteClient plainExternals errorsWriter [failingEndpoint] [] none
        (some (.property errorTypeStrategy)) rootFilepath none none ()).lines.drop 26).take 33 =
      [ "errorDecoder := func(statusCode int, body io.Reader) error \x7b",
        "raw, err := io.ReadAll(body)",
        "if err != nil \x7b",
        "return err",
        "\x7d",
        "apiError := core.NewAPIError(statusCode, errors.New(string(raw)))",
        "decoder := json.NewDecoder(bytes.NewReader(raw))",
        "var discriminant struct \x7b",
        "ErrorType string `json:\"errorType\"`",
        "Content json.RawMessage `json:\"content\"`",
        "\x7d",
        "if err := decoder.Decode(&discriminant); err != nil \x7b",
        "return err",
        "\x7d",
        "switch discriminant.ErrorType \x7b",
        "case \"conflict\":",
        "value := new(sdk.ConflictError)",
        "value.APIError = apiError",
        "if err := json.Unmarshal(discriminant.Content, value); err != nil \x7b",
        "return apiError",
        "\x7d",
        "return value",
        "case \"notFound\":",
        "value := new(sdk.NotFoundError)",
        "value.APIError = apiError",
        "if err := json.Unmarshal(discriminant.Content, value); err != nil \x7b",
        "return apiError",
        "\x7d",
        "return value",
        "\x7d",
        "return apiError",
        "\x7d",
        "" ] := by
  obtain ⟨blocks, hlines, hall⟩ :=
    WriteClient_error_decoder_cases plainExternals errorsWriter [failingEndpoint] [] none
      (some (.property errorTypeStrategy)) rootFilepath none none () () _ rfl (by decide)
  exact ⟨⟨blocks, hlines, hall.length_eq.symm⟩, by rfl⟩

/-- The lines of a body property of a multipart request whose type is not a literal: the
write of the property, inside a `!= nil` guard exactly when the type is an optional
container. -/
theorem fileBodyPropertyLines_write (literalToValue : Literal → String) (endpoint : endpoint)
    (property : InlinedRequestBodyProperty)
    (hliteral : property.ValueType.Container.bind ContainerType.Literal = none) :
    fileBodyPropertyLines literalToValue endpoint property =
      if (property.ValueType.Container.bind ContainerType.Optional).isSome then
        ["if " ++ endpoint.RequestParameterName ++ "." ++
            property.Name.Name.PascalCase.UnsafeName ++ "!= nil \x7b"] ++
          multipartWrite endpoint property ++ ["\x7d"]
      else multipartWrite endpoint property := by
  unfold fileBodyPropertyLines
  simp only [hliteral, formatForValueType_isPrimitive, formatForValueType_isOptional,
    multipartWrite, multipartField]
  cases hp : maybePrimitive property.ValueType <;>
    cases ho : (property.ValueType.Container.bind ContainerType.Optional).isSome <;>
    simp [P, String.join, String.append_assoc]

/-- Claim C25: when the endpoints are reformatted without failure and every declared error
is in the error index, the method that `WriteClient` writes for a file-upload endpoint with
body properties holds the multipart block: the buffer and the writer, the lines of the
files, then one group of lines per body property, in order, then the closing of the writer
and the content type, right before the call; and the group of a body property whose type is
not a literal writes it with `core.WriteMultipartJSON` when `maybePrimitive` of its type is
empty and with `writer.WriteField` otherwise, inside a `!= nil` guard exactly when the type
is an optional container. -/
theorem WriteClient_multipart_fields {σ Scope : Type} (x : Externals σ Scope)
    (f : fileWriter Scope) (irEndpoints : List HttpEndpoint) (subpackages : List Subpackage)
    (environmentsConfig : Option EnvironmentsConfig)
    (errorDiscriminationStrategy : Option ErrorDiscriminationStrategy)
    (fernFilepath : FernFilepath) (generatedAuth : Option GeneratedAuth)
    (generatedEnvironment : Option GeneratedEnvironment) (s s1 : σ)
    (endpoints : List endpoint)
    (hconv : endpointsFromIR x f fernFilepath environmentsConfig "c" irEndpoints s =
      .ok (endpoints, s1))
    (hindex : ∀ irEndpoint ∈ irEndpoints, ∀ e ∈ irEndpoint.Errors,
      (f.errors.lookup e.Error.ErrorId).isSome = true) :
    ∃ blocks : List (List String),
      (WriteClient x f irEndpoints subpackages environmentsConfig errorDiscriminationStrategy
          fernFilepath generatedAuth generatedEnvironment s).lines =
        (clientDeclaration x f "Client" subpackages s1).1 ++ blocks.flatten ∧
      List.Forall₂
        (fun (irEndpoint : HttpEndpoint) (block : List String) =>
          ∃ ep : endpoint,
            (∃ t t', endpointFromIR x f fernFilepath irEndpoint environmentsConfig "c" t =
              .ok (ep, t')) ∧
            ∀ fileUpload, irEndpoint.RequestBody = some (.fileUpload fileUpload) →
              bodyPropertiesOf fileUpload ≠ [] →
              ∃ (before : List String) (segments : List (List String)),
                block = before ++
                  [ "requestBuffer := bytes.NewBuffer(nil)",
                    "writer := multipart.NewWriter(requestBuffer)" ] ++
                  ep.FileProperties.flatMap (filePropertyLines ep x.quote) ++
                  segments.flatten ++
                  [ "if err := writer.Close(); err != nil \x7b",
                    "return " ++ ep.ErrorReturnValues,
                    "\x7d",
                    headersParameter "c" ep ++
                      ".Set(\"Content-Type\", writer.FormDataContentType())",
                    "" ] ++ callLines "c" ep ∧
                List.Forall₂
                  (fun (property : InlinedRequestBodyProperty) (segment : List String) =>
                    property.ValueType.Container.bind ContainerType.Literal = none →
                    segment =
                      if (property.ValueType.Container.bind ContainerType.Optional).isSome then
                        ["if " ++ ep.RequestParameterName ++ "." ++
                            property.Name.Name.PascalCase.UnsafeName ++ "!= nil \x7b"] ++
                          multipartWrite ep property ++ ["\x7d"]
                      else multipartWrite ep property)
                  (bodyPropertiesOf fileUpload) segments)
        irEndpoints blocks := by
  obtain ⟨blocks, s', hmethods, hall⟩ := clientMethods_of_IR x f fernFilepath
    environmentsConfig (errorDiscriminationStrategy.bind ErrorDiscriminationStrategy.Property)
    irEndpoints s s1 (clientDeclaration x f "Client" subpackages s1).2 endpoints hconv hindex
  have hlines : (WriteClient x f irEndpoints subpackages environmentsConfig
      errorDiscriminationStrategy fernFilepath generatedAuth generatedEnvironment s).lines =
      (clientDeclaration x f "Client" subpackages s1).1 ++ blocks.flatten := by
    simp only [WriteClient, hconv, hmethods]
  refine ⟨blocks, hlines, hall.imp ?_⟩
  rintro irEndpoint block ⟨_, ep, ⟨t, t', hep⟩, u, u', hdec, hblock⟩
  have hmethod : (clientMethod x f "c" "Client"
      (errorDiscriminationStrategy.bind ErrorDiscriminationStrategy.Property) ep u).lines =
      methodSignature x "c" "Client" ep ++ endpointURLLines x "c" ep ++
        queryParametersLines x.literalToValue ep ++ headersLines x.literalToValue "c" ep ++
        (errorDecoderLines x f
          (errorDiscriminationStrategy.bind ErrorDiscriminationStrategy.Property) ep u).lines ++
        responseVariableLines ep ++ multipartLines x.literalToValue x.quote "c" ep ++
        callLines "c" ep := by
    simp only [clientMethod, hdec]
  rw [hmethod] at hblock
  have hbody := (endpointFromIR_fields x f fernFilepath irEndpoint environmentsConfig "c" t t'
    ep hep).2.2.2
  refine ⟨ep, ⟨t, t', hep⟩, ?_⟩
  intro fileUpload hupload hne
  rw [hupload] at hbody
  have hbody2 : ep.FileBodyProperties = bodyPropertiesOf fileUpload := hbody
  rw [← hbody2] at hne ⊢
  have hlen : ep.FileProperties.length > 0 ∨ ep.FileBodyProperties.length > 0 :=
    Or.inr (List.length_pos.2 hne)
  refine ⟨methodSignature x "c" "Client" ep ++ endpointURLLines x "c" ep ++
      queryParametersLines x.literalToValue ep ++ headersLines x.literalToValue "c" ep ++
      (errorDecoderLines x f
        (errorDiscriminationStrategy.bind ErrorDiscriminationStrategy.Property) ep u).lines ++
      responseVariableLines ep,
    ep.FileBodyProperties.map (fileBodyPropertyLines x.literalToValue ep), ?_, ?_⟩
  · rw [hblock]
    simp only [multipartLines, hlen, if_true, List.flatMap, List.append_assoc]
    simp [P, String.join]
  · rw [List.forall₂_map_right_iff, List.forall₂_same]
    intro property _ hliteral
    exact fileBodyPropertyLines_write x.literalToValue ep property hliteral

/-- Witness of C25 at the endpoint `Post`, whose optional string `maybeString` is written
by a guarded `writer.WriteField`. -/
theorem WriteClient_multipart_fields_witness :
    (∃ blocks : List (List String),
      (WriteClient plainExternals emptyWriter [postEndpoint] [] none none rootFilepath none
          none ()).lines =
        (clientDeclaration plainExternals emptyWriter "Client" [] ()).1 ++ blocks.flatten ∧
      blocks.length = 1) ∧
    ((WriteClient plainExternals emptyWriter [postEndpoint] [] none none rootFilepath none
        none ()).lines.drop 52).take 5 =
      [ "if request.MaybeString!= nil \x7b",
        "if err := writer.WriteField(\"maybeString\", fmt.Sprintf(\"%v\", *request.MaybeString)); err != nil \x7b",
        "return err",
        "\x7d",
        "\x7d" ] := by
  obtain ⟨blocks, hlines, hall⟩ :=
    WriteClient_multipart_fields plainExternals emptyWriter [postEndpoint] [] none none
      rootFilepath none none () () _ rfl (by decide)
  exact ⟨⟨blocks, hlines, hall.length_eq.symm⟩, by rfl⟩

/-! ## The fields and the options of the client options: properties -/

/-- A loop over a list writes one group of lines per element, in order, each written by the
body of the loop from some state. -/
theorem writeEach_segments {σ α : Type} (body : α → σ → List String × σ) (l : List α)
    (s : σ) :
    ∃ segments : List (List String),
      (writeEach body l s).1 = segments.flatten ∧
      List.Forall₂ (fun a segment => ∃ t, segment = (body a t).1) l segments := by
  induction l generalizing s with
  | nil => exact ⟨[], rfl, List.Forall₂.nil⟩
  | cons a rest ih =>
    obtain ⟨segments, hlines, hall⟩ := ih (body a s).2
    refine ⟨(body a s).1 :: segments, ?_, List.Forall₂.cons ⟨s, rfl⟩ hall⟩
    simp only [writeEach, List.flatten_cons, hlines]

/-- The fields of `ClientOptions` after the three fixed fields: one group of fields per auth
scheme, then one per custom header, in order. -/
theorem clientOptionsFields_segments {σ Scope : Type} (x : Externals σ Scope)
    (f : fileWriter Scope) (importPath : String) (schemes : List AuthScheme)
    (headers : List HttpHeader) (s : σ) :
    ∃ schemeFields customFields : List (List String),
      (clientOptionsFields x f importPath schemes headers s).1 =
        schemeFields.flatten ++ customFields.flatten ∧
      List.Forall₂
        (fun authScheme segment => ∃ t,
          segment = (authSchemeFields x f importPath authScheme t).1)
        schemes schemeFields ∧
      List.Forall₂
        (fun header segment => ∃ t, segment = (headerFields x f importPath header t).1)
        headers customFields := by
  obtain ⟨schemeFields, hscheme, hschemes⟩ :=
    writeEach_segments (authSchemeFields x f importPath) schemes s
  obtain ⟨customFields, hcustom, hcustoms⟩ :=
    writeEach_segments (headerFields x f importPath) headers
      (writeEach (authSchemeFields x f importPath) schemes s).2
  refine ⟨schemeFields, customFields, ?_, hschemes, hcustoms⟩
  simp only [clientOptionsFields, hscheme, hcustom]

/-- The lines of the loop of `WriteClientOptions` over the auth schemes: one group of lines
per auth scheme, in order, the option function of the scheme if it has one. -/
theorem authOptionsLoop_segments {σ Scope : Type} (x : Externals σ Scope)
    (f : fileWriter Scope) (importPath clientOptionType clientOptionsType : String)
    (authDocs : Option String) (schemes : List AuthScheme) (s : σ) :
    ∃ schemeOptions : List (List String),
      (authOptionsLoop x f importPath clientOptionType clientOptionsType authDocs 0 schemes
        none s).1.1 = schemeOptions.flatten ∧
      List.Forall₂
        (fun authScheme segment => ∃ t,
          segment = optionLines clientOptionsType
            (authSchemeOption x f importPath clientOptionType authDocs authScheme t).1)
        schemes schemeOptions := by
  have hloop := authOptionsLoop_lines x f importPath clientOptionType clientOptionsType
    authDocs 0 schemes none s
  have hlines := congrArg Prod.fst hloop
  simp only at hlines
  obtain ⟨schemeOptions, hscheme, hschemes⟩ :=
    writeEach_segments (fun authScheme s =>
      (optionLines clientOptionsType
        (authSchemeOption x f importPath clientOptionType authDocs authScheme s).1,
        (authSchemeOption x f importPath clientOptionType authDocs authScheme s).2)) schemes s
  exact ⟨schemeOptions, hlines.trans hscheme, hschemes⟩

/-- The statements of `ToHeader` for a literal-valued header scheme: the single
`header.Set` of the literal's fixed value, under no guard. -/
theorem authSchemeToHeader_literal (literalToValue : Literal → String)
    (header : HeaderAuthScheme) (l : Literal)
    (hliteral : header.ValueType.Container.bind ContainerType.Literal = some l) :
    authSchemeToHeader literalToValue (.header header) =
      [literalHeaderStatement header.Name.WireValue (schemePrefix header)
        (literalToValue l)] := by
  simp only [authSchemeToHeader, hliteral, literalHeaderStatement, schemePrefix]
  simp [P, String.join, String.append_assoc]

/-- The statements of `ToHeader` for a literal-valued custom header: the single `header.Set`
of the literal's fixed value, under no guard. -/
theorem headerToHeader_literal (literalToValue : Literal → String) (header : HttpHeader)
    (l : Literal) (hliteral : header.ValueType.Container.bind ContainerType.Literal = some l) :
    headerToHeader literalToValue header =
      [literalHeaderStatement header.Name.WireValue "" (literalToValue l)] := by
  simp only [headerToHeader, hliteral, literalHeaderStatement]
  simp [P, String.join, String.append_assoc]

/-- Claim C22: literal-valued headers are excluded from the configuration surface.  The
lines of `WriteClientOptionsDefinition` are the opening of the struct `ClientOptions`, one
group of fields per auth scheme and per custom header, in order, the constructor, `ToHeader`
and the platform headers; the group of a literal-valued header scheme or custom header is
empty, and the fields are those written without the literal-valued header schemes and custom
headers.  The lines of `WriteClientOptions` are the three fixed options and one group per
auth scheme and per custom header, in order; the group of a literal-valued header scheme or
custom header is empty, and the lines are those written without them.  With a scheme or a
header, `ToHeader` holds one group of statements per auth scheme and per custom header, in
order, and the group of a literal-valued header scheme or custom header is the single
`header.Set` of the literal's fixed value, under no guard, which is among the lines
written. -/
theorem literal_headers_not_configurable {σ Scope : Type} (x : Externals σ Scope)
    (f : fileWriter Scope) (auth : ApiAuth) (headers : List HttpHeader)
    (sdkConfig : Option SdkConfig) (moduleConfig : Option ModuleConfig) (sdkVersion : String)
    (s : σ) :
    (∃ (schemeFields customFields : List (List String)) (after : List String),
      (WriteClientOptionsDefinition x f (some auth) headers sdkConfig moduleConfig sdkVersion
          s).lines =
        clientOptionsOpening ++ schemeFields.flatten ++ customFields.flatten ++
          newClientOptionsLines ++ after ∧
      List.Forall₂
        (fun authScheme segment => isLiteralScheme authScheme = true → segment = [])
        auth.Schemes schemeFields ∧
      List.Forall₂
        (fun header segment => isLiteralHeader header = true → segment = [])
        headers customFields ∧
      (¬ (auth.Schemes = [] ∧ headers = []) →
        ∃ (schemeStatements customStatements : List (List String)) (platform : List String),
          after = toHeaderOpening ++ schemeStatements.flatten ++
            customStatements.flatten ++ ["return header", "\x7d", ""] ++ platform ∧
          List.Forall₂
            (fun authScheme segment => ∀ header l, authScheme = .header header →
              header.ValueType.Container.bind ContainerType.Literal = some l →
              segment =
                [literalHeaderStatement header.Name.WireValue (schemePrefix header)
                  (x.literalToValue l)])
            auth.Schemes schemeStatements ∧
          List.Forall₂
            (fun (header : HttpHeader) segment => ∀ l,
              header.ValueType.Container.bind ContainerType.Literal = some l →
              segment =
                [literalHeaderStatement header.Name.WireValue "" (x.literalToValue l)])
            headers customStatements)) ∧
    (∃ fields after after',
      (WriteClientOptionsDefinition x f (some auth) headers sdkConfig moduleConfig sdkVersion
          s).lines =
        clientOptionsOpening ++ fields ++ newClientOptionsLines ++ after ∧
      (WriteClientOptionsDefinition x f (some (withoutLiteralSchemes auth))
          (withoutLiteralHeaders headers) sdkConfig moduleConfig sdkVersion s).lines =
        clientOptionsOpening ++ fields ++ newClientOptionsLines ++ after') ∧
    (∃ schemeOptions customOptions : List (List String),
      (WriteClientOptions x f (some auth) headers s).lines =
        fixedOptions ++ schemeOptions.flatten ++ customOptions.flatten ∧
      List.Forall₂
        (fun authScheme segment => isLiteralScheme authScheme = true → segment = [])
        auth.Schemes schemeOptions ∧
      List.Forall₂
        (fun header segment => isLiteralHeader header = true → segment = [])
        headers customOptions) ∧
    (WriteClientOptions x f (some auth) headers s).lines =
      (WriteClientOptions x f (some (withoutLiteralSchemes auth))
        (withoutLiteralHeaders headers) s).lines ∧
    (∀ header l, AuthScheme.header header ∈ auth.Schemes →
      header.ValueType.Container.bind ContainerType.Literal = some l →
      literalHeaderStatement header.Name.WireValue (schemePrefix header)
          (x.literalToValue l) ∈
        (WriteClientOptionsDefinition x f (some auth) headers sdkConfig moduleConfig
          sdkVersion s).lines) ∧
    (∀ header l, header ∈ headers →
      header.ValueType.Container.bind ContainerType.Literal = some l →
      literalHeaderStatement header.Name.WireValue "" (x.literalToValue l) ∈
        (WriteClientOptionsDefinition x f (some auth) headers sdkConfig moduleConfig
          sdkVersion s).lines) := by
  refine ⟨?_, ?_, ?_, (WriteClientOptions_lines_filter x f auth headers s).symm, ?_, ?_⟩
  · obtain ⟨schemeFields, customFields, hfields, hschemes, hcustoms⟩ :=
      clientOptionsFields_segments x f (x.pathJoin f.baseImportPath "core") auth.Schemes
        headers s
    refine ⟨schemeFields, customFields,
      (if auth.Schemes.length = 0 ∧ headers.length = 0 then
        [ P ["// ToHeader maps the configured client options into a http.Header issued"],
          P ["// on every request."],
          P ["func (c *ClientOptions) ToHeader() http.Header \x7b return c.cloneHeader() \x7d"],
          P [] ]
      else
        [ P ["// ToHeader maps the configured client options into a http.Header issued"],
          P ["// on every request."],
          P ["func (c *ClientOptions) ToHeader() http.Header \x7b"],
          P ["header := c.cloneHeader()"] ] ++
        toHeaderStatements x.literalToValue auth.Schemes headers ++
        [ P ["return header"],
          P ["\x7d"],
          P [] ]) ++
      (writePlatformHeaders x.quote sdkConfig moduleConfig sdkVersion
        (clientOptionsFields x f (x.pathJoin f.baseImportPath "core") auth.Schemes headers
          s).2).lines, ?_, hschemes.imp ?_, hcustoms.imp ?_, ?_⟩
    · simp only [WriteClientOptionsDefinition, hfields, List.append_assoc]
      rfl
    · rintro authScheme segment ⟨t, hsegment⟩ hliteral
      rw [hsegment]
      cases authScheme with
      | bearer b => simp [isLiteralScheme] at hliteral
      | basic => simp [isLiteralScheme] at hliteral
      | header h =>
        obtain ⟨l, hl⟩ := Option.isSome_iff_exists.1 hliteral
        simp only [authSchemeFields, hl]
    · rintro header segment ⟨t, hsegment⟩ hliteral
      rw [hsegment]
      obtain ⟨l, hl⟩ := Option.isSome_iff_exists.1 hliteral
      simp only [headerFields, hl]
    · intro hne
      have hcond : ¬ (auth.Schemes.length = 0 ∧ headers.length = 0) := by
        rw [List.length_eq_zero, List.length_eq_zero]
        exact hne
      refine ⟨auth.Schemes.map (authSchemeToHeader x.literalToValue),
        headers.map (headerToHeader x.literalToValue),
        (writePlatformHeaders x.quote sdkConfig moduleConfig sdkVersion
          (clientOptionsFields x f (x.pathJoin f.baseImportPath "core") auth.Schemes headers
            s).2).lines, ?_, ?_, ?_⟩
      · simp only [hcond, if_false, toHeaderStatements, List.flatMap]
        simp [toHeaderOpening, P, String.join]
      · rw [List.forall₂_map_right_iff, List.forall₂_same]
        intro authScheme _ header l hscheme hliteral
        rw [hscheme]
        exact authSchemeToHeader_literal x.literalToValue header l hliteral
      · rw [List.forall₂_map_right_iff, List.forall₂_same]
        intro header _ l hliteral
        exact headerToHeader_literal x.literalToValue header l hliteral
  · have hfilter := clientOptionsFields_filter x f (x.pathJoin f.baseImportPath "core")
      auth.Schemes headers s
    refine ⟨(clientOptionsFields x f (x.pathJoin f.baseImportPath "core") auth.Schemes headers
      s).1, ?_⟩
    simp only [WriteClientOptionsDefinition, withoutLiteralSchemes, withoutLiteralHeaders,
      hfilter, List.append_assoc]
    exact ⟨_, _, rfl, rfl⟩
  · obtain ⟨schemeOptions, hscheme, hschemes⟩ :=
      authOptionsLoop_segments x f (x.pathJoin f.baseImportPath "client") "core.ClientOption"
        "*core.ClientOptions" auth.Docs auth.Schemes s
    obtain ⟨customOptions, hcustom, hcustoms⟩ :=
      writeEach_segments (fun header s =>
        (optionLines "*core.ClientOptions"
          (headerOption x f (x.pathJoin f.baseImportPath "client") "core.ClientOption" header
            s).1,
          (headerOption x f (x.pathJoin f.baseImportPath "client") "core.ClientOption" header
            s).2)) headers
        (authOptionsLoop x f (x.pathJoin f.baseImportPath "client") "core.ClientOption"
          "*core.ClientOptions" auth.Docs 0 auth.Schemes none s).2
    refine ⟨schemeOptions, customOptions, ?_, hschemes.imp ?_, hcustoms.imp ?_⟩
    · simp only [WriteClientOptions]
      rw [hscheme, hcustom]
      simp only [List.append_assoc]
      rfl
    · rintro authScheme segment ⟨t, hsegment⟩ hliteral
      rw [hsegment]
      cases authScheme with
      | bearer b => simp [isLiteralScheme] at hliteral
      | basic => simp [isLiteralScheme] at hliteral
      | header h =>
        obtain ⟨l, hl⟩ := Option.isSome_iff_exists.1 hliteral
        simp only [authSchemeOption, hl, optionLines]
    · rintro header segment ⟨t, hsegment⟩ hliteral
      rw [hsegment]
      obtain ⟨l, hl⟩ := Option.isSome_iff_exists.1 hliteral
      simp only [headerOption, hl, optionLines]
  · intro header l hmem hliteral
    refine toHeaderStatements_mem x f auth headers sdkConfig moduleConfig sdkVersion s _ ?_
    unfold toHeaderStatements
    apply List.mem_append_left
    rw [List.mem_flatMap]
    exact ⟨_, hmem, by
      rw [authSchemeToHeader_literal x.literalToValue header l hliteral]
      exact List.mem_singleton.2 rfl⟩
  · intro header l hmem hliteral
    refine toHeaderStatements_mem x f auth headers sdkConfig moduleConfig sdkVersion s _ ?_
    unfold toHeaderStatements
    apply List.mem_append_right
    rw [List.mem_flatMap]
    exact ⟨_, hmem, by
      rw [headerToHeader_literal x.literalToValue header l hliteral]
      exact List.mem_singleton.2 rfl⟩

/-- Witness of C22 at the schemes `X-API-Version` (literal), bearer, basic and `X-API-Key`
and the custom headers `X-API-Version` (literal) and `X-Tenant`: the struct has the fields
of the four other schemes and headers only, the options are those of the four others, and
`ToHeader` sets `X-API-Version` to `"v1"` in one statement. -/
theorem literal_headers_not_configurable_witness :
    "header.Set(\"X-API-Version\", fmt.Sprintf(\"%v\",\"v1\"))" ∈
        (WriteClientOptionsDefinition plainExternals emptyWriter (some exampleAuth)
          [versionHeader, tenantHeader] none none "" ()).lines ∧
      ((WriteClientOptionsDefinition plainExternals emptyWriter (some exampleAuth)
          [versionHeader, tenantHeader] none none "" ()).lines.drop 10).take 6 =
        ["Token string", "Username string", "Password string", "APIKey any", "Tenant any",
          "\x7d"] ∧
      ((WriteClientOptions plainExternals emptyWriter (some exampleAuth)
          [versionHeader, tenantHeader] ()).lines.filter
            (fun line => containsText "func With" line)) =
        [ "func WithBaseURL(baseURL string) core.ClientOption \x7b",
          "func WithHTTPClient(httpClient core.HTTPClient) core.ClientOption \x7b",
          "func WithHTTPHeader(httpHeader http.Header) core.ClientOption \x7b",
          "func WithToken(token string) core.ClientOption \x7b",
          "func WithBasicAuth(username, password string) core.ClientOption \x7b",
          "func WithAPIKey(apiKey any) core.ClientOption \x7b",
          "func WithTenant(tenant any) core.ClientOption \x7b" ] :=
  ⟨(literal_headers_not_configurable plainExternals emptyWriter exampleAuth
      [versionHeader, tenantHeader] none none "" ()).2.2.2.2.2 versionHeader (.string "v1")
      (List.mem_cons_self _ _) rfl, by rfl, by rfl⟩

/-- Counterexample to C24 as stated: for the basic scheme alone, the struct `ClientOptions`
written by `WriteClientOptionsDefinition` has the two fields `Username` and `Password` after
its three fixed fields, and the closure of the one option `WithBasicAuth` written by
`WriteClientOptions` assigns both. -/
theorem WriteClientOptions_basic_counterexample :
    ((WriteClientOptionsDefinition plainExternals emptyWriter (some basicAuth) [] none none ""
        ()).lines.drop 6).take 7 =
        [ "type ClientOptions struct \x7b",
          "BaseURL string",
          "HTTPClient HTTPClient",
          "HTTPHeader http.Header",
          "Username string",
          "Password string",
          "\x7d" ] ∧
      (WriteClientOptions plainExternals emptyWriter (some basicAuth) [] ()).lines.drop 24 =
        [ "// WithBasicAuth sets the 'Authorization: Basic <base64>' header on every request.",
          "func WithBasicAuth(username, password string) core.ClientOption \x7b",
          "return func(opts *core.ClientOptions) \x7b",
          "opts.Username = username",
          "opts.Password = password",
          "\x7d",
          "\x7d",
          "" ] := by
  constructor <;> rfl

/-- Claim C24 (amended): the lines of `WriteClientOptionsDefinition` are the opening of the
struct `ClientOptions`, one group of fields per auth scheme and per custom header, in order,
and the constructor followed by the rest; the lines of `WriteClientOptions` are the three
fixed options and then one group per auth scheme and per custom header, in order.  The
groups of a bearer scheme, of a non-literal header scheme and of a non-literal custom header
are one field and one option function whose closure assigns that one field; the groups of
the basic scheme are the two fields `Username` and `Password` and the one option function
`WithBasicAuth`, whose closure assigns both. -/
theorem WriteClientOptions_contributions {σ Scope : Type} (x : Externals σ Scope)
    (f : fileWriter Scope) (auth : ApiAuth) (headers : List HttpHeader)
    (sdkConfig : Option SdkConfig) (moduleConfig : Option ModuleConfig) (sdkVersion : String)
    (s s' : σ) :
    (∃ (schemeFields customFields : List (List String)) (after : List String),
      (WriteClientOptionsDefinition x f (some auth) headers sdkConfig moduleConfig sdkVersion
          s).lines =
        clientOptionsOpening ++ schemeFields.flatten ++ customFields.flatten ++
          newClientOptionsLines ++ after ∧
      List.Forall₂
        (fun authScheme segment =>
          (∀ bearer, authScheme = .bearer bearer →
            segment = [bearer.Token.PascalCase.UnsafeName ++ " string"]) ∧
          (authScheme = .basic → segment = ["Username string", "Password string"]) ∧
          (∀ header, authScheme = .header header →
            header.ValueType.Container.bind ContainerType.Literal = none →
            ∃ goType, segment = [header.Name.Name.PascalCase.UnsafeName ++ " " ++ goType]))
        auth.Schemes schemeFields ∧
      List.Forall₂
        (fun (header : HttpHeader) segment =>
          header.ValueType.Container.bind ContainerType.Literal = none →
          ∃ goType, segment = [header.Name.Name.PascalCase.UnsafeName ++ " " ++ goType])
        headers customFields) ∧
    (∃ schemeOptions customOptions : List (List String),
      (WriteClientOptions x f (some auth) headers s').lines =
        fixedOptions ++ schemeOptions.flatten ++ customOptions.flatten ∧
      List.Forall₂
        (fun authScheme segment =>
          (∀ bearer, authScheme = .bearer bearer →
            ∃ description,
              (segment = description :: optionBody
                  ("func With" ++ bearer.Token.PascalCase.UnsafeName ++ "(" ++
                    bearer.Token.CamelCase.SafeName ++ " string) core.ClientOption \x7b")
                  ["opts." ++ bearer.Token.PascalCase.UnsafeName ++ " = " ++
                    bearer.Token.CamelCase.SafeName] ∨
                segment = description :: "//" :: x.WriteDocs auth.Docs ++ optionBody
                  ("func With" ++ bearer.Token.PascalCase.UnsafeName ++ "(" ++
                    bearer.Token.CamelCase.SafeName ++ " string) core.ClientOption \x7b")
                  ["opts." ++ bearer.Token.PascalCase.UnsafeName ++ " = " ++
                    bearer.Token.CamelCase.SafeName])) ∧
          (authScheme = .basic →
            ∃ description,
              (segment = description :: optionBody
                  "func WithBasicAuth(username, password string) core.ClientOption \x7b"
                  ["opts.Username = username", "opts.Password = password"] ∨
                segment = description :: "//" :: x.WriteDocs auth.Docs ++ optionBody
                  "func WithBasicAuth(username, password string) core.ClientOption \x7b"
                  ["opts.Username = username", "opts.Password = password"])) ∧
          (∀ header, authScheme = .header header →
            header.ValueType.Container.bind ContainerType.Literal = none →
            ∃ description goType,
              (segment = description :: optionBody
                  ("func With" ++ header.Name.Name.PascalCase.UnsafeName ++ "(" ++
                    header.Name.Name.CamelCase.SafeName ++ " " ++ goType ++
                    ") core.ClientOption \x7b")
                  ["opts." ++ header.Name.Name.PascalCase.UnsafeName ++ " = " ++
                    header.Name.Name.CamelCase.SafeName] ∨
                segment = description :: "//" :: x.WriteDocs auth.Docs ++ optionBody
                  ("func With" ++ header.Name.Name.PascalCase.UnsafeName ++ "(" ++
                    header.Name.Name.CamelCase.SafeName ++ " " ++ goType ++
                    ") core.ClientOption \x7b")
                  ["opts." ++ header.Name.Name.PascalCase.UnsafeName ++ " = " ++
                    header.Name.Name.CamelCase.SafeName])))
        auth.Schemes schemeOptions ∧
      List.Forall₂
        (fun (header : HttpHeader) segment =>
          header.ValueType.Container.bind ContainerType.Literal = none →
          ∃ description goType,
            (segment = description :: optionBody
                ("func With" ++ header.Name.Name.PascalCase.UnsafeName ++ "(" ++
                  header.Name.Name.CamelCase.SafeName ++ " " ++ goType ++
                  ") core.ClientOption \x7b")
                ["opts." ++ header.Name.Name.PascalCase.UnsafeName ++ " = " ++
                  header.Name.Name.CamelCase.SafeName] ∨
              segment = description :: "//" :: x.WriteDocs header.Docs ++ optionBody
                ("func With" ++ header.Name.Name.PascalCase.UnsafeName ++ "(" ++
                  header.Name.Name.CamelCase.SafeName ++ " " ++ goType ++
                  ") core.ClientOption \x7b")
                ["opts." ++ header.Name.Name.PascalCase.UnsafeName ++ " = " ++
                  header.Name.Name.CamelCase.SafeName]))
        headers customOptions) := by
  constructor
  · obtain ⟨schemeFields, customFields, hfields, hschemes, hcustoms⟩ :=
      clientOptionsFields_segments x f (x.pathJoin f.baseImportPath "core") auth.Schemes
        headers s
    have hlines : ∃ after,
        (WriteClientOptionsDefinition x f (some auth) headers sdkConfig moduleConfig sdkVersion
            s).lines =
          clientOptionsOpening ++ schemeFields.flatten ++ customFields.flatten ++
            newClientOptionsLines ++ after := by
      simp only [WriteClientOptionsDefinition, hfields, List.append_assoc]
      exact ⟨_, rfl⟩
    obtain ⟨after, hlines⟩ := hlines
    refine ⟨schemeFields, customFields, after, hlines, hschemes.imp ?_, hcustoms.imp ?_⟩
    · rintro authScheme segment ⟨t, hsegment⟩
      refine ⟨?_, ?_, ?_⟩
      · intro bearer hscheme
        rw [hsegment, hscheme]
        simp [authSchemeFields, P, String.join]
      · intro hscheme
        rw [hsegment, hscheme]
        rfl
      · intro header hscheme hliteral
        rw [hsegment, hscheme]
        simp only [authSchemeFields, hliteral]
        exact ⟨_, by simp [P, String.join, String.append_assoc]; rfl⟩
    · rintro header segment ⟨t, hsegment⟩ hliteral
      rw [hsegment]
      simp only [headerFields, hliteral]
      exact ⟨_, by simp [P, String.join, String.append_assoc]; rfl⟩
  · obtain ⟨schemeOptions, hscheme, hschemes⟩ :=
      authOptionsLoop_segments x f (x.pathJoin f.baseImportPath "client") "core.ClientOption"
        "*core.ClientOptions" auth.Docs auth.Schemes s'
    obtain ⟨customOptions, hcustom, hcustoms⟩ :=
      writeEach_segments (fun header s =>
        (optionLines "*core.ClientOptions"
          (headerOption x f (x.pathJoin f.baseImportPath "client") "core.ClientOption" header
            s).1,
          (headerOption x f (x.pathJoin f.baseImportPath "client") "core.ClientOption" header
            s).2)) headers
        (authOptionsLoop x f (x.pathJoin f.baseImportPath "client") "core.ClientOption"
          "*core.ClientOptions" auth.Docs 0 auth.Schemes none s').2
    have hlines : (WriteClientOptions x f (some auth) headers s').lines =
        fixedOptions ++ schemeOptions.flatten ++ customOptions.flatten := by
      simp only [WriteClientOptions]
      rw [hscheme, hcustom]
      simp only [List.append_assoc]
      rfl
    refine ⟨schemeOptions, customOptions, hlines, hschemes.imp ?_, hcustoms.imp ?_⟩
    · rintro authScheme segment ⟨t, hsegment⟩
      refine ⟨?_, ?_, ?_⟩
      · intro bearer hscheme
        rw [hsegment, hscheme]
        refine ⟨P ["// With", bearer.Token.PascalCase.UnsafeName,
          " sets the 'Authorization: Bearer <", bearer.Token.CamelCase.SafeName,
          ">' header on every request."], ?_⟩
        by_cases hdocs : (match auth.Docs with
            | some docs => decide (docs.length > 0)
            | none => false) = true
        · right
          simp only [authSchemeOption, optionLines, optionFunction.lines, optionBody, hdocs,
            if_true]
          simp [P, String.join, String.append_assoc]
        · left
          simp only [authSchemeOption, optionLines, optionFunction.lines, optionBody, hdocs]
          simp [P, String.join, String.append_assoc]
      · intro hscheme
        rw [hsegment, hscheme]
        refine ⟨P ["// WithBasicAuth sets the 'Authorization: Basic <base64>' header on every request."],
          ?_⟩
        by_cases hdocs : (match auth.Docs with
            | some docs => decide (docs.length > 0)
            | none => false) = true
        · right
          simp only [authSchemeOption, optionLines, optionFunction.lines, optionBody, hdocs,
            if_true]
          simp [P, String.join, String.append_assoc]
        · left
          simp only [authSchemeOption, optionLines, optionFunction.lines, optionBody, hdocs]
          simp [P, String.join, String.append_assoc]
      · intro header hscheme hliteral
        rw [hsegment, hscheme]
        refine ⟨P ["// ", "With" ++ header.Name.Name.PascalCase.UnsafeName, " sets the ",
            header.Name.Name.CamelCase.SafeName, " auth header on every request."],
          (x.typeReferenceToGoType header.ValueType f.scope f.baseImportPath
            (x.pathJoin f.baseImportPath "client") false t).1, ?_⟩
        by_cases hdocs : (match auth.Docs with
            | some docs => decide (docs.length > 0)
            | none => false) = true
        · right
          simp only [authSchemeOption, hliteral, optionLines, optionFunction.lines, optionBody,
            hdocs, if_true]
          simp [P, String.join, String.append_assoc]
          rfl
        · left
          simp only [authSchemeOption, hliteral, optionLines, optionFunction.lines, optionBody,
            hdocs]
          simp [P, String.join, String.append_assoc]
          rfl
    · rintro header segment ⟨t, hsegment⟩ hliteral
      rw [hsegment]
      refine ⟨P ["// ", "With" ++ header.Name.Name.PascalCase.UnsafeName, " sets the ",
          header.Name.Name.CamelCase.SafeName, " header on every request."],
        (x.typeReferenceToGoType header.ValueType f.scope f.baseImportPath
          (x.pathJoin f.baseImportPath "client") false t).1, ?_⟩
      by_cases hdocs : (match header.Docs with
          | some docs => decide (docs.length > 0)
          | none => false) = true
      · right
        cases hd : header.Docs with
        | none => rw [hd] at hdocs; cases hdocs
        | some docs =>
          rw [hd] at hdocs
          have hlen : docs.length > 0 := of_decide_eq_true hdocs
          simp only [headerOption, hliteral, optionLines, optionFunction.lines, optionBody, hd,
            hlen, if_true]
          simp [P, String.join, String.append_assoc]
          rfl
      · left
        cases hd : header.Docs with
        | none =>
          simp only [headerOption, hliteral, optionLines, optionFunction.lines, optionBody, hd]
          simp [P, String.join, String.append_assoc]
          rfl
        | some docs =>
          rw [hd] at hdocs
          have hlen : ¬ docs.length > 0 := fun h => hdocs (decide_eq_true h)
          simp only [headerOption, hliteral, optionLines, optionFunction.lines, optionBody, hd,
            hlen, if_false]
          simp [P, String.join, String.append_assoc]
          rfl

/-- Witness of C24 at the schemes `X-API-Version` (literal), bearer, basic and `X-API-Key`
and the custom headers `X-API-Version` (literal) and `X-Tenant`: one group of fields and one
group of option lines per scheme and per header; the header `X-Tenant` has the one field
`Tenant` and the one option `WithTenant`, whose closure assigns `opts.Tenant`. -/
theorem WriteClientOptions_contributions_witness :
    (∃ (schemeFields customFields : List (List String)) (after : List String),
      (WriteClientOptionsDefinition plainExternals emptyWriter (some exampleAuth)
          [versionHeader, tenantHeader] none none "" ()).lines =
        clientOptionsOpening ++ schemeFields.flatten ++ customFields.flatten ++
          newClientOptionsLines ++ after ∧
      schemeFields.length = 4 ∧ customFields.length = 2) ∧
    (∃ schemeOptions customOptions : List (List String),
      (WriteClientOptions plainExternals emptyWriter (some exampleAuth)
          [versionHeader, tenantHeader] ()).lines =
        fixedOptions ++ schemeOptions.flatten ++ customOptions.flatten ∧
      schemeOptions.length = 4 ∧ customOptions.length = 2) ∧
    ((WriteClientOptionsDefinition plainExternals emptyWriter (some exampleAuth)
        [versionHeader, tenantHeader] none none "" ()).lines.drop 10).take 6 =
      ["Token string", "Username string", "Password string", "APIKey any", "Tenant any",
        "\x7d"] ∧
    (WriteClientOptions plainExternals emptyWriter (some exampleAuth)
        [versionHeader, tenantHeader] ()).lines.drop 46 =
      [ "// WithTenant sets the tenant header on every request.",
        "//",
        "// The tenant.",
        "func WithTenant(tenant any) core.ClientOption \x7b",
        "return func(opts *core.ClientOptions) \x7b",
        "opts.Tenant = tenant",
        "\x7d",
        "\x7d",
        "" ] := by
  obtain ⟨⟨schemeFields, customFields, after, hlines, hschemes, hcustoms⟩,
      schemeOptions, customOptions, hoptions, hschemeOptions, hcustomOptions⟩ :=
    WriteClientOptions_contributions plainExternals emptyWriter exampleAuth
      [versionHeader, tenantHeader] none none "" () ()
  exact ⟨⟨schemeFields, customFields, after, hlines, hschemes.length_eq.symm,
      hcustoms.length_eq.symm⟩,
    ⟨schemeOptions, customOptions, hoptions, hschemeOptions.length_eq.symm,
      hcustomOptions.length_eq.symm⟩, by rfl, by rfl⟩

/-! ## The lines of `WriteRequestType`: properties -/

/-- Claim C19: for a wrapper request that `WriteRequestType` writes without error, the type
mapper giving a non-empty type for a reference body, the lines written are the declaration
of the struct with its getters followed by the serialization methods, and these are written
if and only if the endpoint has a request body and either one literal at least was collected
or the body is a reference; they are then `UnmarshalJSON` followed by `MarshalJSON`; the
literals collected are those of the headers and of the query parameters, followed with a
body by those of the body's fields; and a request without body gets no such method even when
it has literals. -/
theorem WriteRequestType_serialization_iff {σ Scope : Type} (x : Externals σ Scope)
    (f : fileWriter Scope) (fernFilepath : FernFilepath) (endpoint : HttpEndpoint)
    (includeGenericOptionals : Bool) (s s' : σ) (sdkRequest : SdkRequest)
    (wrapper : SdkRequestWrapper)
    (hrequest : endpoint.SdkRequest = some sdkRequest)
    (hwrapper : sdkRequest.Shape = .wrapper wrapper)
    (hmapper : ∀ t scope baseImportPath importPath flag s0,
      trimPrefix (x.typeReferenceToGoType t scope baseImportPath importPath flag s0).1 "*" ≠ "")
    (hok : (WriteRequestType x f fernFilepath endpoint includeGenericOptionals s).result =
      .ok ((), s')) :
    ∃ (fieldLiterals : List literal) (serialization : List String),
      (WriteRequestType x f fernFilepath endpoint includeGenericOptionals s).lines =
        (writeRequestTypeParts x f fernFilepath endpoint includeGenericOptionals
          s).declaration ++ serialization ∧
      (writeRequestTypeParts x f fernFilepath endpoint includeGenericOptionals s).literals =
        headerLiterals endpoint.Headers ++ queryLiterals endpoint.QueryParameters ++
          fieldLiterals ∧
      (endpoint.RequestBody = none → fieldLiterals = [] ∧ serialization = []) ∧
      (serialization ≠ [] ↔
        ∃ requestBody, endpoint.RequestBody = some requestBody ∧
          (headerLiterals endpoint.Headers ++ queryLiterals endpoint.QueryParameters ++
              fieldLiterals ≠ [] ∨ requestBody.Reference.isSome = true)) ∧
      (serialization ≠ [] →
        ∃ rest1 rest2,
          serialization =
            (unmarshalHeader (x.typeNameToReceiver wrapper.WrapperName.PascalCase.UnsafeName)
                wrapper.WrapperName.PascalCase.UnsafeName :: rest1) ++
              (marshalHeader (x.typeNameToReceiver wrapper.WrapperName.PascalCase.UnsafeName)
                wrapper.WrapperName.PascalCase.UnsafeName :: rest2)) := by
  have hok2 : (writeRequestTypeParts x f fernFilepath endpoint includeGenericOptionals
      s).result = .ok ((), s') := hok
  obtain ⟨hiff, hpair, ⟨fieldLiterals, hlits⟩, hnone⟩ := requestSerialization_iff x f
    fernFilepath endpoint includeGenericOptionals s s' sdkRequest wrapper hrequest hwrapper
    hmapper hok2
  refine ⟨fieldLiterals, (writeRequestTypeParts x f fernFilepath endpoint
    includeGenericOptionals s).serialization, rfl, hlits, ?_, ?_, hpair⟩
  · intro hbody
    have h := hnone hbody
    rw [hlits] at h
    refine ⟨List.append_cancel_left (h.trans (List.append_nil _).symm), ?_⟩
    by_contra hne
    obtain ⟨requestBody, hsome, _⟩ := hiff.1 hne
    rw [hbody] at hsome
    cases hsome
  · rw [← hlits]
    exact hiff

/-- Witness of C19 at `CreateUser`, whose inlined body comes with one literal header (the
pair is written), and at `GetVersion`, which has the literal header and no body (no pair is
written). -/
theorem WriteRequestType_serialization_iff_witness :
    (∃ serialization : List String,
      (WriteRequestType plainExternals emptyWriter rootFilepath createUserEndpoint false
          ()).lines =
        (writeRequestTypeParts plainExternals emptyWriter rootFilepath createUserEndpoint false
          ()).declaration ++ serialization ∧
      serialization ≠ []) ∧
    (∃ (fieldLiterals : List literal) (serialization : List String),
      (WriteRequestType plainExternals emptyWriter rootFilepath getVersionEndpoint false
          ()).lines =
        (writeRequestTypeParts plainExternals emptyWriter rootFilepath getVersionEndpoint false
          ()).declaration ++ serialization ∧
      fieldLiterals = [] ∧ serialization = []) ∧
    (WriteRequestType plainExternals emptyWriter rootFilepath getVersionEndpoint false
        ()).lines =
      [ "type GetVersionRequest struct \x7b",
        "apiVersion string",
        "\x7d",
        "",
        "func (r *GetVersionRequest) APIVersion()string\x7b",
        "return r.apiVersion",
        "\x7d",
        "" ] ∧
    ((WriteRequestType plainExternals emptyWriter rootFilepath createUserEndpoint false
        ()).lines.filter (containsText "JSON() ")) =
      [ "func (r *CreateUserRequest) MarshalJSON() ([]byte, error) \x7b" ] ∧
    ((WriteRequestType plainExternals emptyWriter rootFilepath createUserEndpoint false
        ()).lines.filter (containsText "JSON(data ")) =
      [ "func (r *CreateUserRequest) UnmarshalJSON(data []byte) error \x7b" ] := by
  obtain ⟨fieldLiterals, serialization, hlines, hlits, _, hiff, _⟩ :=
    WriteRequestType_serialization_iff plainExternals emptyWriter rootFilepath
      createUserEndpoint false () () (wrapperRequest "CreateUserRequest")
      { WrapperName := plainName "CreateUserRequest", BodyKey := plainName "Body" } rfl rfl
      plainExternals_mapper rfl
  obtain ⟨fieldLiterals2, serialization2, hlines2, _, hnone2, _, _⟩ :=
    WriteRequestType_serialization_iff plainExternals emptyWriter rootFilepath
      getVersionEndpoint false () () (wrapperRequest "GetVersionRequest")
      { WrapperName := plainName "GetVersionRequest", BodyKey := plainName "Body" } rfl rfl
      plainExternals_mapper rfl
  refine ⟨⟨serialization, hlines, hiff.2 ⟨_, rfl, Or.inl ?_⟩⟩,
    ⟨fieldLiterals2, serialization2, hlines2, hnone2 rfl⟩, by rfl, by rfl, by rfl⟩
  intro hnil
  have hheader : headerLiterals createUserEndpoint.Headers ≠ [] := by decide
  exact hheader (List.append_eq_nil.1 (List.append_eq_nil.1 hnil).1).1

/-- Claim C18, amended: for a request type written by `WriteRequestType` without error for
an endpoint whose request body is present and is not a reference, and which has a
literal-valued header or query parameter, the lines written are the declaration followed by
`UnmarshalJSON` and `MarshalJSON`, and `UnmarshalJSON` decodes the body into the request and
then, with no comparison in between, assigns its fixed value to the field of every literal
of the headers and of the query parameters, in order, before what it writes for the literals
of the body's fields and `return nil`. -/
theorem WriteRequestType_literals_assigned {σ Scope : Type} (x : Externals σ Scope)
    (f : fileWriter Scope) (fernFilepath : FernFilepath) (endpoint : HttpEndpoint)
    (includeGenericOptionals : Bool) (s s' : σ) (sdkRequest : SdkRequest)
    (wrapper : SdkRequestWrapper) (requestBody : HttpRequestBody)
    (hrequest : endpoint.SdkRequest = some sdkRequest)
    (hwrapper : sdkRequest.Shape = .wrapper wrapper)
    (hbody : endpoint.RequestBody = some requestBody)
    (hreference : requestBody.Reference = none)
    (hliterals : headerLiterals endpoint.Headers ++ queryLiterals endpoint.QueryParameters ≠ [])
    (hok : (WriteRequestType x f fernFilepath endpoint includeGenericOptionals s).result =
      .ok ((), s')) :
    ∃ (fieldAssignments marshal : List String),
      (WriteRequestType x f fernFilepath endpoint includeGenericOptionals s).lines =
        (writeRequestTypeParts x f fernFilepath endpoint includeGenericOptionals
          s).declaration ++
        [ unmarshalHeader (x.typeNameToReceiver wrapper.WrapperName.PascalCase.UnsafeName)
            wrapper.WrapperName.PascalCase.UnsafeName,
          "type unmarshaler " ++ wrapper.WrapperName.PascalCase.UnsafeName,
          "var body unmarshaler",
          "if err := json.Unmarshal(data, &body); err != nil \x7b",
          "return err",
          "\x7d",
          "*" ++ x.typeNameToReceiver wrapper.WrapperName.PascalCase.UnsafeName ++ " = " ++
            wrapper.WrapperName.PascalCase.UnsafeName ++ "(body)" ] ++
        (headerLiterals endpoint.Headers ++ queryLiterals endpoint.QueryParameters).map
          (literalAssignment x
            (x.typeNameToReceiver wrapper.WrapperName.PascalCase.UnsafeName)) ++
        fieldAssignments ++
        [ "return nil", "\x7d", "" ] ++
        (marshalHeader (x.typeNameToReceiver wrapper.WrapperName.PascalCase.UnsafeName)
          wrapper.WrapperName.PascalCase.UnsafeName :: marshal) := by
  have hok2 : (writeRequestTypeParts x f fernFilepath endpoint includeGenericOptionals
      s).result = .ok ((), s') := hok
  obtain ⟨fieldLiterals, referenceType, referenceIsPointer, referenceLiteral, hlits, hser,
    hnone, _⟩ := writeRequestTypeParts_body x f fernFilepath endpoint includeGenericOptionals
      s s' sdkRequest wrapper requestBody hrequest hwrapper hbody hok2
  obtain ⟨h1, h2, h3⟩ := hnone hreference
  subst h1 h2 h3
  have hcond : ¬ ((headerLiterals endpoint.Headers ++ queryLiterals endpoint.QueryParameters ++
      fieldLiterals).length = 0 ∧ ("" : String).length = 0) := by
    rintro ⟨h, _⟩
    exact hliterals (List.append_eq_nil.1 (List.length_eq_zero.1 h)).1
  have hmarshal : requestMarshalJSON x
      (x.typeNameToReceiver wrapper.WrapperName.PascalCase.UnsafeName)
      wrapper.WrapperName.PascalCase.UnsafeName wrapper.BodyKey.PascalCase.UnsafeName "" ""
      (headerLiterals endpoint.Headers ++ queryLiterals endpoint.QueryParameters ++
        fieldLiterals) =
      marshalHeader (x.typeNameToReceiver wrapper.WrapperName.PascalCase.UnsafeName)
          wrapper.WrapperName.PascalCase.UnsafeName ::
        (requestMarshalJSON x
          (x.typeNameToReceiver wrapper.WrapperName.PascalCase.UnsafeName)
          wrapper.WrapperName.PascalCase.UnsafeName wrapper.BodyKey.PascalCase.UnsafeName "" ""
          (headerLiterals endpoint.Headers ++ queryLiterals endpoint.QueryParameters ++
            fieldLiterals)).tail := by
    have h2 : P ["func (", x.typeNameToReceiver wrapper.WrapperName.PascalCase.UnsafeName, " *",
        wrapper.WrapperName.PascalCase.UnsafeName, ") MarshalJSON() ([]byte, error) \x7b"] =
        marshalHeader (x.typeNameToReceiver wrapper.WrapperName.PascalCase.UnsafeName)
          wrapper.WrapperName.PascalCase.UnsafeName := by
      simp [P, String.join, marshalHeader, String.append_assoc]
    simp only [requestMarshalJSON, h2, List.singleton_append, List.cons_append,
      List.tail_cons, List.append_assoc]
  obtain ⟨marshal, hmarshal2⟩ : ∃ marshal, requestMarshalJSON x
      (x.typeNameToReceiver wrapper.WrapperName.PascalCase.UnsafeName)
      wrapper.WrapperName.PascalCase.UnsafeName wrapper.BodyKey.PascalCase.UnsafeName "" ""
      (headerLiterals endpoint.Headers ++ queryLiterals endpoint.QueryParameters ++
        fieldLiterals) =
      marshalHeader (x.typeNameToReceiver wrapper.WrapperName.PascalCase.UnsafeName)
          wrapper.WrapperName.PascalCase.UnsafeName :: marshal := ⟨_, hmarshal⟩
  refine ⟨fieldLiterals.map
      (literalAssignment x (x.typeNameToReceiver wrapper.WrapperName.PascalCase.UnsafeName)),
    marshal, ?_⟩
  show (writeRequestTypeParts x f fernFilepath endpoint includeGenericOptionals s).declaration ++
      (writeRequestTypeParts x f fernFilepath endpoint includeGenericOptionals
        s).serialization = _
  rw [hser]
  simp only [requestSerialization, hcond, if_false]
  rw [requestUnmarshalJSON_inlined, hmarshal2]
  simp only [List.map_append, List.append_assoc]

/-- Witness of the amended C18 at `CreateUser`: the only literal is the one of the header
`X-API-Version`, and `UnmarshalJSON` assigns it right after decoding the body. -/
theorem WriteRequestType_literals_assigned_witness :
    (∃ (fieldAssignments marshal : List String),
      (WriteRequestType plainExternals emptyWriter rootFilepath createUserEndpoint false
          ()).lines =
        (writeRequestTypeParts plainExternals emptyWriter rootFilepath createUserEndpoint false
          ()).declaration ++
        [ "func (r *CreateUserRequest) UnmarshalJSON(data []byte) error \x7b",
          "type unmarshaler CreateUserRequest",
          "var body unmarshaler",
          "if err := json.Unmarshal(data, &body); err != nil \x7b",
          "return err",
          "\x7d",
          "*r = CreateUserRequest(body)" ] ++
        ["r.apiVersion = \"v1\""] ++
        fieldAssignments ++
        [ "return nil", "\x7d", "" ] ++
        ("func (r *CreateUserRequest) MarshalJSON() ([]byte, error) \x7b" :: marshal)) ∧
    ((WriteRequestType plainExternals emptyWriter rootFilepath createUserEndpoint false
        ()).lines.drop 9).take 11 =
      [ "func (r *CreateUserRequest) UnmarshalJSON(data []byte) error \x7b",
        "type unmarshaler CreateUserRequest",
        "var body unmarshaler",
        "if err := json.Unmarshal(data, &body); err != nil \x7b",
        "return err",
        "\x7d",
        "*r = CreateUserRequest(body)",
        "r.apiVersion = \"v1\"",
        "return nil",
        "\x7d",
        "" ] := by
  obtain ⟨fieldAssignments, marshal, hlines⟩ :=
    WriteRequestType_literals_assigned plainExternals emptyWriter rootFilepath
      createUserEndpoint false () () (wrapperRequest "CreateUserRequest")
      { WrapperName := plainName "CreateUserRequest", BodyKey := plainName "Body" }
      (.inlinedRequestBody
        { Name := plainName "CreateUserRequest", Extends := [],
          Properties :=
            [{ Docs := none,
               Name := { WireValue := "name", Name := casedName "name" "name" "Name" },
               ValueType := .primitive .PrimitiveTypeString }] })
      rfl rfl rfl rfl (by decide) rfl
  exact ⟨⟨fieldAssignments, marshal, hlines.trans (by rfl)⟩, by rfl⟩

end FernGo
